import Mathlib

/-!
Mock upload service: the upload choreography.

A shallow embedding of the handlers of `mock-upload-service`
(`pkg/service/handlers`), of the storage-node client (`pkg/piriclient`), of the
indexer client (`pkg/indexerclient`) and of the in-memory state store
(`pkg/state`).

Conventions.

* A handler run is a pure function of its inputs, of the store it starts from
  and of the answers its collaborators give during the run; it yields the
  handler's outcome, the store it leaves and the list of calls it made.
* Bytes are natural numbers below 256, times are seconds, `uint64` sizes are
  natural numbers (no arithmetic is done on them).
* What the UCAN/IPLD libraries compute (content addresses, parsing, signing
  failures) is taken as a parameter, the record `Lib`.
-/

namespace Smelt

/-! ## Values -/

/-- An `ipld.Link`: a content address, shown by `String()`. -/
structure Link where
  cid : String
deriving DecidableEq, Repr

/-- Rendering of a link, `Link.String()`. -/
def Link.String (l : Link) : String := l.cid

/-- A `did.DID`, kept as the string `String()` renders. -/
structure DID where
  str : String
deriving DecidableEq, Repr

/-- Rendering of a DID, `DID.String()`. -/
def DID.String (d : DID) : String := d.str

/-- A `principal.Signer`: its DID and its encoded private key (`Encode()`). -/
structure Signer where
  did : DID
  key : List Nat
deriving DecidableEq, Repr

/-- An IPLD block: its link and its bytes. -/
structure Block where
  link : Link
  bytes : List Nat
deriving DecidableEq, Repr

/-- An IPLD data-model node. -/
inductive Node where
  | null
  | bool (b : Bool)
  | int (i : Int)
  | string (s : String)
  | bytes (b : List Nat)
  | link (l : Link)
  | list (xs : List Node)
  | map (kvs : List (String × Node))

/-- The call `LookupByString` on a node: only a map has entries. -/
def Node.LookupByString : Node → String → Except String Node
  | .map kvs, k =>
    match kvs.lookup k with
    | some v => .ok v
    | none => .error ("key not found: " ++ k)
  | _, _ => .error "not a map"

/-- The call `AsString` on a node. -/
def Node.AsString : Node → Except String String
  | .string s => .ok s
  | _ => .error "not a string"

/-- The call `AsLink` on a node. -/
def Node.AsLink : Node → Except String Link
  | .link l => .ok l
  | _ => .error "not a link"

/-- One hexadecimal digit, lower case as `encoding/hex` writes it. -/
def hexDigit (n : Nat) : Char :=
  "0123456789abcdef".toList.getD (n % 16) '0'

/-- The function `hex.EncodeToString`: two digits per byte. -/
def hexEncode (bs : List Nat) : String :=
  String.mk (bs.flatMap fun b => [hexDigit (b / 16), hexDigit b])

/-- A `captypes.Promise` or `blobcap.Promise`: the await of a selector on the
receipt of another task. -/
structure Promise where
  selector : String
  link : Link
deriving DecidableEq, Repr

/-- A `captypes.Blob`. -/
structure Blob where
  digest : List Nat
  size : Nat
deriving DecidableEq, Repr

/-- An `httpcap.Body`. -/
structure Body where
  digest : List Nat
  size : Nat
deriving DecidableEq, Repr

/-- The caveats of an `http/put` capability (`httpcap.PutCaveats`). -/
structure PutCaveats where
  url : Promise
  headers : Promise
  body : Body
deriving DecidableEq, Repr

/-- The caveats (`nb`) of the capabilities the service builds or reads. -/
inductive Caveats where
  | allocate (space : DID) (blob : Blob) (cause : Link)
  | accept (space : DID) (blob : Blob) (put : Promise)
  | httpPut (c : PutCaveats)
  | conclude (receipt : Link)
  | cache (claim : Link) (addresses : List String)
  | index (content : Link) (index : Link)
  | retrieve (nb : Node)
  | raw (nb : Node)

/-- A `ucan.Capability`: ability, resource and caveats. -/
structure Capability where
  can : String
  resource : String
  nb : Caveats

/-- A delegation as the UCAN library holds it: the signed root (issuer,
audience, capabilities, facts, proof links, expiration) and the blocks
travelling with it. An invocation is a delegation meant to be run. -/
structure Delegation where
  issuer : DID
  audience : DID
  capabilities : List Capability
  facts : List (List (String × Node))
  proofs : List Link
  expiration : Option Nat
  blocks : List Block

/-- An `invocation.Invocation`. -/
abbrev Invocation := Delegation

/-! ## The UCAN library -/

/-- The options a delegation is issued with (`delegation.Option`). -/
inductive DelegationOption where
  | WithNoExpiration
  | WithProof (proof : Delegation)
  | WithFacts (facts : List (Except String (List (String × Node))))

/-- A `result.Result` carried by a receipt read off the wire: the ok node or
the error node, either of which may be nil. -/
inductive Out where
  | ok (n : Option Node)
  | error (n : Option Node)

/-- The function `result.Unwrap`: the ok value and the error value, the absent
side being nil. -/
def Out.Unwrap : Out → Option Node × Option Node
  | .ok n => (n, none)
  | .error n => (none, n)

/-- The `ran` of a receipt: the invocation itself or only its link. -/
inductive Ran where
  | link (l : Option Link)
  | invocation (inv : Invocation)

/-- The call `Ran.Invocation()`: the invocation, when the receipt carries it. -/
def Ran.Invocation : Ran → Option Invocation
  | .invocation inv => some inv
  | .link _ => none

/-- A `receipt.AnyReceipt` read from a response or from attached blocks. -/
structure AnyReceipt where
  root : Link
  ran : Ran
  out : Out
  blocks : List (Except String Block)

/-- The payload `blobcap.Address`. -/
structure Address where
  url : String
  headers : List (String × String)
  expires : Nat
deriving DecidableEq, Repr

/-- The payload `blobcap.AllocateOk`. -/
structure AllocateOk where
  size : Nat
  address : Option Address
deriving DecidableEq, Repr

/-- The failure record `fdm.FailureModel`; its zero value has no name, an
empty message and no stack. -/
structure FailureModel where
  name : Option String
  message : String
  stack : Option String
deriving DecidableEq, Repr

/-- The payload `blobcap.AcceptOk`. -/
structure AcceptOk where
  site : Option Link
deriving DecidableEq, Repr

/-- A receipt issued by `receipt.Issue` with an `AcceptOk` payload. -/
structure Receipt where
  issuer : DID
  ran : Option Link
  out : AcceptOk
deriving DecidableEq, Repr

/-- A `client.ExecutionResponse`: the receipt link of each invocation link
(`Get`) and the blocks (`Blocks`). -/
structure Response where
  receipts : List (Link × Link)
  blocks : List Block

/-- The call `resp.Get`. -/
def Response.Get (r : Response) (inv : Link) : Option Link :=
  r.receipts.lookup inv

/-- What the UCAN, IPLD and libp2p libraries compute for the service. Every
field is a function of its arguments only. -/
structure Lib where
  -- `did.Parse`
  didParse : String → Except String DID
  -- `Link()` of a delegation or invocation: the address of its signed root
  link : Delegation → Link
  -- failure of `Invoke` / `Delegate` (encoding or signing)
  issueErr : Signer → Delegation → Option String
  -- lifetime `Invoke` gives by default, in seconds
  defaultLifetime : Nat
  -- failure of `receipt.Issue`
  receiptIssueErr : Signer → AcceptOk → Option Link → Option String
  -- `receipt.NewAnyReceiptReader(...).Read`
  readReceipt : Link → List Block → Except String AnyReceipt
  -- `httpcap.Put.Match` on the first capability of an invocation
  matchPut : Capability → Invocation → Except String PutCaveats
  -- `receipt.Rebind` to `AllocateOk`, then `Out()`
  rebindAllocate : AnyReceipt → Except String (Except FailureModel AllocateOk)
  -- `blockstore.NewBlockReader` then `delegation.NewDelegationView`
  newBlockReader : List (Except String Block) → Except String (List Block)
  newDelegationView : Link → List Block → Except String Delegation
  -- `verifier.Decode`, `crypto.UnmarshalEd25519PublicKey`, `peer.IDFromPublicKey`
  verifierDecode : DID → Except String (List Nat)
  unmarshalEd25519PublicKey : List Nat → Except String (List Nat)
  idFromPublicKey : List Nat → Except String String
  -- `multiaddr.NewMultiaddr`: whether the text parses
  newMultiaddr : String → Except String String
  -- `contentcap.RetrieveCaveatsReader.Read` on the caveats of a capability
  readRetrieveCaveats : Caveats → Except String Node

/-- The facts of the options, in order; the first builder that fails stops
the issue. -/
def collectFacts : List (Except String (List (String × Node))) →
    Except String (List (List (String × Node)))
  | [] => .ok []
  | .error e :: _ => .error e
  | .ok f :: rest =>
    match collectFacts rest with
    | .error e => .error e
    | .ok fs => .ok (f :: fs)

/-- Whether an option list asks for no expiration. -/
def hasNoExpiration : List DelegationOption → Bool
  | [] => false
  | .WithNoExpiration :: _ => true
  | _ :: rest => hasNoExpiration rest

/-- The proofs of an option list; a later `WithProof` replaces an earlier. -/
def optProofs : List DelegationOption → List Delegation
  | [] => []
  | .WithProof p :: rest =>
    match optProofs rest with
    | [] => [p]
    | later => later
  | _ :: rest => optProofs rest

/-- The fact builders of an option list; a later `WithFacts` replaces an
earlier. -/
def optFacts : List DelegationOption → List (Except String (List (String × Node)))
  | [] => []
  | .WithFacts fs :: rest =>
    match optFacts rest with
    | [] => fs
    | later => later
  | _ :: rest => optFacts rest

/-- The calls `Capability.Invoke` and `Capability.Delegate`: a delegation from
`issuer` to `audience` of one capability. Without `WithNoExpiration` it expires
`defaultLifetime` after `now`; the blocks of the proofs travel with it. -/
def Invoke (lib : Lib) (now : Nat) (issuer : Signer) (audience : DID)
    (can : String) (resource : String) (nb : Caveats)
    (opts : List DelegationOption) : Except String Delegation :=
  match collectFacts (optFacts opts) with
  | .error e => .error e
  | .ok facts =>
    let d : Delegation :=
      { issuer := issuer.did
        audience := audience
        capabilities := [{ can := can, resource := resource, nb := nb }]
        facts := facts
        proofs := (optProofs opts).map lib.link
        expiration := if hasNoExpiration opts then none else some (now + lib.defaultLifetime)
        blocks := (optProofs opts).flatMap fun p => p.blocks }
    match lib.issueErr issuer d with
    | some e => .error e
    | none => .ok d

/-! ## Package `state` -/

/-- The record `state.Allocation`, as the handlers fill and read it. -/
structure Allocation where
  Space : DID
  Digest : List Nat
  Size : Nat
  Cause : Link
  ExpiresAt : Nat
  PiriNode : String
  UploadURL : Option String
  AcceptInvLink : Option Link
deriving DecidableEq, Repr

/-- The assignment `alloc.AcceptInvLink = link`. -/
def Allocation.setAcceptInvLink (alloc : Allocation) (link : Link) : Allocation :=
  { alloc with AcceptInvLink := some link }

/-- The record `state.StoredReceipt`. -/
structure StoredReceipt where
  Task : Option Link
  Receipt : Receipt
  ExtraBlocks : List Block
  AddedAt : Nat
deriving DecidableEq, Repr

/-- The record `state.Provider`: a registered storage node. -/
structure Provider where
  DID : String
  Endpoint : Option String
deriving DecidableEq, Repr

/-- The in-memory `state.Store`: the maps the handlers use. A Go map is kept
as the function from keys to the value present, if any; the providers, which
`GetFirstProvider` ranges over, are kept as the list of entries. The Go maps
hold pointers; a record is kept here by value, which agrees with the Go store
whenever a handler returns: the one change `space/blob/add` makes to a record
it has stored (`AcceptInvLink`) is followed directly by storing it again. -/
structure Store where
  allocations : String → Option Allocation
  receipts : String → Option StoredReceipt
  providers : List (String × Provider)

/-- The constructor `NewStore`: every map empty. -/
def NewStore : Store :=
  { allocations := fun _ => none
    receipts := fun _ => none
    providers := [] }

/-- The method `Store.PutAllocation`. -/
def Store.PutAllocation (s : Store) (key : String) (alloc : Allocation) :
    Option String × Store :=
  (none, { s with allocations := fun k => if k = key then some alloc else s.allocations k })

/-- The method `Store.GetAllocation`: `(nil, nil)` for an absent key. -/
def Store.GetAllocation (s : Store) (key : String) : Except String (Option Allocation) :=
  .ok (s.allocations key)

/-- The method `Store.DeleteAllocation`. -/
def Store.DeleteAllocation (s : Store) (key : String) : Option String × Store :=
  (none, { s with allocations := fun k => if k = key then none else s.allocations k })

/-- The method `Store.PutReceipt`. -/
def Store.PutReceipt (s : Store) (taskCID : String) (rcpt : StoredReceipt) :
    Option String × Store :=
  (none, { s with receipts := fun k => if k = taskCID then some rcpt else s.receipts k })

/-- The method `Store.GetReceipt`: `(nil, nil)` for an absent key. -/
def Store.GetReceipt (s : Store) (taskCID : String) : Except String (Option StoredReceipt) :=
  .ok (s.receipts taskCID)

/-- The method `Store.GetFirstProvider`: the first entry a `range` over the
provider map yields. Go leaves the order of that range open; `order` is the
position the range starts at in this call. -/
def Store.GetFirstProvider (s : Store) (order : Nat) : Except String (Option Provider) :=
  match s.providers with
  | [] => .ok none
  | p :: ps => .ok (some ((p :: ps).getD (order % (p :: ps).length) p).2)

/-- The interface `state.StateStore`, as far as the handlers call it, over a
store of type `σ`. A write returns its error, if any, and the store it leaves;
a read returns its result and leaves the store as it is. -/
structure StateStore (σ : Type) where
  PutAllocation : σ → String → Allocation → Option String × σ
  GetAllocation : σ → String → Except String (Option Allocation)
  GetFirstProvider : σ → Except String (Option Provider)
  PutReceipt : σ → String → StoredReceipt → Option String × σ
  GetReceipt : σ → String → Except String (Option StoredReceipt)

/-- The in-memory store as a `StateStore` (`var _ StateStore = (*Store)(nil)`). -/
def Store.asStateStore (order : Nat) : StateStore Store :=
  { PutAllocation := Store.PutAllocation
    GetAllocation := Store.GetAllocation
    GetFirstProvider := fun s => s.GetFirstProvider order
    PutReceipt := Store.PutReceipt
    GetReceipt := Store.GetReceipt }

/-! ## Abilities -/

/-- The ability `blobcap.AllocateAbility`. -/
def AllocateAbility : String := "blob/allocate"

/-- The ability `blobcap.AcceptAbility`. -/
def AcceptAbility : String := "blob/accept"

/-- The ability `httpcap.PutAbility`. -/
def PutAbility : String := "http/put"

/-- The ability `ucancap.ConcludeAbility`. -/
def ConcludeAbility : String := "ucan/conclude"

/-- The ability `claimcap.CacheAbility`. -/
def CacheAbility : String := "claim/cache"

/-- The ability `assertcap.IndexAbility`. -/
def IndexAbility : String := "assert/index"

/-- The ability `contentcap.RetrieveAbility`. -/
def RetrieveAbility : String := "space/content/retrieve"

/-- The text the clients extract from the error node of a receipt: its
`message` if that is a non-empty string, else its `name`, else
`unknown error`. -/
def errDetails (errNode : Node) : String :=
  let fromMessage : String :=
    match errNode.LookupByString "message" with
    | .ok msgNode =>
      match msgNode.AsString with
      | .ok msg => msg
      | .error _ => ""
    | .error _ => ""
  let fromName : String :=
    if fromMessage = "" then
      match errNode.LookupByString "name" with
      | .ok nameNode =>
        match nameNode.AsString with
        | .ok name => name
        | .error _ => ""
      | .error _ => ""
    else fromMessage
  if fromName = "" then "unknown error" else fromName

/-! ## Package `piriclient` -/

/-- The storage-node client `piriclient.Client`. The connection answers an
execution with a response or a transport error; the fetcher, when there is
one, answers `GetDelegation`. -/
structure Client where
  endpoint : String
  piriDID : DID
  signer : Signer
  connection : List Invocation → Except String Response
  delegationFetcher : Option (String → Except String (Option Delegation))

/-- The request `piriclient.AllocateRequest`. -/
structure AllocateRequest where
  Space : DID
  Digest : List Nat
  Size : Nat
  Cause : Link
deriving DecidableEq, Repr

/-- The response `piriclient.AllocateResponse`. -/
structure AllocateResponse where
  Size : Nat
  Address : Option Address
deriving DecidableEq, Repr

/-- The request `piriclient.AcceptRequest`. -/
structure AcceptRequest where
  Space : DID
  Digest : List Nat
  Size : Nat
  Put : Link
deriving DecidableEq, Repr

/-- The response `piriclient.AcceptResponse`. -/
structure AcceptResponse where
  Site : Option Link
deriving DecidableEq, Repr

/-- The method `Client.fetchDelegationOpts`. -/
def Client.fetchDelegationOpts (c : Client) : Except String (List DelegationOption) :=
  match c.delegationFetcher with
  | some fetcher =>
    match fetcher c.piriDID.String with
    | .error e => .error ("fetching delegation: " ++ e)
    | .ok (some proof) => .ok [.WithProof proof]
    | .ok none => .ok []
  | none => .ok []

/-- The method `Client.PiriDID`. -/
def Client.PiriDID (c : Client) : DID := c.piriDID

/-- The method `Client.Allocate`: the response, the invocation that was sent
and the node's receipt, or the error. -/
def Client.Allocate (lib : Lib) (now : Nat) (c : Client) (req : AllocateRequest) :
    Except String (AllocateResponse × Invocation × AnyReceipt) :=
  match c.fetchDelegationOpts with
  | .error e => .error e
  | .ok opts =>
  match Invoke lib now c.signer c.piriDID AllocateAbility c.piriDID.String
      (.allocate req.Space { digest := req.Digest, size := req.Size } req.Cause) opts with
  | .error e => .error ("creating allocate invocation: " ++ e)
  | .ok inv =>
  match c.connection [inv] with
  | .error e => .error ("executing allocate invocation: " ++ e)
  | .ok resp =>
  match resp.Get (lib.link inv) with
  | none => .error "receipt not found for invocation"
  | some rcptLink =>
  match lib.readReceipt rcptLink resp.blocks with
  | .error e => .error ("reading receipt: " ++ e)
  | .ok anyRcpt =>
  match anyRcpt.out.Unwrap with
  | (_, some errNode) => .error ("allocate failed: " ++ errDetails errNode)
  | (none, none) => .error "allocate returned nil result"
  | (some _, none) =>
  match lib.rebindAllocate anyRcpt with
  | .error e => .error ("rebinding receipt: " ++ e)
  | .ok (.error failErr) =>
    if failErr ≠ { name := none, message := "", stack := none } then
      .error ("allocate failed: " ++ failErr.message)
    else .ok ({ Size := 0, Address := none }, inv, anyRcpt)
  | .ok (.ok allocateOk) =>
    .ok ({ Size := allocateOk.size, Address := allocateOk.address }, inv, anyRcpt)

/-- The method `Client.Accept`: the response and the node's receipt, or the
error. -/
def Client.Accept (lib : Lib) (now : Nat) (c : Client) (req : AcceptRequest) :
    Except String (AcceptResponse × AnyReceipt) :=
  match c.fetchDelegationOpts with
  | .error e => .error e
  | .ok opts =>
  match Invoke lib now c.signer c.piriDID AcceptAbility c.piriDID.String
      (.accept req.Space { digest := req.Digest, size := req.Size }
        { selector := ".out.ok", link := req.Put })
      (opts ++ [.WithNoExpiration]) with
  | .error e => .error ("creating accept invocation: " ++ e)
  | .ok inv =>
  match c.connection [inv] with
  | .error e => .error ("executing accept invocation: " ++ e)
  | .ok resp =>
  match resp.Get (lib.link inv) with
  | none => .error "receipt not found for invocation"
  | some rcptLink =>
  match lib.readReceipt rcptLink resp.blocks with
  | .error e => .error ("reading receipt: " ++ e)
  | .ok anyRcpt =>
  match anyRcpt.out.Unwrap with
  | (_, some errNode) => .error ("accept failed: " ++ errDetails errNode)
  | (none, none) => .error "accept returned nil result"
  | (some okNode, none) =>
    let site : Option Link :=
      match okNode.LookupByString "site" with
      | .ok siteNode =>
        match siteNode.AsLink with
        | .ok siteLink => some siteLink
        | .error _ => none
      | .error _ => none
    .ok ({ Site := site }, anyRcpt)

/-! ## Package `indexerclient` -/

/-- The indexer client `indexerclient.Client`. -/
structure IndexerClient where
  endpoint : String
  indexerDID : DID
  signer : Signer
  connection : List Invocation → Except String Response

/-- The method `Client.CacheLocationClaim` of the indexer client: the error,
if any. -/
def IndexerClient.CacheLocationClaim (lib : Lib) (now : Nat) (c : IndexerClient)
    (claim : Delegation) (providerAddrs : List String) : Option String :=
  match Invoke lib now c.signer c.indexerDID CacheAbility c.signer.did.String
      (.cache (lib.link claim) providerAddrs) [.WithProof claim] with
  | .error e => some ("creating claim/cache invocation: " ++ e)
  | .ok inv =>
  match c.connection [inv] with
  | .error e => some ("executing claim/cache: " ++ e)
  | .ok resp =>
  match resp.Get (lib.link inv) with
  | none => some "receipt not found for invocation"
  | some rcptLink =>
  match lib.readReceipt rcptLink resp.blocks with
  | .error e => some ("reading receipt: " ++ e)
  | .ok anyRcpt =>
  match anyRcpt.out.Unwrap with
  | (_, some errNode) => some ("claim/cache failed: " ++ errDetails errNode)
  | (_, none) => none

/-- The fact `retrievalAuthFact`. -/
structure retrievalAuthFact where
  link : Link
deriving DecidableEq, Repr

/-- The method `retrievalAuthFact.ToIPLD`. -/
def retrievalAuthFact.ToIPLD (f : retrievalAuthFact) :
    Except String (List (String × Node)) :=
  .ok [("retrievalAuth", .link f.link)]

/-- The delegation `indexerDelegation` that `PublishIndexClaim` issues from the
upload service to the indexer when it is given the client's retrieval
delegation. -/
def IndexerClient.PublishIndexClaim.indexerDelegation (lib : Lib) (now : Nat)
    (c : IndexerClient) (spaceDID : String) (clientAuth : Delegation) :
    Except String Delegation :=
  let caps := clientAuth.capabilities
  match caps with
  | [] => .error "no capabilities in retrieval auth delegation"
  | cap0 :: _ =>
  match lib.readRetrieveCaveats cap0.nb with
  | .error readErr => .error ("reading retrieval caveats: " ++ readErr)
  | .ok origCaveats =>
  match Invoke lib now c.signer c.indexerDID RetrieveAbility spaceDID (.retrieve origCaveats)
      [.WithNoExpiration, .WithProof clientAuth] with
  | .error delegateErr => .error ("creating indexer delegation: " ++ delegateErr)
  | .ok indexerDelegation => .ok indexerDelegation

/-- The options `opts` that `PublishIndexClaim` gives the `assert/index`
invocation. -/
def IndexerClient.PublishIndexClaim.opts (lib : Lib) (now : Nat) (c : IndexerClient)
    (spaceDID : String) (clientAuth : Option Delegation) :
    Except String (List DelegationOption) :=
  match clientAuth with
  | none => .ok []
  | some clientAuth =>
    match IndexerClient.PublishIndexClaim.indexerDelegation lib now c spaceDID clientAuth with
    | .error e => .error e
    | .ok indexerDelegation =>
      .ok [.WithFacts [retrievalAuthFact.ToIPLD { link := lib.link indexerDelegation }],
           .WithProof indexerDelegation]

/-- The `assert/index` invocation `inv` that `PublishIndexClaim` builds and
sends. -/
def IndexerClient.PublishIndexClaim.inv (lib : Lib) (now : Nat) (c : IndexerClient)
    (spaceDID : String) (content index : Link) (clientAuth : Option Delegation) :
    Except String Invocation :=
  match IndexerClient.PublishIndexClaim.opts lib now c spaceDID clientAuth with
  | .error e => .error e
  | .ok opts =>
  match Invoke lib now c.signer c.indexerDID IndexAbility c.signer.did.String
      (.index content index) opts with
  | .error e => .error ("creating assert/index invocation: " ++ e)
  | .ok inv => .ok inv

/-- The method `Client.PublishIndexClaim` of the indexer client: the error,
if any. -/
def IndexerClient.PublishIndexClaim (lib : Lib) (now : Nat) (c : IndexerClient)
    (spaceDID : String) (content index : Link) (clientAuth : Option Delegation) :
    Option String :=
  match IndexerClient.PublishIndexClaim.inv lib now c spaceDID content index clientAuth with
  | .error e => some e
  | .ok inv =>
  match c.connection [inv] with
  | .error e => some ("executing assert/index: " ++ e)
  | .ok resp =>
  match resp.Get (lib.link inv) with
  | none => some "receipt not found for invocation"
  | some rcptLink =>
  match lib.readReceipt rcptLink resp.blocks with
  | .error e => some ("reading receipt: " ++ e)
  | .ok anyRcpt =>
  match anyRcpt.out.Unwrap with
  | (_, some errNode) => some ("assert/index failed: " ++ errDetails errNode)
  | (_, none) => none

/-! ## Package `handlers` -/

/-- The fork effects of a handler (`fx.NewEffects(fx.WithFork(...))`), each
effect an invocation. -/
structure Effects where
  fork : List Invocation

/-- What a handler run ends in: `result.Ok` with its effects (`none` for nil),
`result.Error` of a failure with that message, an execution error
(`nil, nil, err`), or a run-time panic. -/
inductive Outcome (α : Type) where
  | ok (payload : α) (fx : Option Effects)
  | failure (message : String)
  | error (message : String)
  | panic

/-- A call a handler makes on a collaborator, with what it passed and what
came back. -/
inductive Event where
  | PiriClient (res : Except String (Option DID))
  | Allocate (node : DID) (req : AllocateRequest) (err : Option String)
  | GetFirstProvider (res : Except String (Option Provider))
  | PutAllocation (key : String) (alloc : Allocation) (err : Option String)
  | GetAllocation (key : String) (res : Except String (Option Allocation))
  | Accept (node : DID) (req : AcceptRequest) (err : Option String)
  | CacheLocationClaim (claim : Link) (addrs : List String) (err : Option String)
  | PutReceipt (key : String) (rcpt : StoredReceipt) (err : Option String)
  | PublishIndexClaim (space : String) (content : Link) (index : Link)
      (clientAuth : Option Delegation) (err : Option String)

/-- A handler run: the outcome, the store left behind and the calls made, in
order. -/
structure Run (σ : Type) (α : Type) where
  outcome : Outcome α
  store : σ
  calls : List Event

/-- The service a handler is registered on (`SpaceBlobAddService`,
`UCANConcludeService`): its signer, its state store, what `PiriClient(ctx)`
answers during the run and its indexer client, if configured. -/
structure Service (σ : Type) where
  ID : Signer
  State : StateStore σ
  PiriClient : Except String (Option Client)
  IndexerClient : Option IndexerClient

/-- The payload `spaceblobcap.AddOk`. -/
structure AddOk where
  Site : Promise
deriving DecidableEq, Repr

/-- The payload `ucancap.ConcludeOk`. -/
structure ConcludeOk where
deriving DecidableEq, Repr

/-- The fact `httpPutFact`. -/
structure httpPutFact where
  id : String
  key : List Nat
deriving DecidableEq, Repr

/-- The method `httpPutFact.ToIPLD`: the inner map `n` has the entries `id`
and `keys`; the result holds `n` under the key `keys`. -/
def httpPutFact.ToIPLD (hpf : httpPutFact) : Except String (List (String × Node)) :=
  let n : Node := .map [("id", .string hpf.id), ("keys", .map [(hpf.id, .bytes hpf.key)])]
  .ok [("keys", n)]

/-- The loop attaching the blocks of a receipt to an invocation
(`concludeInv.Attach(blk)`); the first block that fails to iterate stops it. -/
def attachBlocks (inv : Invocation) : List (Except String Block) → Except String Invocation
  | [] => .ok inv
  | .error e :: _ => .error e
  | .ok blk :: rest => attachBlocks { inv with blocks := inv.blocks ++ [blk] } rest

/-! ### `space/blob/add`

The values the handler builds are named after its local variables. -/

/-- The request the handler passes to `piriClient.Allocate`. -/
def spaceBlobAdd.req (lib : Lib) (spaceDID : DID) (blobInfo : Blob) (inv : Invocation) :
    AllocateRequest :=
  { Space := spaceDID, Digest := blobInfo.digest, Size := blobInfo.size, Cause := lib.link inv }

/-- The upload URL of the allocation, with the store call made to find it: the
address the node returned, else the endpoint of `GetFirstProvider`, else nil. -/
def spaceBlobAdd.uploadURL {σ : Type} (State : StateStore σ) (st : σ)
    (allocResp : AllocateResponse) : Option String × List Event :=
  match allocResp.Address with
  | some address => (some address.url, [])
  | none =>
    match State.GetFirstProvider st with
    | .error e => (none, [.GetFirstProvider (.error e)])
    | .ok none => (none, [.GetFirstProvider (.ok none)])
    | .ok (some firstProvider) =>
      (firstProvider.Endpoint, [.GetFirstProvider (.ok (some firstProvider))])

/-- The allocation record `alloc` as first stored, without `AcceptInvLink`. -/
def spaceBlobAdd.alloc (lib : Lib) (now : Nat) (spaceDID : DID) (blobInfo : Blob)
    (inv : Invocation) (piriClient : Client) (uploadURL : Option String) : Allocation :=
  { Space := spaceDID
    Digest := blobInfo.digest
    Size := blobInfo.size
    Cause := lib.link inv
    ExpiresAt := now + 24 * 3600
    PiriNode := piriClient.PiriDID.String
    UploadURL := uploadURL
    AcceptInvLink := none }

/-- The `http/put` invocation `httpPutInv`. -/
def spaceBlobAdd.httpPutInv (lib : Lib) (now : Nat) (blobProvider : Signer)
    (blobInfo : Blob) (allocateRcpt : AnyReceipt) : Except String Invocation :=
  Invoke lib now blobProvider blobProvider.did PutAbility blobProvider.did.String
    (.httpPut
      { url := { selector := ".out.ok.address.url", link := allocateRcpt.root }
        headers := { selector := ".out.ok.address.headers", link := allocateRcpt.root }
        body := { digest := blobInfo.digest, size := blobInfo.size } })
    [.WithFacts
      [httpPutFact.ToIPLD { id := blobProvider.did.String, key := blobProvider.key }]]

/-- The `blob/accept` invocation `acceptInv`. -/
def spaceBlobAdd.acceptInv (lib : Lib) (now : Nat) (iCtxID : Signer) (piriDID : DID)
    (spaceDID : DID) (blobInfo : Blob) (httpPutInv : Invocation) :
    Except String Invocation :=
  Invoke lib now iCtxID piriDID AcceptAbility piriDID.String
    (.accept spaceDID { digest := blobInfo.digest, size := blobInfo.size }
      { selector := ".out.ok", link := lib.link httpPutInv })
    [.WithNoExpiration]

/-- The `ucan/conclude` invocation `concludeInv`, before the blocks of the
allocate receipt are attached. -/
def spaceBlobAdd.concludeInv (lib : Lib) (now : Nat) (iCtxID : Signer) (piriDID : DID)
    (capWith : String) (allocateRcpt : AnyReceipt) : Except String Invocation :=
  Invoke lib now iCtxID piriDID ConcludeAbility capWith (.conclude allocateRcpt.root) []

/-- The handler registered by `WithSpaceBlobAddMethod`, for the blob-provider
identity generated at registration. `clock k` is the k-th reading of the
clock in the run. -/
def spaceBlobAdd {σ : Type} (lib : Lib) (s : Service σ) (blobProvider : Signer)
    (clock : Nat → Nat) (capWith : String) (blobInfo : Blob) (inv : Invocation)
    (iCtxID : Signer) (st : σ) : Run σ AddOk :=
  let spaceDIDStr := capWith
  let digestHex := hexEncode blobInfo.digest
  -- log.Printf(..., digestHex[:16], ...): the slice needs 16 characters
  if digestHex.length < 16 then ⟨.panic, st, []⟩ else
  match lib.didParse spaceDIDStr with
  | .error e => ⟨.failure ("invalid space DID: " ++ e), st, []⟩
  | .ok spaceDID =>
  match s.PiriClient with
  | .error e =>
    ⟨.failure ("failed to get piri client: " ++ e), st, [.PiriClient (.error e)]⟩
  | .ok none =>
    ⟨.failure "no storage provider available", st, [.PiriClient (.ok none)]⟩
  | .ok (some piriClient) =>
  let req := spaceBlobAdd.req lib spaceDID blobInfo inv
  match piriClient.Allocate lib (clock 0) req with
  | .error e =>
    ⟨.failure ("piri allocate failed: " ++ e), st,
      [.PiriClient (.ok (some piriClient.PiriDID)), .Allocate piriClient.PiriDID req (some e)]⟩
  | .ok (allocResp, allocateInv, allocateRcpt) =>
  let c1 : List Event :=
    [.PiriClient (.ok (some piriClient.PiriDID)), .Allocate piriClient.PiriDID req none]
  let uploadURL := spaceBlobAdd.uploadURL s.State st allocResp
  let c2 := c1 ++ uploadURL.2
  let alloc := spaceBlobAdd.alloc lib (clock 1) spaceDID blobInfo inv piriClient uploadURL.1
  match s.State.PutAllocation st digestHex alloc with
  | (some e, st1) =>
    ⟨.failure ("storing allocation: " ++ e), st1, c2 ++ [.PutAllocation digestHex alloc (some e)]⟩
  | (none, st1) =>
  let c3 := c2 ++ [.PutAllocation digestHex alloc none]
  let piriDID := piriClient.PiriDID
  match spaceBlobAdd.httpPutInv lib (clock 2) blobProvider blobInfo allocateRcpt with
  | .error e => ⟨.error ("creating http put invocation: " ++ e), st1, c3⟩
  | .ok httpPutInv =>
  match spaceBlobAdd.acceptInv lib (clock 3) iCtxID piriDID spaceDID blobInfo httpPutInv with
  | .error e => ⟨.error ("creating accept invocation: " ++ e), st1, c3⟩
  | .ok acceptInv =>
  -- alloc.AcceptInvLink = acceptInv.Link()
  let alloc2 : Allocation := alloc.setAcceptInvLink (lib.link acceptInv)
  match s.State.PutAllocation st1 digestHex alloc2 with
  | (some e, st2) =>
    ⟨.failure ("updating allocation: " ++ e), st2,
      c3 ++ [.PutAllocation digestHex alloc2 (some e)]⟩
  | (none, st2) =>
  let c4 := c3 ++ [.PutAllocation digestHex alloc2 none]
  match spaceBlobAdd.concludeInv lib (clock 4) iCtxID piriDID capWith allocateRcpt with
  | .error e => ⟨.error ("creating conclude invocation: " ++ e), st2, c4⟩
  | .ok concludeInv0 =>
  match attachBlocks concludeInv0 allocateRcpt.blocks with
  | .error e => ⟨.error ("getting allocate receipt block: " ++ e), st2, c4⟩
  | .ok concludeInv =>
  let forks : List Invocation := [allocateInv, concludeInv, httpPutInv, acceptInv]
  let fxs : Effects := { fork := forks }
  let ok : AddOk := { Site := { selector := ".out.ok.site", link := lib.link acceptInv } }
  ⟨.ok ok (some fxs), st2, c4⟩

/-- The registration `WithSpaceBlobAddMethod`: the blob-provider identity is
generated once, here; a failed generation panics (`none`), otherwise the
handler for that identity is registered. -/
def WithSpaceBlobAddMethod {σ : Type} (lib : Lib) (s : Service σ)
    (generate : Except String Signer) :
    Option ((Nat → Nat) → String → Blob → Invocation → Signer → σ → Run σ AddOk) :=
  match generate with
  | .error _ => none
  | .ok blobProvider => some (spaceBlobAdd lib s blobProvider)

/-! ### `ucan/conclude` -/

/-- The function `didToPeerID`. -/
def didToPeerID (lib : Lib) (d : DID) : Except String String :=
  match lib.verifierDecode d with
  | .error e => .error ("decoding DID to verifier: " ++ e)
  | .ok raw =>
  match lib.unmarshalEd25519PublicKey raw with
  | .error e => .error ("unmarshaling ed25519 public key: " ++ e)
  | .ok pub => lib.idFromPublicKey pub

/-- The blocks a `range` over a receipt's blocks collects when it skips the
iterations that fail (`extraBlocks`). -/
def collectBlocks : List (Except String Block) → List Block
  | [] => []
  | .error _ :: rest => collectBlocks rest
  | .ok blk :: rest => blk :: collectBlocks rest

/-- The call `receipt.Issue` of an `AcceptOk` result for the task `ran`. -/
def receiptIssue (lib : Lib) (issuer : Signer) (out : AcceptOk) (ran : Option Link) :
    Except String Receipt :=
  match lib.receiptIssueErr issuer out ran with
  | some e => .error e
  | none => .ok { issuer := issuer.did, ran := ran, out := out }

/-- The acknowledgement every exit of `ucan/conclude` returns:
`result.Ok(ConcludeOk{}), nil, nil`. -/
def acknowledge {σ : Type} (st : σ) (calls : List Event) : Run σ ConcludeOk :=
  ⟨.ok {} none, st, calls⟩

/-- The request the handler passes to `piriClient.Accept`. -/
def ucanConclude.req (lib : Lib) (alloc : Allocation) (body : Body) (ranInv : Invocation) :
    AcceptRequest :=
  { Space := alloc.Space, Digest := body.digest, Size := body.size, Put := lib.link ranInv }

/-- The part of `ucan/conclude` that caches the location claim with the
indexer: the calls it makes (at most one, `CacheLocationClaim`). -/
def ucanConclude.cacheLocationClaim (lib : Lib) (now : Nat)
    (indexerClient : Option IndexerClient) (piriClient : Client)
    (acceptResp : AcceptResponse) (piriRcpt : AnyReceipt) : List Event :=
  match indexerClient, acceptResp.Site with
  | some indexerClient, some site =>
    match lib.newBlockReader piriRcpt.blocks with
    | .error _ => []
    | .ok bs =>
    match lib.newDelegationView site bs with
    | .error _ => []
    | .ok locationClaim =>
    match didToPeerID lib piriClient.PiriDID with
    | .error _ => []
    | .ok piriPeerID =>
      let piriBlobAddrStr :=
        "/dns4/piri/tcp/3000/http/p2p/" ++ piriPeerID ++ "/http-path/piece%2F%7BblobCID%7D"
      let piriClaimAddrStr :=
        "/dns4/piri/tcp/3000/http/p2p/" ++ piriPeerID ++ "/http-path/claim%2F%7Bclaim%7D"
      match lib.newMultiaddr piriBlobAddrStr, lib.newMultiaddr piriClaimAddrStr with
      | .ok piriBlobAddr, .ok piriClaimAddr =>
        [.CacheLocationClaim (lib.link locationClaim) [piriBlobAddr, piriClaimAddr]
          (indexerClient.CacheLocationClaim lib now locationClaim [piriBlobAddr, piriClaimAddr])]
      | _, _ => []
  | _, _ => []

/-- The record the handler passes to `PutReceipt`. -/
def ucanConclude.stored (now : Nat) (alloc : Allocation) (reissuedRcpt : Receipt)
    (piriRcpt : AnyReceipt) : StoredReceipt :=
  { Task := alloc.AcceptInvLink
    Receipt := reissuedRcpt
    ExtraBlocks := collectBlocks piriRcpt.blocks
    AddedAt := now }

/-- The handler registered by `WithUCANConcludeMethod`. `clock k` is the k-th
reading of the clock in the run. -/
def ucanConclude {σ : Type} (lib : Lib) (s : Service σ) (clock : Nat → Nat)
    (receiptLink : Link) (inv : Invocation) (st : σ) : Run σ ConcludeOk :=
  match lib.readReceipt receiptLink inv.blocks with
  | .error _ => acknowledge st []
  | .ok rcpt =>
  match rcpt.ran.Invocation with
  | none => acknowledge st []
  | some ranInv =>
  match ranInv.capabilities with
  | [] => acknowledge st []
  | putCap :: _ =>
  let ability := putCap.can
  if ability ≠ PutAbility then acknowledge st [] else
  match lib.matchPut putCap ranInv with
  | .error _ => acknowledge st []
  | .ok putMatch =>
  let body := putMatch.body
  let digestHex := hexEncode body.digest
  -- log.Printf(..., digestHex[:16], ...): the slice needs 16 characters
  if digestHex.length < 16 then ⟨.panic, st, []⟩ else
  match s.State.GetAllocation st digestHex with
  | .error e => acknowledge st [.GetAllocation digestHex (.error e)]
  | .ok none => acknowledge st [.GetAllocation digestHex (.ok none)]
  | .ok (some alloc) =>
  match s.PiriClient with
  | .error e =>
    acknowledge st [.GetAllocation digestHex (.ok (some alloc)), .PiriClient (.error e)]
  | .ok none =>
    acknowledge st [.GetAllocation digestHex (.ok (some alloc)), .PiriClient (.ok none)]
  | .ok (some piriClient) =>
  let c1 : List Event :=
    [.GetAllocation digestHex (.ok (some alloc)), .PiriClient (.ok (some piriClient.PiriDID))]
  let req := ucanConclude.req lib alloc body ranInv
  match piriClient.Accept lib (clock 0) req with
  | .error e => acknowledge st (c1 ++ [.Accept piriClient.PiriDID req (some e)])
  | .ok (acceptResp, piriRcpt) =>
  let c2 := c1 ++ [.Accept piriClient.PiriDID req none]
  let c3 := c2 ++
    ucanConclude.cacheLocationClaim lib (clock 1) s.IndexerClient piriClient acceptResp piriRcpt
  let acceptOk : AcceptOk := { site := acceptResp.Site }
  match receiptIssue lib s.ID acceptOk alloc.AcceptInvLink with
  | .error _ => acknowledge st c3
  | .ok reissuedRcpt =>
  -- acceptInvLink := alloc.AcceptInvLink.String(): a nil link has no String()
  match alloc.AcceptInvLink with
  | none => ⟨.panic, st, c3⟩
  | some link =>
  let acceptInvLink := link.String
  let stored := ucanConclude.stored (clock 2) alloc reissuedRcpt piriRcpt
  match s.State.PutReceipt st acceptInvLink stored with
  | (some e, st1) => acknowledge st1 (c3 ++ [.PutReceipt acceptInvLink stored (some e)])
  | (none, st1) => acknowledge st1 (c3 ++ [.PutReceipt acceptInvLink stored none])

/-! ### `space/index/add` -/

/-- The payload `spaceindexcap.AddOk`. -/
structure IndexAddOk where
deriving DecidableEq, Repr

/-- The link `authLink` that `extractRetrievalAuth` finds: the value of the
first fact that has a `retrievalAuth` entry which is a link. -/
def extractRetrievalAuth.authLink : List (List (String × Node)) → Option Link
  | [] => none
  | fact :: rest =>
    match fact.lookup "retrievalAuth" with
    | some v =>
      match v.AsLink with
      | .ok link => some link
      | .error _ => extractRetrievalAuth.authLink rest
    | none => extractRetrievalAuth.authLink rest

/-- The function `extractRetrievalAuth`. -/
def extractRetrievalAuth (lib : Lib) (inv : Invocation) : Except String Delegation :=
  match extractRetrievalAuth.authLink inv.facts with
  | none => .error "retrievalAuth fact not found in invocation"
  | some authLink =>
  match lib.newBlockReader (inv.blocks.map .ok) with
  | .error err => .error ("creating block reader: " ++ err)
  | .ok bs =>
  match lib.newDelegationView authLink bs with
  | .error err => .error ("creating delegation view: " ++ err)
  | .ok dlg => .ok dlg

/-- The handler registered by `WithSpaceIndexAddMethod`. `clock k` is the k-th
reading of the clock in the run. -/
def spaceIndexAdd {σ : Type} (lib : Lib) (s : Service σ) (clock : Nat → Nat)
    (capWith : String) (index : Link) (content : Link) (inv : Invocation) (st : σ) :
    Run σ IndexAddOk :=
  let spaceDID := capWith
  match s.IndexerClient with
  | none => ⟨.ok {} none, st, []⟩
  | some indexerClient =>
    let retrievalAuth : Option Delegation :=
      match extractRetrievalAuth lib inv with
      | .error _ => none
      | .ok dlg => some dlg
    let err := indexerClient.PublishIndexClaim lib (clock 0) spaceDID content index retrievalAuth
    ⟨.ok {} none, st, [.PublishIndexClaim spaceDID content index retrievalAuth err]⟩

/-! ### `space/blob/replicate` and `access/delegate` -/

/-- The payload `spaceblobcap.ReplicateOk`. -/
structure ReplicateOk where
deriving DecidableEq, Repr

/-- The payload `access.DelegateOk`. -/
structure DelegateOk where
deriving DecidableEq, Repr

/-- The handler registered by `WithSpaceBlobReplicateMethod`. Its log line
slices the digest, `blob.Digest[:8]`; a slice of a byte slice may reach up to
the capacity `digestCap` of the slice (at least its length), and panics
beyond it. -/
def spaceBlobReplicate {σ : Type} (capWith : String) (blob : Blob) (digestCap : Nat)
    (replicas : Nat) (st : σ) : Run σ ReplicateOk :=
  let _spaceDID := capWith
  let _replicas := replicas
  -- log.Printf(..., blob.Digest[:8], replicas): the slice needs capacity 8
  if max blob.digest.length digestCap < 8 then ⟨.panic, st, []⟩ else
  ⟨.ok {} none, st, []⟩

/-- The caveat `Delegations` of `access/delegate`: its keys, and the link
`Values[key]` under a key (nil when the map has none). -/
structure DelegationsModel where
  Keys : List String
  Values : String → Option Link

/-- The lines the loop of `access/delegate` logs: one for every key whose
link is not nil. -/
def accessDelegate.logged (delegations : DelegationsModel) : List String :=
  delegations.Keys.filterMap fun key =>
    match delegations.Values key with
    | some link => some ("[access/delegate] stored delegation " ++ link.String)
    | none => none

/-- The handler registered by `WithAccessDelegateMethod`: it logs and
acknowledges; the log leaves no trace in the run. -/
def accessDelegate {σ : Type} (_s : Service σ) (inv : Invocation)
    (delegations : DelegationsModel) (st : σ) : Run σ DelegateOk :=
  let _agentDID := inv.issuer.String
  let _logged := accessDelegate.logged delegations
  ⟨.ok {} none, st, []⟩

/-! ### The accept invocation of the storage-node client -/

/-- The `blob/accept` invocation `inv` that `Client.Accept` builds from the
options `fetchDelegationOpts` returned. -/
def Client.Accept.inv (lib : Lib) (now : Nat) (c : Client) (req : AcceptRequest)
    (opts : List DelegationOption) : Except String Invocation :=
  Invoke lib now c.signer c.piriDID AcceptAbility c.piriDID.String
    (.accept req.Space { digest := req.Digest, size := req.Size }
      { selector := ".out.ok", link := req.Put })
    (opts ++ [.WithNoExpiration])

/-! ### Publishing apart -/

/-- Whether a call is the publishing call `CacheLocationClaim`. -/
def Event.isCacheLocationClaim : Event → Bool
  | .CacheLocationClaim _ _ _ => true
  | _ => false

/-- The library `lib` with the functions of the publishing step of
`ucan/conclude` (block reader, delegation view, peer id, multiaddr) taken from
`other`. -/
def Lib.publishingWith (lib : Lib) (other : Lib) : Lib :=
  { lib with
    newBlockReader := other.newBlockReader
    newDelegationView := other.newDelegationView
    verifierDecode := other.verifierDecode
    unmarshalEd25519PublicKey := other.unmarshalEd25519PublicKey
    idFromPublicKey := other.idFromPublicKey
    newMultiaddr := other.newMultiaddr }

/-- The service `s` with another indexer client, or none. -/
def Service.withIndexerClient {σ : Type} (s : Service σ)
    (indexerClient : Option Smelt.IndexerClient) : Service σ :=
  { s with IndexerClient := indexerClient }

/-! ### Sequences of store operations -/

/-- An operation on the allocations of the store. -/
inductive AllocationOp where
  | put (key : String) (alloc : Allocation)
  | delete (key : String)

/-- The key an operation works on. -/
def AllocationOp.key : AllocationOp → String
  | .put key _ => key
  | .delete key => key

/-- The store after one operation, by `Store.PutAllocation` or
`Store.DeleteAllocation`. -/
def Store.applyOp (s : Store) : AllocationOp → Store
  | .put key alloc => (s.PutAllocation key alloc).2
  | .delete key => (s.DeleteAllocation key).2

/-- The store after a sequence of operations, the first of the list first. -/
def Store.applyOps (s : Store) (ops : List AllocationOp) : Store :=
  ops.foldl Store.applyOp s

/-- What the specification expects `GetAllocation(k)` to return after a
sequence of operations on a store that held `before` under `k`: the value of
the last `PutAllocation(k, ·)` not followed by a `DeleteAllocation(k)`, nil
after a delete, and `before` when no operation touched `k`. The list is read
from its last operation backwards. -/
def expectedAllocation (before : Option Allocation) (k : String) :
    List AllocationOp → Option Allocation
  | [] => before
  | .put key alloc :: earlier =>
    if key = k then some alloc else expectedAllocation before k earlier
  | .delete key :: earlier =>
    if key = k then none else expectedAllocation before k earlier

/-! ### Percent-encoding -/

/-- The value of a hexadecimal digit, if the character is one. -/
def hexValue (c : Char) : Option Nat :=
  if '0' ≤ c ∧ c ≤ '9' then some (c.toNat - '0'.toNat)
  else if 'a' ≤ c ∧ c ≤ 'f' then some (c.toNat - 'a'.toNat + 10)
  else if 'A' ≤ c ∧ c ≤ 'F' then some (c.toNat - 'A'.toNat + 10)
  else none

/-- Percent-decoding of a text, as `url.PathUnescape` does for ASCII: `%XY`
stands for the character with the code `XY`; `none` for a malformed escape. -/
def percentDecode : List Char → Option (List Char)
  | [] => some []
  | '%' :: x :: y :: rest =>
    match hexValue x, hexValue y, percentDecode rest with
    | some hi, some lo, some tail => some (Char.ofNat (16 * hi + lo) :: tail)
    | _, _, _ => none
  | '%' :: _ => none
  | c :: rest =>
    match percentDecode rest with
    | some tail => some (c :: tail)
    | none => none

/-! ### The exits of `space/blob/add` -/

/-- The allocation record of a run, as `space/blob/add` first stores it. -/
def spaceBlobAdd.record {σ : Type} (lib : Lib) (s : Service σ) (clock : Nat → Nat)
    (blobInfo : Blob) (inv : Invocation) (st : σ) (spaceDID : DID) (piriClient : Client)
    (allocResp : AllocateResponse) : Allocation :=
  spaceBlobAdd.alloc lib (clock 1) spaceDID blobInfo inv piriClient
    (spaceBlobAdd.uploadURL s.State st allocResp).1

/-- The calls of a run of `space/blob/add` up to the first `PutAllocation`,
once `Allocate` has succeeded. -/
def spaceBlobAdd.allocated {σ : Type} (lib : Lib) (s : Service σ)
    (blobInfo : Blob) (inv : Invocation) (st : σ) (spaceDID : DID) (piriClient : Client)
    (allocResp : AllocateResponse) : List Event :=
  [.PiriClient (.ok (some piriClient.PiriDID)),
   .Allocate piriClient.PiriDID (spaceBlobAdd.req lib spaceDID blobInfo inv) none]
  ++ (spaceBlobAdd.uploadURL s.State st allocResp).2

/-- The exits of `space/blob/add`, each with the answers that lead to it and
the run it gives. -/
inductive spaceBlobAdd.Exit {σ : Type} (lib : Lib) (s : Service σ) (blobProvider : Signer)
    (clock : Nat → Nat) (capWith : String) (blobInfo : Blob) (inv : Invocation)
    (iCtxID : Signer) (st : σ) : Prop where
  | slice
    (hlen : (hexEncode blobInfo.digest).length < 16)
    (hrun : spaceBlobAdd lib s blobProvider clock capWith blobInfo inv iCtxID st
      = ⟨.panic, st, []⟩)
  | invalidDID (e : String)
    (hlen : 16 ≤ (hexEncode blobInfo.digest).length)
    (hdid : lib.didParse capWith = .error e)
    (hrun : spaceBlobAdd lib s blobProvider clock capWith blobInfo inv iCtxID st
      = ⟨.failure ("invalid space DID: " ++ e), st, []⟩)
  | clientError (spaceDID : DID) (e : String)
    (hlen : 16 ≤ (hexEncode blobInfo.digest).length)
    (hdid : lib.didParse capWith = .ok spaceDID)
    (hclient : s.PiriClient = .error e)
    (hrun : spaceBlobAdd lib s blobProvider clock capWith blobInfo inv iCtxID st
      = ⟨.failure ("failed to get piri client: " ++ e), st, [.PiriClient (.error e)]⟩)
  | noProvider (spaceDID : DID)
    (hlen : 16 ≤ (hexEncode blobInfo.digest).length)
    (hdid : lib.didParse capWith = .ok spaceDID)
    (hclient : s.PiriClient = .ok none)
    (hrun : spaceBlobAdd lib s blobProvider clock capWith blobInfo inv iCtxID st
      = ⟨.failure "no storage provider available", st, [.PiriClient (.ok none)]⟩)
  | allocateFailed (spaceDID : DID) (piriClient : Client) (e : String)
    (hlen : 16 ≤ (hexEncode blobInfo.digest).length)
    (hdid : lib.didParse capWith = .ok spaceDID)
    (hclient : s.PiriClient = .ok (some piriClient))
    (hallocate : piriClient.Allocate lib (clock 0) (spaceBlobAdd.req lib spaceDID blobInfo inv)
      = .error e)
    (hrun : spaceBlobAdd lib s blobProvider clock capWith blobInfo inv iCtxID st
      = ⟨.failure ("piri allocate failed: " ++ e), st,
          [.PiriClient (.ok (some piriClient.PiriDID)),
           .Allocate piriClient.PiriDID (spaceBlobAdd.req lib spaceDID blobInfo inv) (some e)]⟩)
  | storeFailed (spaceDID : DID) (piriClient : Client) (allocResp : AllocateResponse)
    (allocateInv : Invocation) (allocateRcpt : AnyReceipt) (e : String) (st1 : σ)
    (hlen : 16 ≤ (hexEncode blobInfo.digest).length)
    (hdid : lib.didParse capWith = .ok spaceDID)
    (hclient : s.PiriClient = .ok (some piriClient))
    (hallocate : piriClient.Allocate lib (clock 0) (spaceBlobAdd.req lib spaceDID blobInfo inv)
      = .ok (allocResp, allocateInv, allocateRcpt))
    (hstore : s.State.PutAllocation st (hexEncode blobInfo.digest)
      (spaceBlobAdd.record lib s clock blobInfo inv st spaceDID piriClient allocResp)
      = (some e, st1))
    (hrun : spaceBlobAdd lib s blobProvider clock capWith blobInfo inv iCtxID st
      = ⟨.failure ("storing allocation: " ++ e), st1,
          spaceBlobAdd.allocated lib s blobInfo inv st spaceDID piriClient allocResp
          ++ [.PutAllocation (hexEncode blobInfo.digest)
            (spaceBlobAdd.record lib s clock blobInfo inv st spaceDID piriClient allocResp)
            (some e)]⟩)
  | invokeFailed (spaceDID : DID) (piriClient : Client) (allocResp : AllocateResponse)
    (allocateInv : Invocation) (allocateRcpt : AnyReceipt) (st1 : σ) (e : String)
    (hlen : 16 ≤ (hexEncode blobInfo.digest).length)
    (hdid : lib.didParse capWith = .ok spaceDID)
    (hclient : s.PiriClient = .ok (some piriClient))
    (hallocate : piriClient.Allocate lib (clock 0) (spaceBlobAdd.req lib spaceDID blobInfo inv)
      = .ok (allocResp, allocateInv, allocateRcpt))
    (hstore : s.State.PutAllocation st (hexEncode blobInfo.digest)
      (spaceBlobAdd.record lib s clock blobInfo inv st spaceDID piriClient allocResp)
      = (none, st1))
    (hinvoke :
      spaceBlobAdd.httpPutInv lib (clock 2) blobProvider blobInfo allocateRcpt = .error e ∨
      ∃ httpPutInv,
        spaceBlobAdd.httpPutInv lib (clock 2) blobProvider blobInfo allocateRcpt
          = .ok httpPutInv ∧
        spaceBlobAdd.acceptInv lib (clock 3) iCtxID piriClient.PiriDID spaceDID blobInfo
          httpPutInv = .error e)
    (hrun : ∃ message,
      spaceBlobAdd lib s blobProvider clock capWith blobInfo inv iCtxID st
      = ⟨.error message, st1,
          spaceBlobAdd.allocated lib s blobInfo inv st spaceDID piriClient allocResp
          ++ [.PutAllocation (hexEncode blobInfo.digest)
            (spaceBlobAdd.record lib s clock blobInfo inv st spaceDID piriClient allocResp)
            none]⟩)
  | updated (spaceDID : DID) (piriClient : Client) (allocResp : AllocateResponse)
    (allocateInv : Invocation) (allocateRcpt : AnyReceipt) (st1 : σ)
    (httpPutInv acceptInv : Invocation) (err : Option String) (st2 : σ)
    (hlen : 16 ≤ (hexEncode blobInfo.digest).length)
    (hdid : lib.didParse capWith = .ok spaceDID)
    (hclient : s.PiriClient = .ok (some piriClient))
    (hallocate : piriClient.Allocate lib (clock 0) (spaceBlobAdd.req lib spaceDID blobInfo inv)
      = .ok (allocResp, allocateInv, allocateRcpt))
    (hstore : s.State.PutAllocation st (hexEncode blobInfo.digest)
      (spaceBlobAdd.record lib s clock blobInfo inv st spaceDID piriClient allocResp)
      = (none, st1))
    (hput : spaceBlobAdd.httpPutInv lib (clock 2) blobProvider blobInfo allocateRcpt
      = .ok httpPutInv)
    (haccept : spaceBlobAdd.acceptInv lib (clock 3) iCtxID piriClient.PiriDID spaceDID blobInfo
      httpPutInv = .ok acceptInv)
    (hupdate : s.State.PutAllocation st1 (hexEncode blobInfo.digest)
      ((spaceBlobAdd.record lib s clock blobInfo inv st spaceDID piriClient
        allocResp).setAcceptInvLink (lib.link acceptInv)) = (err, st2))
    (hrun : ∃ outcome,
      spaceBlobAdd lib s blobProvider clock capWith blobInfo inv iCtxID st
      = ⟨outcome, st2,
          spaceBlobAdd.allocated lib s blobInfo inv st spaceDID piriClient allocResp
          ++ [.PutAllocation (hexEncode blobInfo.digest)
            (spaceBlobAdd.record lib s clock blobInfo inv st spaceDID piriClient allocResp)
            none]
          ++ [.PutAllocation (hexEncode blobInfo.digest)
            ((spaceBlobAdd.record lib s clock blobInfo inv st spaceDID piriClient
              allocResp).setAcceptInvLink (lib.link acceptInv)) err]⟩ ∧
      (∀ e, err = some e → outcome = .failure ("updating allocation: " ++ e)) ∧
      (err = none →
        (∃ message, outcome = .error message) ∨
        ∃ concludeInv0 concludeInv,
          spaceBlobAdd.concludeInv lib (clock 4) iCtxID piriClient.PiriDID capWith allocateRcpt
            = .ok concludeInv0 ∧
          attachBlocks concludeInv0 allocateRcpt.blocks = .ok concludeInv ∧
          outcome = .ok { Site := { selector := ".out.ok.site", link := lib.link acceptInv } }
            (some { fork := [allocateInv, concludeInv, httpPutInv, acceptInv] })))

/-! ### The exits of `ucan/conclude` -/

/-- The concluded receipt is for an `http/put`: it reads, it carries the
invocation `ranInv` it ran, the first capability of `ranInv` has the ability
`http/put` and matches, with the blob `body`. -/
def ucanConclude.IsPut (lib : Lib) (receiptLink : Link) (inv : Invocation)
    (ranInv : Invocation) (body : Body) : Prop :=
  ∃ rcpt putCap rest putMatch,
    lib.readReceipt receiptLink inv.blocks = .ok rcpt ∧
    rcpt.ran.Invocation = some ranInv ∧
    ranInv.capabilities = putCap :: rest ∧
    putCap.can = PutAbility ∧
    lib.matchPut putCap ranInv = .ok putMatch ∧
    putMatch.body = body

/-- The calls of a run of `ucan/conclude` up to and including the publishing
to the indexer, once `Accept` has succeeded. -/
def ucanConclude.accepted {σ : Type} (lib : Lib) (s : Service σ) (clock : Nat → Nat)
    (ranInv : Invocation) (body : Body) (alloc : Allocation) (piriClient : Client)
    (acceptResp : AcceptResponse) (piriRcpt : AnyReceipt) : List Event :=
  [.GetAllocation (hexEncode body.digest) (.ok (some alloc)),
   .PiriClient (.ok (some piriClient.PiriDID)),
   .Accept piriClient.PiriDID (ucanConclude.req lib alloc body ranInv) none]
  ++ ucanConclude.cacheLocationClaim lib (clock 1) s.IndexerClient piriClient acceptResp piriRcpt

/-- The exits of `ucan/conclude`, each with the answers that lead to it and
the run it gives. -/
inductive ucanConclude.Exit {σ : Type} (lib : Lib) (s : Service σ) (clock : Nat → Nat)
    (receiptLink : Link) (inv : Invocation) (st : σ) : Prop where
  | notPut
    (hrun : ucanConclude lib s clock receiptLink inv st = acknowledge st [])
  | slice (ranInv : Invocation) (body : Body)
    (hput : ucanConclude.IsPut lib receiptLink inv ranInv body)
    (hlen : (hexEncode body.digest).length < 16)
    (hrun : ucanConclude lib s clock receiptLink inv st = ⟨.panic, st, []⟩)
  | lookupFailed (ranInv : Invocation) (body : Body) (e : String)
    (hput : ucanConclude.IsPut lib receiptLink inv ranInv body)
    (hlen : 16 ≤ (hexEncode body.digest).length)
    (hget : s.State.GetAllocation st (hexEncode body.digest) = .error e)
    (hrun : ucanConclude lib s clock receiptLink inv st =
      acknowledge st [.GetAllocation (hexEncode body.digest) (.error e)])
  | noAllocation (ranInv : Invocation) (body : Body)
    (hput : ucanConclude.IsPut lib receiptLink inv ranInv body)
    (hlen : 16 ≤ (hexEncode body.digest).length)
    (hget : s.State.GetAllocation st (hexEncode body.digest) = .ok none)
    (hrun : ucanConclude lib s clock receiptLink inv st =
      acknowledge st [.GetAllocation (hexEncode body.digest) (.ok none)])
  | clientError (ranInv : Invocation) (body : Body) (alloc : Allocation) (e : String)
    (hput : ucanConclude.IsPut lib receiptLink inv ranInv body)
    (hlen : 16 ≤ (hexEncode body.digest).length)
    (hget : s.State.GetAllocation st (hexEncode body.digest) = .ok (some alloc))
    (hclient : s.PiriClient = .error e)
    (hrun : ucanConclude lib s clock receiptLink inv st =
      acknowledge st [.GetAllocation (hexEncode body.digest) (.ok (some alloc)),
        .PiriClient (.error e)])
  | noProvider (ranInv : Invocation) (body : Body) (alloc : Allocation)
    (hput : ucanConclude.IsPut lib receiptLink inv ranInv body)
    (hlen : 16 ≤ (hexEncode body.digest).length)
    (hget : s.State.GetAllocation st (hexEncode body.digest) = .ok (some alloc))
    (hclient : s.PiriClient = .ok none)
    (hrun : ucanConclude lib s clock receiptLink inv st =
      acknowledge st [.GetAllocation (hexEncode body.digest) (.ok (some alloc)),
        .PiriClient (.ok none)])
  | acceptFailed (ranInv : Invocation) (body : Body) (alloc : Allocation)
    (piriClient : Client) (e : String)
    (hput : ucanConclude.IsPut lib receiptLink inv ranInv body)
    (hlen : 16 ≤ (hexEncode body.digest).length)
    (hget : s.State.GetAllocation st (hexEncode body.digest) = .ok (some alloc))
    (hclient : s.PiriClient = .ok (some piriClient))
    (haccept : piriClient.Accept lib (clock 0) (ucanConclude.req lib alloc body ranInv)
      = .error e)
    (hrun : ucanConclude lib s clock receiptLink inv st =
      acknowledge st [.GetAllocation (hexEncode body.digest) (.ok (some alloc)),
        .PiriClient (.ok (some piriClient.PiriDID)),
        .Accept piriClient.PiriDID (ucanConclude.req lib alloc body ranInv) (some e)])
  | issueFailed (ranInv : Invocation) (body : Body) (alloc : Allocation)
    (piriClient : Client) (acceptResp : AcceptResponse) (piriRcpt : AnyReceipt) (e : String)
    (hput : ucanConclude.IsPut lib receiptLink inv ranInv body)
    (hlen : 16 ≤ (hexEncode body.digest).length)
    (hget : s.State.GetAllocation st (hexEncode body.digest) = .ok (some alloc))
    (hclient : s.PiriClient = .ok (some piriClient))
    (haccept : piriClient.Accept lib (clock 0) (ucanConclude.req lib alloc body ranInv)
      = .ok (acceptResp, piriRcpt))
    (hissue : receiptIssue lib s.ID { site := acceptResp.Site } alloc.AcceptInvLink = .error e)
    (hrun : ucanConclude lib s clock receiptLink inv st =
      acknowledge st
        (ucanConclude.accepted lib s clock ranInv body alloc piriClient acceptResp piriRcpt))
  | nilLink (ranInv : Invocation) (body : Body) (alloc : Allocation)
    (piriClient : Client) (acceptResp : AcceptResponse) (piriRcpt : AnyReceipt)
    (reissuedRcpt : Receipt)
    (hput : ucanConclude.IsPut lib receiptLink inv ranInv body)
    (hlen : 16 ≤ (hexEncode body.digest).length)
    (hget : s.State.GetAllocation st (hexEncode body.digest) = .ok (some alloc))
    (hclient : s.PiriClient = .ok (some piriClient))
    (haccept : piriClient.Accept lib (clock 0) (ucanConclude.req lib alloc body ranInv)
      = .ok (acceptResp, piriRcpt))
    (hissue : receiptIssue lib s.ID { site := acceptResp.Site } alloc.AcceptInvLink
      = .ok reissuedRcpt)
    (hlink : alloc.AcceptInvLink = none)
    (hrun : ucanConclude lib s clock receiptLink inv st =
      ⟨.panic, st,
        ucanConclude.accepted lib s clock ranInv body alloc piriClient acceptResp piriRcpt⟩)
  | stored (ranInv : Invocation) (body : Body) (alloc : Allocation)
    (piriClient : Client) (acceptResp : AcceptResponse) (piriRcpt : AnyReceipt)
    (reissuedRcpt : Receipt) (link : Link) (err : Option String) (st1 : σ)
    (hput : ucanConclude.IsPut lib receiptLink inv ranInv body)
    (hlen : 16 ≤ (hexEncode body.digest).length)
    (hget : s.State.GetAllocation st (hexEncode body.digest) = .ok (some alloc))
    (hclient : s.PiriClient = .ok (some piriClient))
    (haccept : piriClient.Accept lib (clock 0) (ucanConclude.req lib alloc body ranInv)
      = .ok (acceptResp, piriRcpt))
    (hissue : receiptIssue lib s.ID { site := acceptResp.Site } alloc.AcceptInvLink
      = .ok reissuedRcpt)
    (hlink : alloc.AcceptInvLink = some link)
    (hstore : s.State.PutReceipt st link.String
      (ucanConclude.stored (clock 2) alloc reissuedRcpt piriRcpt) = (err, st1))
    (hrun : ucanConclude lib s clock receiptLink inv st =
      acknowledge st1
        (ucanConclude.accepted lib s clock ranInv body alloc piriClient acceptResp piriRcpt
          ++ [.PutReceipt link.String
            (ucanConclude.stored (clock 2) alloc reissuedRcpt piriRcpt) err]))

/-! ## A small deployment

One library, one storage node and one service, to run the handlers on. -/

/-- The blob-provider identity of the runs below. -/
def demoBlobProvider : Signer := { did := { str := "did:key:zBlobProvider" }, key := [9, 9] }

/-- A blob with an eight-byte digest. -/
def demoBlob : Blob := { digest := [18, 32, 170, 187, 204, 221, 238, 255], size := 5 }

/-- An `http/put` invocation for `demoBlob`, as the agent concludes it. -/
def demoPutInv : Invocation :=
  { issuer := demoBlobProvider.did
    audience := demoBlobProvider.did
    capabilities :=
      [{ can := PutAbility
         resource := demoBlobProvider.did.str
         nb := .httpPut
           { url := { selector := ".out.ok.address.url", link := { cid := "bafy-receipt" } }
             headers := { selector := ".out.ok.address.headers", link := { cid := "bafy-receipt" } }
             body := { digest := demoBlob.digest, size := demoBlob.size } } }]
    facts := []
    proofs := []
    expiration := some 1032
    blocks := [] }

/-- The service signer of the runs below. -/
def demoSigner : Signer := { did := { str := "did:web:upload" }, key := [1, 2, 3] }

/-- The `space/blob/add` invocation of the runs below. -/
def demoAddInv : Invocation :=
  { issuer := { str := "did:key:zAlice" }
    audience := demoSigner.did
    capabilities := [{ can := "space/blob/add", resource := "did:key:zSpace", nb := .raw .null }]
    facts := []
    proofs := []
    expiration := none
    blocks := [] }

/-- The location claim the storage node issues for `demoBlob`. -/
def demoLocationClaim : Delegation :=
  { issuer := { str := "did:web:piri" }
    audience := { str := "did:key:zSpace" }
    capabilities :=
      [{ can := "assert/location", resource := "did:web:piri", nb := .raw .null }]
    facts := []
    proofs := []
    expiration := none
    blocks := [{ link := { cid := "bafy-location-claim" }, bytes := [1] }] }

/-- The retrieval delegation of the agent, from the space to the upload
service. -/
def demoRetrievalAuth : Delegation :=
  { issuer := { str := "did:key:zSpace" }
    audience := { str := "did:web:upload" }
    capabilities :=
      [{ can := RetrieveAbility, resource := "did:key:zSpace"
         nb := .retrieve (.map [("blob", .bytes [18, 32])]) }]
    facts := []
    proofs := [{ cid := "bafy-mailto-proof" }]
    expiration := some 1900
    blocks := [{ link := { cid := "bafy-retrieval-auth" }, bytes := [2] }] }

/-- A library for the runs below: `did.Parse` wants the prefix `did:`, a
link spells out the signed root, the receipt read under the link
`bafy-add-receipt` ran `demoAddInv` and every other receipt ran `demoPutInv`,
the receipt read under `bafy-receipt-moved` names another site, the blocks
resolve the location claim and the agent's retrieval delegation, and nothing
else fails. -/
def demoLib : Lib :=
  { didParse := fun str =>
      match str.data with
      | 'd' :: 'i' :: 'd' :: ':' :: _ => .ok { str := str }
      | _ => .error "must start with 'did:'"
    link := fun d =>
      { cid := "bafy(" ++ d.issuer.str ++ ">" ++ d.audience.str ++ ":"
          ++ String.join (d.capabilities.map fun c => c.can ++ "@" ++ c.resource ++ ";")
          ++ "exp=" ++ (match d.expiration with
            | none => "null"
            | some t => String.mk (Nat.toDigits 10 t))
          ++ ";prf=" ++ String.join (d.proofs.map fun l => l.cid ++ ";") ++ ")" }
    issueErr := fun _ _ => none
    defaultLifetime := 30
    receiptIssueErr := fun _ _ _ => none
    readReceipt := fun l blocks =>
      .ok { root := l
            ran := if l.cid = "bafy-add-receipt" then .invocation demoAddInv
              else .invocation demoPutInv
            out := .ok (some (.map [("site", .link
              { cid := if l.cid = "bafy-receipt-moved" then "bafy-location-claim-moved"
                  else "bafy-location-claim" })]))
            blocks := blocks.map .ok }
    matchPut := fun cap _ =>
      match cap.nb with
      | .httpPut c => .ok c
      | _ => .error "not an http/put capability"
    rebindAllocate := fun _ =>
      .ok (.ok { size := 5
                 address := some { url := "http://piri/upload/abc", headers := [], expires := 0 } })
    newBlockReader := fun blocks => .ok (blocks.filterMap fun b =>
      match b with
      | .ok blk => some blk
      | .error _ => none)
    newDelegationView := fun l _ =>
      if l.cid = "bafy-location-claim" then .ok demoLocationClaim
      else if l.cid = "bafy-retrieval-auth" then .ok demoRetrievalAuth
      else .error "no such block"
    verifierDecode := fun _ => .ok [237, 1, 7]
    unmarshalEd25519PublicKey := fun raw => .ok raw
    idFromPublicKey := fun _ => .ok "12D3KooWPiri"
    newMultiaddr := fun str => .ok str
    readRetrieveCaveats := fun nb =>
      match nb with
      | .retrieve n => .ok n
      | _ => .error "not space/content/retrieve caveats" }

/-- A storage node that answers every invocation with a receipt; it has no
delegation fetcher. -/
def demoClient : Client :=
  { endpoint := "http://piri:3000"
    piriDID := { str := "did:web:piri" }
    signer := demoSigner
    connection := fun invs =>
      .ok { receipts := invs.map fun i => (demoLib.link i, { cid := "bafy-receipt" })
            blocks := [{ link := { cid := "bafy-receipt" }, bytes := [0] }] }
    delegationFetcher := none }

/-- A storage node whose transport fails. -/
def demoDownClient : Client :=
  { demoClient with connection := fun _ => .error "connection refused" }

/-- The service over the in-memory store, with the node `demoClient` and no
indexer. -/
def demoService : Service Store :=
  { ID := demoSigner
    State := Store.asStateStore 0
    PiriClient := .ok (some demoClient)
    IndexerClient := none }

/-- The service when the provider table is empty. -/
def demoServiceNoProvider : Service Store :=
  { demoService with PiriClient := .ok none }

/-- The service when the storage node is down. -/
def demoServiceDown : Service Store :=
  { demoService with PiriClient := .ok (some demoDownClient) }

/-- A state store whose every operation fails with an I/O error. -/
def failingStore : StateStore Unit :=
  { PutAllocation := fun st _ _ => (some "i/o error", st)
    GetAllocation := fun _ _ => .error "i/o error"
    GetFirstProvider := fun _ => .error "i/o error"
    PutReceipt := fun st _ _ => (some "i/o error", st)
    GetReceipt := fun _ _ => .error "i/o error" }

/-- The service over the failing store. -/
def demoServiceFailingStore : Service Unit :=
  { ID := demoSigner
    State := failingStore
    PiriClient := .ok (some demoClient)
    IndexerClient := none }

/-- The storage node after the blob has moved: it answers with the receipt
`bafy-receipt-moved`. -/
def demoMovedClient : Client :=
  { demoClient with
    connection := fun invs =>
      .ok { receipts := invs.map fun i => (demoLib.link i, { cid := "bafy-receipt-moved" })
            blocks := [{ link := { cid := "bafy-receipt-moved" }, bytes := [0] }] } }

/-- The service when the storage node answers with the moved site. -/
def demoServiceMoved : Service Store :=
  { demoService with PiriClient := .ok (some demoMovedClient) }

/-- An indexer that answers every invocation with a receipt. -/
def demoIndexer : IndexerClient :=
  { endpoint := "http://indexer:9000"
    indexerDID := { str := "did:web:indexer" }
    signer := demoSigner
    connection := fun invs =>
      .ok { receipts := invs.map fun i => (demoLib.link i, { cid := "bafy-receipt" })
            blocks := [] } }

/-- The service with the indexer configured. -/
def demoServiceIndexed : Service Store :=
  { demoService with IndexerClient := some demoIndexer }

/-- A library whose multiaddr parser rejects every address. -/
def demoLibBadAddr : Lib :=
  { demoLib with newMultiaddr := fun _ => .error "invalid multiaddr" }

/-- A later clock. -/
def demoLaterClock : Nat → Nat := fun k => 2000 + k

/-- Another blob, with an eight-byte digest. -/
def demoOtherBlob : Blob := { digest := [18, 32, 1, 2, 3, 4, 5, 6], size := 9 }

/-- The `space/index/add` invocation of the runs below, with the agent's
retrieval delegation as a fact. -/
def demoIndexInv : Invocation :=
  { issuer := { str := "did:key:zAlice" }
    audience := demoSigner.did
    capabilities := [{ can := "space/index/add", resource := "did:key:zSpace", nb := .raw .null }]
    facts := [[("retrievalAuth", .link { cid := "bafy-retrieval-auth" })]]
    proofs := []
    expiration := none
    blocks := [{ link := { cid := "bafy-retrieval-auth" }, bytes := [2] }] }

/-- The clock of the runs below. -/
def demoClock : Nat → Nat := fun k => 1000 + k

/-- The body of `demoPutInv`. -/
def demoPutInv_body : Body := { digest := demoBlob.digest, size := demoBlob.size }

/-- The allocation `space/blob/add` left for `demoBlob`. -/
def demoAllocation : Allocation :=
  { Space := { str := "did:key:zSpace" }
    Digest := demoBlob.digest
    Size := demoBlob.size
    Cause := { cid := "bafy-add" }
    ExpiresAt := 87401
    PiriNode := "did:web:piri"
    UploadURL := some "http://piri/upload/abc"
    AcceptInvLink := some { cid := "bafy-accept" } }

/-- The in-memory store holding `demoAllocation` under the hex digest. -/
def demoStore : Store :=
  (NewStore.PutAllocation (hexEncode demoBlob.digest) demoAllocation).2

/-- The `ucan/conclude` invocation of the runs below. -/
def demoConcludeInv : Invocation :=
  { issuer := { str := "did:key:zAlice" }
    audience := demoSigner.did
    capabilities :=
      [{ can := ConcludeAbility, resource := "did:key:zSpace"
         nb := .conclude { cid := "bafy-put-receipt" } }]
    facts := []
    proofs := []
    expiration := none
    blocks := [] }

/-- Another storage node, `did:web:other`. -/
def demoOtherClient : Client :=
  { demoClient with endpoint := "http://other:3000", piriDID := { str := "did:web:other" } }

/-- The service when `PiriClient` selects the other storage node. -/
def demoServiceOther : Service Store :=
  { demoService with PiriClient := .ok (some demoOtherClient) }

/-- The library when the node's allocate result has no address: the blob is
already present at the provider. -/
def demoLibPresent : Lib :=
  { demoLib with rebindAllocate := fun _ => .ok (.ok { size := 5, address := none }) }

/-- A store with two registered providers, `did:web:other` the one the range
meets first. -/
def demoProviderStore : Store :=
  { NewStore with
    providers :=
      [("did:web:other", { DID := "did:web:other", Endpoint := some "http://other:3000" }),
       ("did:web:piri", { DID := "did:web:piri", Endpoint := some "http://piri:3000" })] }

/-- The delegation the storage node gave the upload service. -/
def demoNodeDelegation : Delegation :=
  { issuer := { str := "did:web:piri" }
    audience := demoSigner.did
    capabilities := [{ can := AcceptAbility, resource := "did:web:piri", nb := .raw .null }]
    facts := []
    proofs := []
    expiration := none
    blocks := [{ link := { cid := "bafy-node-delegation" }, bytes := [3] }] }

/-- The storage-node client with a delegation fetcher that finds
`demoNodeDelegation`. -/
def demoFetchingClient : Client :=
  { demoClient with delegationFetcher := some fun _ => .ok (some demoNodeDelegation) }

/-- The allocation of `demoBlob` between the two `PutAllocation` calls of
`space/blob/add`: no accept link yet. -/
def demoPendingAllocation : Allocation :=
  { demoAllocation with AcceptInvLink := none }

/-- The in-memory store holding `demoPendingAllocation` under the hex digest. -/
def demoPendingStore : Store :=
  (NewStore.PutAllocation (hexEncode demoBlob.digest) demoPendingAllocation).2

/-- A state store over the in-memory store whose `PutAllocation` fails once the
record carries its accept link, leaving the store as it is. -/
def demoLateFailStore : StateStore Store :=
  { Store.asStateStore 0 with
    PutAllocation := fun st key alloc =>
      match alloc.AcceptInvLink with
      | some _ => (some "disk full", st)
      | none => st.PutAllocation key alloc }

/-- The service over the late-failing store. -/
def demoServiceLateFail : Service Store :=
  { demoService with State := demoLateFailStore }

/-- A blob with a three-byte digest, the identity multihash of one byte. -/
def demoShortBlob : Blob := { digest := [0, 1, 97], size := 1 }

/-- An `http/put` invocation for `demoShortBlob`. -/
def demoShortPutInv : Invocation :=
  { demoPutInv with
    capabilities :=
      [{ can := PutAbility
         resource := demoBlobProvider.did.str
         nb := .httpPut
           { url := { selector := ".out.ok.address.url", link := { cid := "bafy-receipt" } }
             headers := { selector := ".out.ok.address.headers", link := { cid := "bafy-receipt" } }
             body := { digest := demoShortBlob.digest, size := demoShortBlob.size } } }] }

/-- The library when the concluded receipt ran `demoShortPutInv`. -/
def demoLibShort : Lib :=
  { demoLib with
    readReceipt := fun l blocks =>
      .ok { root := l, ran := .invocation demoShortPutInv, out := .ok none
            blocks := blocks.map .ok } }

/-- The library when the receipt under `bafy-put-receipt-failed` ran
`demoPutInv` and reports an error. -/
def demoLibFailedPut : Lib :=
  { demoLib with
    readReceipt := fun l blocks =>
      if l.cid = "bafy-put-receipt-failed" then
        .ok { root := l, ran := .invocation demoPutInv
              out := .error (some (.map [("message", .string "upload failed")]))
              blocks := blocks.map .ok }
      else demoLib.readReceipt l blocks }

/-- The library when the node's receipts have an ok payload without a `site`
entry. -/
def demoLibNoSite : Lib :=
  { demoLib with
    readReceipt := fun l blocks =>
      .ok { root := l, ran := .invocation demoPutInv, out := .ok (some (.map []))
            blocks := blocks.map .ok } }

/-! ## Properties -/

/-- Two characters per byte: `len(hex.EncodeToString(b)) = 2 * len(b)`. -/
theorem hexEncode_length (bs : List Nat) : (hexEncode bs).length = 2 * bs.length := by
  unfold hexEncode
  simp only [String.length]
  induction bs with
  | nil => simp
  | cons b bs ih => simp [List.flatMap_cons, ih]; omega

/-- The only store call made while choosing the upload URL is
`GetFirstProvider`. -/
theorem spaceBlobAdd.uploadURL_calls {σ : Type} (State : StateStore σ) (st : σ)
    (allocResp : AllocateResponse) (e : Event)
    (h : e ∈ (spaceBlobAdd.uploadURL State st allocResp).2) :
    ∃ r, e = .GetFirstProvider r := by
  unfold spaceBlobAdd.uploadURL at h
  repeat' split at h
  all_goals simp_all

/-- What `Invoke` hands back, when it succeeds: the signed root it was asked
for. -/
theorem Invoke_ok (lib : Lib) (now : Nat) (issuer : Signer) (audience : DID)
    (can resource : String) (nb : Caveats) (opts : List DelegationOption) (d : Delegation)
    (h : Invoke lib now issuer audience can resource nb opts = .ok d) :
    d.issuer = issuer.did ∧ d.audience = audience ∧
    d.capabilities = [{ can := can, resource := resource, nb := nb }] ∧
    d.proofs = (optProofs opts).map lib.link ∧
    d.expiration = (if hasNoExpiration opts then none else some (now + lib.defaultLifetime)) ∧
    collectFacts (optFacts opts) = .ok d.facts := by
  unfold Invoke at h
  split at h
  · simp at h
  · rename_i facts hf
    simp only at h
    split at h
    · simp at h
    · simp only [Except.ok.injEq] at h
      subst h
      simp [hf]

/-- Attaching blocks leaves the signed root as it is. -/
theorem attachBlocks_root (blocks : List (Except String Block)) (inv inv2 : Invocation)
    (h : attachBlocks inv blocks = .ok inv2) :
    inv2.issuer = inv.issuer ∧ inv2.audience = inv.audience ∧
    inv2.capabilities = inv.capabilities ∧ inv2.facts = inv.facts ∧
    inv2.proofs = inv.proofs ∧ inv2.expiration = inv.expiration := by
  induction blocks generalizing inv with
  | nil =>
    simp only [attachBlocks, Except.ok.injEq] at h
    subst h
    simp
  | cons b rest ih =>
    cases b with
    | error e => simp [attachBlocks] at h
    | ok blk =>
      simp only [attachBlocks] at h
      have := ih _ h
      simpa using this

/-- What `Allocate` hands back, when it succeeds: the invocation is the
`blob/allocate` one it issued and sent over the connection, and the receipt is
the one read from the node's response. -/
theorem Client.Allocate_ok (lib : Lib) (now : Nat) (c : Client) (req : AllocateRequest)
    (allocResp : AllocateResponse) (inv : Invocation) (rcpt : AnyReceipt)
    (h : c.Allocate lib now req = .ok (allocResp, inv, rcpt)) :
    ∃ opts resp rcptLink,
      c.fetchDelegationOpts = .ok opts ∧
      Invoke lib now c.signer c.piriDID AllocateAbility c.piriDID.String
        (.allocate req.Space { digest := req.Digest, size := req.Size } req.Cause) opts
        = .ok inv ∧
      c.connection [inv] = .ok resp ∧
      resp.Get (lib.link inv) = some rcptLink ∧
      lib.readReceipt rcptLink resp.blocks = .ok rcpt := by
  unfold Client.Allocate at h
  split at h
  · simp at h
  rename_i opts hopts
  split at h
  · simp at h
  rename_i inv0 hinv
  split at h
  · simp at h
  rename_i resp hresp
  split at h
  · simp at h
  rename_i rcptLink hget
  split at h
  · simp at h
  rename_i anyRcpt hread
  split at h
  · simp at h
  · simp at h
  split at h
  · simp at h
  · split at h
    · simp at h
    · simp only [Except.ok.injEq, Prod.mk.injEq] at h
      obtain ⟨-, rfl, rfl⟩ := h
      exact ⟨opts, resp, rcptLink, hopts, hinv, hresp, hget, hread⟩
  · simp only [Except.ok.injEq, Prod.mk.injEq] at h
    obtain ⟨-, rfl, rfl⟩ := h
    exact ⟨opts, resp, rcptLink, hopts, hinv, hresp, hget, hread⟩

/-- The successful run of `space/blob/add`: every answer on the way, and the
run itself. -/
theorem spaceBlobAdd_ok_inv {σ : Type} (lib : Lib) (s : Service σ)
    (blobProvider : Signer) (clock : Nat → Nat) (capWith : String) (blobInfo : Blob)
    (inv : Invocation) (iCtxID : Signer) (st : σ) (payload : AddOk) (fx : Option Effects)
    (hok : (spaceBlobAdd lib s blobProvider clock capWith blobInfo inv iCtxID st).outcome
      = .ok payload fx) :
    ∃ spaceDID piriClient allocResp allocateInv allocateRcpt st1 httpPutInv acceptInv st2
        concludeInv0 concludeInv,
      16 ≤ (hexEncode blobInfo.digest).length ∧
      lib.didParse capWith = .ok spaceDID ∧
      s.PiriClient = .ok (some piriClient) ∧
      piriClient.Allocate lib (clock 0) (spaceBlobAdd.req lib spaceDID blobInfo inv)
        = .ok (allocResp, allocateInv, allocateRcpt) ∧
      s.State.PutAllocation st (hexEncode blobInfo.digest)
        (spaceBlobAdd.alloc lib (clock 1) spaceDID blobInfo inv piriClient
          (spaceBlobAdd.uploadURL s.State st allocResp).1) = (none, st1) ∧
      spaceBlobAdd.httpPutInv lib (clock 2) blobProvider blobInfo allocateRcpt = .ok httpPutInv ∧
      spaceBlobAdd.acceptInv lib (clock 3) iCtxID piriClient.PiriDID spaceDID blobInfo httpPutInv
        = .ok acceptInv ∧
      s.State.PutAllocation st1 (hexEncode blobInfo.digest)
        ((spaceBlobAdd.alloc lib (clock 1) spaceDID blobInfo inv piriClient
            (spaceBlobAdd.uploadURL s.State st allocResp).1).setAcceptInvLink
          (lib.link acceptInv)) = (none, st2) ∧
      spaceBlobAdd.concludeInv lib (clock 4) iCtxID piriClient.PiriDID capWith allocateRcpt
        = .ok concludeInv0 ∧
      attachBlocks concludeInv0 allocateRcpt.blocks = .ok concludeInv ∧
      spaceBlobAdd lib s blobProvider clock capWith blobInfo inv iCtxID st =
        ⟨.ok { Site := { selector := ".out.ok.site", link := lib.link acceptInv } }
            (some { fork := [allocateInv, concludeInv, httpPutInv, acceptInv] }),
          st2,
          [.PiriClient (.ok (some piriClient.PiriDID)),
           .Allocate piriClient.PiriDID (spaceBlobAdd.req lib spaceDID blobInfo inv) none]
          ++ (spaceBlobAdd.uploadURL s.State st allocResp).2
          ++ [.PutAllocation (hexEncode blobInfo.digest)
                (spaceBlobAdd.alloc lib (clock 1) spaceDID blobInfo inv piriClient
                  (spaceBlobAdd.uploadURL s.State st allocResp).1) none]
          ++ [.PutAllocation (hexEncode blobInfo.digest)
                ((spaceBlobAdd.alloc lib (clock 1) spaceDID blobInfo inv piriClient
                    (spaceBlobAdd.uploadURL s.State st allocResp).1).setAcceptInvLink
                  (lib.link acceptInv)) none]⟩ := by
  by_cases hlen : (hexEncode blobInfo.digest).length < 16
  · simp [spaceBlobAdd, hlen] at hok
  cases hd : lib.didParse capWith with
  | error e => simp [spaceBlobAdd, hlen, hd] at hok
  | ok spaceDID =>
  cases hc : s.PiriClient with
  | error e => simp [spaceBlobAdd, hlen, hd, hc] at hok
  | ok oc =>
  cases oc with
  | none => simp [spaceBlobAdd, hlen, hd, hc] at hok
  | some piriClient =>
  cases ha : piriClient.Allocate lib (clock 0) (spaceBlobAdd.req lib spaceDID blobInfo inv) with
  | error e => simp [spaceBlobAdd, hlen, hd, hc, ha] at hok
  | ok r =>
  obtain ⟨allocResp, allocateInv, allocateRcpt⟩ := r
  cases hp : s.State.PutAllocation st (hexEncode blobInfo.digest)
      (spaceBlobAdd.alloc lib (clock 1) spaceDID blobInfo inv piriClient
        (spaceBlobAdd.uploadURL s.State st allocResp).1) with
  | mk err st1 =>
  cases err with
  | some e => simp [spaceBlobAdd, hlen, hd, hc, ha, hp] at hok
  | none =>
  cases hh : spaceBlobAdd.httpPutInv lib (clock 2) blobProvider blobInfo allocateRcpt with
  | error e => simp [spaceBlobAdd, hlen, hd, hc, ha, hp, hh] at hok
  | ok httpPutInv =>
  cases hacc : spaceBlobAdd.acceptInv lib (clock 3) iCtxID piriClient.PiriDID spaceDID blobInfo
      httpPutInv with
  | error e => simp [spaceBlobAdd, hlen, hd, hc, ha, hp, hh, hacc] at hok
  | ok acceptInv =>
  cases hp2 : s.State.PutAllocation st1 (hexEncode blobInfo.digest)
      ((spaceBlobAdd.alloc lib (clock 1) spaceDID blobInfo inv piriClient
          (spaceBlobAdd.uploadURL s.State st allocResp).1).setAcceptInvLink
        (lib.link acceptInv)) with
  | mk err st2 =>
  cases err with
  | some e => simp [spaceBlobAdd, hlen, hd, hc, ha, hp, hh, hacc, hp2] at hok
  | none =>
  cases hcon : spaceBlobAdd.concludeInv lib (clock 4) iCtxID piriClient.PiriDID capWith
      allocateRcpt with
  | error e => simp [spaceBlobAdd, hlen, hd, hc, ha, hp, hh, hacc, hp2, hcon] at hok
  | ok concludeInv0 =>
  cases hat : attachBlocks concludeInv0 allocateRcpt.blocks with
  | error e => simp [spaceBlobAdd, hlen, hd, hc, ha, hp, hh, hacc, hp2, hcon, hat] at hok
  | ok concludeInv =>
  refine ⟨spaceDID, piriClient, allocResp, allocateInv, allocateRcpt, st1, httpPutInv,
    acceptInv, st2, concludeInv0, concludeInv, Nat.le_of_not_lt hlen, rfl, rfl, ha, hp, hh,
    hacc, hp2, hcon, hat, ?_⟩
  simp [spaceBlobAdd, hlen, hd, hc, ha, hp, hh, hacc, hp2, hcon, hat]


/-- The run of `space/blob/add` on the small deployment succeeds. -/
theorem demo_spaceBlobAdd_ok :
    ∃ payload fx,
      (spaceBlobAdd demoLib demoService demoBlobProvider demoClock "did:key:zSpace" demoBlob
        demoAddInv demoSigner NewStore).outcome = .ok payload fx := by
  simp [spaceBlobAdd, spaceBlobAdd.req, spaceBlobAdd.alloc, spaceBlobAdd.uploadURL,
    spaceBlobAdd.httpPutInv, spaceBlobAdd.acceptInv, spaceBlobAdd.concludeInv,
    hexEncode_length, demoBlob, demoLib, demoService, demoClient, Client.Allocate,
    Client.fetchDelegationOpts, Invoke, collectFacts, optFacts, optProofs, hasNoExpiration,
    httpPutFact.ToIPLD, Response.Get, Out.Unwrap, attachBlocks, Store.asStateStore,
    Store.PutAllocation, Allocation.setAcceptInvLink]

/-- The in-memory store reads back the allocation it was last given. -/
theorem Store.GetAllocation_PutAllocation (order : Nat) (st : Store) (k : String)
    (a : Allocation) (st2 : Store)
    (h : (Store.asStateStore order).PutAllocation st k a = (none, st2)) :
    (Store.asStateStore order).GetAllocation st2 k = .ok (some a) := by
  simp only [Store.asStateStore, Store.PutAllocation, Prod.mk.injEq, true_and] at h
  subst h
  simp [Store.asStateStore, Store.GetAllocation]

/-- C2. When `space/blob/add` returns ok over a store that reads back what
was last written under a key, `GetAllocation` of the hex digest yields, on the
store the handler leaves, a record whose `AcceptInvLink` is the link of the
`blob/accept` invocation the call built (the fourth effect); writing that
record is the last call of the run. -/
theorem spaceBlobAdd_ok_allocation {σ : Type} (lib : Lib) (s : Service σ)
    (blobProvider : Signer) (clock : Nat → Nat) (capWith : String) (blobInfo : Blob)
    (inv : Invocation) (iCtxID : Signer) (st : σ) (payload : AddOk) (fx : Option Effects)
    (hryw : ∀ st k a st2, s.State.PutAllocation st k a = (none, st2) →
      s.State.GetAllocation st2 k = .ok (some a))
    (hok : (spaceBlobAdd lib s blobProvider clock capWith blobInfo inv iCtxID st).outcome
      = .ok payload fx) :
    ∃ alloc allocateInv concludeInv httpPutInv acceptInv,
      fx = some { fork := [allocateInv, concludeInv, httpPutInv, acceptInv] } ∧
      (∃ spaceDID piriClient, lib.didParse capWith = .ok spaceDID ∧
        s.PiriClient = .ok (some piriClient) ∧
        spaceBlobAdd.acceptInv lib (clock 3) iCtxID piriClient.PiriDID spaceDID blobInfo
          httpPutInv = .ok acceptInv) ∧
      s.State.GetAllocation
        (spaceBlobAdd lib s blobProvider clock capWith blobInfo inv iCtxID st).store
        (hexEncode blobInfo.digest) = .ok (some alloc) ∧
      alloc.AcceptInvLink = some (lib.link acceptInv) ∧
      (spaceBlobAdd lib s blobProvider clock capWith blobInfo inv iCtxID st).calls.getLast?
        = some (.PutAllocation (hexEncode blobInfo.digest) alloc none) := by
  obtain ⟨spaceDID, piriClient, allocResp, allocateInv, allocateRcpt, st1, httpPutInv,
    acceptInv, st2, concludeInv0, concludeInv, -, hd, hc, -, -, -, hacc, hp2, -, -, hrun⟩ :=
    spaceBlobAdd_ok_inv lib s blobProvider clock capWith blobInfo inv iCtxID st payload fx hok
  rw [hrun] at hok
  simp only [Outcome.ok.injEq] at hok
  refine ⟨(spaceBlobAdd.alloc lib (clock 1) spaceDID blobInfo inv piriClient
      (spaceBlobAdd.uploadURL s.State st allocResp).1).setAcceptInvLink (lib.link acceptInv),
    allocateInv, concludeInv, httpPutInv, acceptInv, hok.2.symm,
    ⟨spaceDID, piriClient, hd, hc, hacc⟩, ?_, rfl, ?_⟩
  · rw [hrun]
    exact hryw _ _ _ _ hp2
  · rw [hrun]
    exact List.getLast?_concat _

/-- C2 on the small deployment, over the in-memory store. -/
theorem spaceBlobAdd_ok_allocation_witness :
    ∃ alloc link,
      (Store.asStateStore 0).GetAllocation
        (spaceBlobAdd demoLib demoService demoBlobProvider demoClock "did:key:zSpace" demoBlob
          demoAddInv demoSigner NewStore).store
        (hexEncode demoBlob.digest) = .ok (some alloc) ∧
      alloc.AcceptInvLink = some link := by
  obtain ⟨payload, fx, hok⟩ := demo_spaceBlobAdd_ok
  obtain ⟨alloc, _, _, _, acceptInv, _, _, hget, hlink, _⟩ :=
    spaceBlobAdd_ok_allocation demoLib demoService demoBlobProvider demoClock "did:key:zSpace"
      demoBlob demoAddInv demoSigner NewStore payload fx
      (Store.GetAllocation_PutAllocation 0) hok
  exact ⟨alloc, _, hget, hlink⟩

/-- C3. When `space/blob/add` returns ok, the payload's site is the promise
`.out.ok.site` on the link of the accept invocation, which is the
`AcceptInvLink` of the allocation the run stored, and the fork effects are
four, in this order: the `blob/allocate` invocation sent to the node, the
`ucan/conclude`, the `http/put` and the `blob/accept` invocation. -/
theorem spaceBlobAdd_ok_site_and_forks {σ : Type} (lib : Lib) (s : Service σ)
    (blobProvider : Signer) (clock : Nat → Nat) (capWith : String) (blobInfo : Blob)
    (inv : Invocation) (iCtxID : Signer) (st : σ) (payload : AddOk) (fx : Option Effects)
    (hok : (spaceBlobAdd lib s blobProvider clock capWith blobInfo inv iCtxID st).outcome
      = .ok payload fx) :
    ∃ spaceDID piriClient allocResp allocateRcpt resp alloc allocateInv concludeInv httpPutInv
        acceptInv,
      s.PiriClient = .ok (some piriClient) ∧
      piriClient.Allocate lib (clock 0) (spaceBlobAdd.req lib spaceDID blobInfo inv)
        = .ok (allocResp, allocateInv, allocateRcpt) ∧
      piriClient.connection [allocateInv] = .ok resp ∧
      payload.Site = { selector := ".out.ok.site", link := lib.link acceptInv } ∧
      Event.PutAllocation (hexEncode blobInfo.digest) alloc none ∈
        (spaceBlobAdd lib s blobProvider clock capWith blobInfo inv iCtxID st).calls ∧
      alloc.AcceptInvLink = some (lib.link acceptInv) ∧
      fx = some { fork := [allocateInv, concludeInv, httpPutInv, acceptInv] } ∧
      [allocateInv, concludeInv, httpPutInv, acceptInv].map
          (fun i => i.capabilities.map fun c => c.can)
        = [[AllocateAbility], [ConcludeAbility], [PutAbility], [AcceptAbility]] := by
  obtain ⟨spaceDID, piriClient, allocResp, allocateInv, allocateRcpt, st1, httpPutInv,
    acceptInv, st2, concludeInv0, concludeInv, -, -, hc, ha, -, hh, hacc, -, hcon, hat, hrun⟩ :=
    spaceBlobAdd_ok_inv lib s blobProvider clock capWith blobInfo inv iCtxID st payload fx hok
  obtain ⟨opts, resp, rcptLink, -, hinv, hconn, -, -⟩ :=
    Client.Allocate_ok lib _ piriClient _ _ _ _ ha
  rw [hrun] at hok
  simp only [Outcome.ok.injEq] at hok
  have h1 := (Invoke_ok _ _ _ _ _ _ _ _ _ hinv).2.2.1
  have hcon' : Invoke _ _ _ _ _ _ _ _ = .ok concludeInv0 := hcon
  have hh' : Invoke _ _ _ _ _ _ _ _ = .ok httpPutInv := hh
  have hacc' : Invoke _ _ _ _ _ _ _ _ = .ok acceptInv := hacc
  have h2 := (Invoke_ok _ _ _ _ _ _ _ _ _ hcon').2.2.1
  have h2' := (attachBlocks_root _ _ _ hat).2.2.1
  have h3 := (Invoke_ok _ _ _ _ _ _ _ _ _ hh').2.2.1
  have h4 := (Invoke_ok _ _ _ _ _ _ _ _ _ hacc').2.2.1
  refine ⟨spaceDID, piriClient, allocResp, allocateRcpt, resp,
    (spaceBlobAdd.alloc lib (clock 1) spaceDID blobInfo inv piriClient
      (spaceBlobAdd.uploadURL s.State st allocResp).1).setAcceptInvLink (lib.link acceptInv),
    allocateInv, concludeInv, httpPutInv, acceptInv, hc, ha, hconn, ?_, ?_, rfl, hok.2.symm, ?_⟩
  · rw [← hok.1]
  · rw [hrun]
    simp
  · simp [h1, h2, h2', h3, h4]

/-- C3 on the small deployment: four effects, and the site awaits the
fourth. -/
theorem spaceBlobAdd_ok_site_and_forks_witness :
    ∃ payload i1 i2 i3 i4,
      (spaceBlobAdd demoLib demoService demoBlobProvider demoClock "did:key:zSpace" demoBlob
        demoAddInv demoSigner NewStore).outcome
        = .ok payload (some { fork := [i1, i2, i3, i4] }) ∧
      payload.Site = { selector := ".out.ok.site", link := demoLib.link i4 } := by
  obtain ⟨payload, fx, hok⟩ := demo_spaceBlobAdd_ok
  obtain ⟨_, _, _, _, _, _, i1, i2, i3, i4, _, _, _, hsite, _, _, hfx, _⟩ :=
    spaceBlobAdd_ok_site_and_forks demoLib demoService demoBlobProvider demoClock
      "did:key:zSpace" demoBlob demoAddInv demoSigner NewStore payload fx hok
  exact ⟨payload, i1, i2, i3, i4, hfx ▸ hok, hsite⟩

/-- C10. The `blob/accept` invocation `space/blob/add` builds, the fourth
effect of a successful run, is issued by the service (`iCtx.ID()`) to the
storage node, has the node's DID as resource, has the caveats
`{space, blob = {digest, size}, put = promise(".out.ok", link of the http/put
invocation of the same run)}` and has no expiration. -/
theorem spaceBlobAdd_acceptInv {σ : Type} (lib : Lib) (s : Service σ)
    (blobProvider : Signer) (clock : Nat → Nat) (capWith : String) (blobInfo : Blob)
    (inv : Invocation) (iCtxID : Signer) (st : σ) (payload : AddOk) (fx : Option Effects)
    (hok : (spaceBlobAdd lib s blobProvider clock capWith blobInfo inv iCtxID st).outcome
      = .ok payload fx) :
    ∃ spaceDID piriClient allocateRcpt allocateInv concludeInv httpPutInv acceptInv,
      lib.didParse capWith = .ok spaceDID ∧
      s.PiriClient = .ok (some piriClient) ∧
      spaceBlobAdd.httpPutInv lib (clock 2) blobProvider blobInfo allocateRcpt = .ok httpPutInv ∧
      fx = some { fork := [allocateInv, concludeInv, httpPutInv, acceptInv] } ∧
      acceptInv.issuer = iCtxID.did ∧
      acceptInv.audience = piriClient.PiriDID ∧
      acceptInv.capabilities =
        [{ can := AcceptAbility
           resource := piriClient.PiriDID.String
           nb := .accept spaceDID { digest := blobInfo.digest, size := blobInfo.size }
             { selector := ".out.ok", link := lib.link httpPutInv } }] ∧
      acceptInv.expiration = none := by
  obtain ⟨spaceDID, piriClient, allocResp, allocateInv, allocateRcpt, st1, httpPutInv,
    acceptInv, st2, concludeInv0, concludeInv, -, hd, hc, -, -, hh, hacc, -, -, -, hrun⟩ :=
    spaceBlobAdd_ok_inv lib s blobProvider clock capWith blobInfo inv iCtxID st payload fx hok
  rw [hrun] at hok
  simp only [Outcome.ok.injEq] at hok
  have hacc' : Invoke _ _ _ _ _ _ _ _ = .ok acceptInv := hacc
  obtain ⟨hi, ha, hcap, -, hexp, -⟩ := Invoke_ok _ _ _ _ _ _ _ _ _ hacc'
  exact ⟨spaceDID, piriClient, allocateRcpt, allocateInv, concludeInv, httpPutInv, acceptInv,
    hd, hc, hh, hok.2.symm, hi, ha, hcap, by simpa [hasNoExpiration] using hexp⟩

/-- C10 on the small deployment: the fourth effect has no expiration and is
addressed to the node. -/
theorem spaceBlobAdd_acceptInv_witness :
    ∃ payload i1 i2 i3 acceptInv,
      (spaceBlobAdd demoLib demoService demoBlobProvider demoClock "did:key:zSpace" demoBlob
        demoAddInv demoSigner NewStore).outcome
        = .ok payload (some { fork := [i1, i2, i3, acceptInv] }) ∧
      acceptInv.issuer = demoSigner.did ∧ acceptInv.expiration = none := by
  obtain ⟨payload, fx, hok⟩ := demo_spaceBlobAdd_ok
  obtain ⟨_, _, _, i1, i2, i3, acceptInv, _, _, _, hfx, hi, _, _, hexp⟩ :=
    spaceBlobAdd_acceptInv demoLib demoService demoBlobProvider demoClock
      "did:key:zSpace" demoBlob demoAddInv demoSigner NewStore payload fx hok
  exact ⟨payload, i1, i2, i3, acceptInv, hfx ▸ hok, hi, hexp⟩

/-- Every run of `ucan/conclude` leaves by one of its exits. -/
theorem ucanConclude_exit {σ : Type} (lib : Lib) (s : Service σ) (clock : Nat → Nat)
    (receiptLink : Link) (inv : Invocation) (st : σ) :
    ucanConclude.Exit lib s clock receiptLink inv st := by
  cases hr : lib.readReceipt receiptLink inv.blocks with
  | error e => exact .notPut (by simp [ucanConclude, hr])
  | ok rcpt =>
  cases hran : rcpt.ran.Invocation with
  | none => exact .notPut (by simp [ucanConclude, hr, hran])
  | some ranInv =>
  cases hcaps : ranInv.capabilities with
  | nil => exact .notPut (by simp [ucanConclude, hr, hran, hcaps])
  | cons putCap rest =>
  by_cases hab : putCap.can = PutAbility
  swap
  · exact .notPut (by simp [ucanConclude, hr, hran, hcaps, hab])
  cases hm : lib.matchPut putCap ranInv with
  | error e => exact .notPut (by simp [ucanConclude, hr, hran, hcaps, hab, hm])
  | ok putMatch =>
  have hput : ucanConclude.IsPut lib receiptLink inv ranInv putMatch.body :=
    ⟨rcpt, putCap, rest, putMatch, hr, hran, hcaps, hab, hm, rfl⟩
  by_cases hlen : (hexEncode putMatch.body.digest).length < 16
  · exact .slice ranInv _ hput hlen (by simp [ucanConclude, hr, hran, hcaps, hab, hm, hlen])
  have hlen' := Nat.le_of_not_lt hlen
  cases hget : s.State.GetAllocation st (hexEncode putMatch.body.digest) with
  | error e =>
    exact .lookupFailed ranInv _ e hput hlen' hget
      (by simp [ucanConclude, hr, hran, hcaps, hab, hm, hlen, hget])
  | ok oa =>
  cases oa with
  | none =>
    exact .noAllocation ranInv _ hput hlen' hget
      (by simp [ucanConclude, hr, hran, hcaps, hab, hm, hlen, hget])
  | some alloc =>
  cases hc : s.PiriClient with
  | error e =>
    exact .clientError ranInv _ alloc e hput hlen' hget hc
      (by simp [ucanConclude, hr, hran, hcaps, hab, hm, hlen, hget, hc])
  | ok oc =>
  cases oc with
  | none =>
    exact .noProvider ranInv _ alloc hput hlen' hget hc
      (by simp [ucanConclude, hr, hran, hcaps, hab, hm, hlen, hget, hc])
  | some piriClient =>
  cases hacc : piriClient.Accept lib (clock 0) (ucanConclude.req lib alloc putMatch.body ranInv) with
  | error e =>
    exact .acceptFailed ranInv _ alloc piriClient e hput hlen' hget hc hacc
      (by simp [ucanConclude, hr, hran, hcaps, hab, hm, hlen, hget, hc, hacc])
  | ok r =>
  obtain ⟨acceptResp, piriRcpt⟩ := r
  cases hi : receiptIssue lib s.ID { site := acceptResp.Site } alloc.AcceptInvLink with
  | error e =>
    exact .issueFailed ranInv _ alloc piriClient acceptResp piriRcpt e hput hlen' hget hc hacc hi
      (by simp [ucanConclude, ucanConclude.accepted, hr, hran, hcaps, hab, hm, hlen, hget, hc,
        hacc, hi])
  | ok reissuedRcpt =>
  cases hl : alloc.AcceptInvLink with
  | none =>
    rw [hl] at hi
    exact .nilLink ranInv _ alloc piriClient acceptResp piriRcpt reissuedRcpt hput hlen' hget hc
      hacc (hl ▸ hi) hl
      (by simp [ucanConclude, ucanConclude.accepted, hr, hran, hcaps, hab, hm, hlen, hget, hc,
        hacc, hi, hl])
  | some link =>
  rw [hl] at hi
  cases hs : s.State.PutReceipt st link.String
      (ucanConclude.stored (clock 2) alloc reissuedRcpt piriRcpt) with
  | mk err st1 =>
  refine .stored ranInv _ alloc piriClient acceptResp piriRcpt reissuedRcpt link err st1 hput
    hlen' hget hc hacc (hl ▸ hi) hl hs ?_
  cases err with
  | none =>
    simp [ucanConclude, ucanConclude.accepted, hr, hran, hcaps, hab, hm, hlen, hget, hc,
      hacc, hi, hl, hs]
  | some e =>
    simp [ucanConclude, ucanConclude.accepted, hr, hran, hcaps, hab, hm, hlen, hget, hc,
      hacc, hi, hl, hs]

/-- The only call made while publishing to the indexer is
`CacheLocationClaim`. -/
theorem ucanConclude.cacheLocationClaim_calls (lib : Lib) (now : Nat)
    (indexerClient : Option IndexerClient) (piriClient : Client)
    (acceptResp : AcceptResponse) (piriRcpt : AnyReceipt) (e : Event)
    (h : e ∈ ucanConclude.cacheLocationClaim lib now indexerClient piriClient acceptResp
      piriRcpt) :
    ∃ claim addrs err, e = .CacheLocationClaim claim addrs err := by
  unfold ucanConclude.cacheLocationClaim at h
  simp only at h
  repeat' split at h
  all_goals simp_all

/-- The calls of a run of `ucan/conclude` up to the publishing: the lookup of
the allocation, the provider lookup, the successful `Accept` and what the
publishing calls. -/
theorem ucanConclude.accepted_calls {σ : Type} (lib : Lib) (s : Service σ)
    (clock : Nat → Nat) (ranInv : Invocation) (body : Body) (alloc : Allocation)
    (piriClient : Client) (acceptResp : AcceptResponse) (piriRcpt : AnyReceipt) (e : Event)
    (h : e ∈ ucanConclude.accepted lib s clock ranInv body alloc piriClient acceptResp
      piriRcpt) :
    e = .GetAllocation (hexEncode body.digest) (.ok (some alloc)) ∨
    e = .PiriClient (.ok (some piriClient.PiriDID)) ∨
    e = .Accept piriClient.PiriDID (ucanConclude.req lib alloc body ranInv) none ∨
    ∃ claim addrs err, e = .CacheLocationClaim claim addrs err := by
  simp only [ucanConclude.accepted, List.mem_append, List.mem_cons, List.mem_singleton,
    List.not_mem_nil, or_false] at h
  rcases h with (h | h | h) | h
  · exact .inl h
  · exact .inr (.inl h)
  · exact .inr (.inr (.inl h))
  · exact .inr (.inr (.inr (ucanConclude.cacheLocationClaim_calls _ _ _ _ _ _ _ h)))

/-- The blocks collected are the blocks that iterate without error. -/
theorem mem_collectBlocks (blocks : List (Except String Block)) (b : Block) :
    b ∈ collectBlocks blocks ↔ Except.ok b ∈ blocks := by
  induction blocks with
  | nil => simp [collectBlocks]
  | cons x rest ih =>
    cases x with
    | error e => simp [collectBlocks, ih]
    | ok blk => simp [collectBlocks, ih]

/-- What `Accept` hands back, when it succeeds: the receipt is the one read
from the node's response, its `out` is an ok node, and the site is the `site`
entry of that node when it is a link. -/
theorem Client.Accept_ok (lib : Lib) (now : Nat) (c : Client) (req : AcceptRequest)
    (acceptResp : AcceptResponse) (rcpt : AnyReceipt)
    (h : c.Accept lib now req = .ok (acceptResp, rcpt)) :
    ∃ okNode, rcpt.out = .ok (some okNode) ∧
      ∀ link, acceptResp.Site = some link ↔
        ∃ siteNode, okNode.LookupByString "site" = .ok siteNode ∧ siteNode.AsLink = .ok link := by
  unfold Client.Accept at h
  split at h
  · simp at h
  split at h
  · simp at h
  split at h
  · simp at h
  split at h
  · simp at h
  split at h
  · simp at h
  rename_i anyRcpt hread
  split at h
  · simp at h
  · simp at h
  rename_i okNode hout
  simp only [Except.ok.injEq, Prod.mk.injEq] at h
  obtain ⟨rfl, rfl⟩ := h
  refine ⟨okNode, ?_, ?_⟩
  · cases hout' : anyRcpt.out with
    | ok n => simp [hout', Out.Unwrap] at hout; simp [hout]
    | error n => simp [hout', Out.Unwrap] at hout
  · intro link
    simp only
    cases hl : okNode.LookupByString "site" with
    | error e => simp
    | ok siteNode =>
      cases ha : siteNode.AsLink with
      | error e => simp [ha]
      | ok l => simp [ha]

/-- C4. After `ucan/conclude` has stored a receipt (the store answered its
`PutReceipt` with no error), over a store that reads back what was last
written under a key: for the allocation `alloc` found for the digest,
`GetReceipt(alloc.AcceptInvLink.String())` returns the stored receipt, which
is issued by the service signer, has `ran = alloc.AcceptInvLink`, has as
`ok.site` the site the storage node's `blob/accept` returned, and has as extra
blocks the blocks of the node's receipt. -/
theorem ucanConclude_stored_receipt {σ : Type} (lib : Lib) (s : Service σ)
    (clock : Nat → Nat) (receiptLink : Link) (inv : Invocation) (st : σ)
    (key : String) (stored : StoredReceipt)
    (hryw : ∀ st k r st2, s.State.PutReceipt st k r = (none, st2) →
      s.State.GetReceipt st2 k = .ok (some r))
    (h : Event.PutReceipt key stored none ∈
      (ucanConclude lib s clock receiptLink inv st).calls) :
    ∃ ranInv body alloc link piriClient acceptResp piriRcpt,
      ucanConclude.IsPut lib receiptLink inv ranInv body ∧
      s.State.GetAllocation st (hexEncode body.digest) = .ok (some alloc) ∧
      alloc.AcceptInvLink = some link ∧
      s.PiriClient = .ok (some piriClient) ∧
      piriClient.Accept lib (clock 0) (ucanConclude.req lib alloc body ranInv)
        = .ok (acceptResp, piriRcpt) ∧
      key = link.String ∧
      s.State.GetReceipt (ucanConclude lib s clock receiptLink inv st).store link.String
        = .ok (some stored) ∧
      stored.Task = some link ∧
      stored.Receipt.issuer = s.ID.did ∧
      stored.Receipt.ran = some link ∧
      stored.Receipt.out.site = acceptResp.Site ∧
      stored.ExtraBlocks = collectBlocks piriRcpt.blocks ∧
      (∀ b, Except.ok b ∈ piriRcpt.blocks ↔ b ∈ stored.ExtraBlocks) := by
  cases ucanConclude_exit lib s clock receiptLink inv st with
  | notPut hrun => simp [hrun, acknowledge] at h
  | slice _ _ _ _ hrun => simp [hrun] at h
  | lookupFailed _ _ _ _ _ _ hrun => simp [hrun, acknowledge] at h
  | noAllocation _ _ _ _ _ hrun => simp [hrun, acknowledge] at h
  | clientError _ _ _ _ _ _ _ _ hrun => simp [hrun, acknowledge] at h
  | noProvider _ _ _ _ _ _ _ hrun => simp [hrun, acknowledge] at h
  | acceptFailed _ _ _ _ _ _ _ _ _ _ hrun => simp [hrun, acknowledge] at h
  | issueFailed ranInv body alloc piriClient acceptResp piriRcpt e _ _ _ _ _ _ hrun =>
    rw [hrun] at h
    rcases ucanConclude.accepted_calls _ _ _ _ _ _ _ _ _ _ h with h | h | h | ⟨_, _, _, h⟩ <;>
      cases h
  | nilLink ranInv body alloc piriClient acceptResp piriRcpt _ _ _ _ _ _ _ _ hrun =>
    rw [hrun] at h
    rcases ucanConclude.accepted_calls _ _ _ _ _ _ _ _ _ _ h with h | h | h | ⟨_, _, _, h⟩ <;>
      cases h
  | stored ranInv body alloc piriClient acceptResp piriRcpt reissuedRcpt link err st1 hput _
      hget hclient haccept hissue hlink hstore hrun =>
    rw [hrun] at h ⊢
    simp only [acknowledge, List.mem_append, List.mem_singleton] at h ⊢
    rcases h with h | h
    · rcases ucanConclude.accepted_calls _ _ _ _ _ _ _ _ _ _ h with h | h | h | ⟨_, _, _, h⟩ <;>
        cases h
    · simp only [Event.PutReceipt.injEq] at h
      obtain ⟨rfl, rfl, rfl⟩ := h
      unfold receiptIssue at hissue
      split at hissue
      · simp at hissue
      · simp only [Except.ok.injEq] at hissue
        subst hissue
        exact ⟨ranInv, body, alloc, link, piriClient, acceptResp, piriRcpt, hput, hget, hlink,
          hclient, haccept, rfl, hryw _ _ _ _ hstore, hlink, rfl, hlink, rfl, rfl,
          fun b => (mem_collectBlocks _ b).symm⟩

/-- The run of `ucan/conclude` on the small deployment stores a receipt under
the accept link of the allocation. -/
theorem demo_ucanConclude_stores :
    ∃ stored, Event.PutReceipt "bafy-accept" stored none ∈
      (ucanConclude demoLib demoService demoClock { cid := "bafy-put-receipt" }
        demoConcludeInv demoStore).calls := by
  simp [ucanConclude, ucanConclude.req, ucanConclude.cacheLocationClaim, ucanConclude.stored,
    acknowledge, receiptIssue, hexEncode_length, demoBlob, demoLib, demoService, demoClient,
    demoPutInv, demoConcludeInv, demoStore, demoAllocation, Ran.Invocation, PutAbility,
    Client.Accept, Client.fetchDelegationOpts, Invoke, collectFacts, optFacts, optProofs,
    hasNoExpiration, Response.Get, Out.Unwrap, Store.asStateStore, Store.PutAllocation,
    Store.GetAllocation, Store.PutReceipt, Link.String, NewStore]

/-- The in-memory store reads back the receipt it was last given. -/
theorem Store.GetReceipt_PutReceipt (order : Nat) (st : Store) (k : String)
    (r : StoredReceipt) (st2 : Store)
    (h : (Store.asStateStore order).PutReceipt st k r = (none, st2)) :
    (Store.asStateStore order).GetReceipt st2 k = .ok (some r) := by
  simp only [Store.asStateStore, Store.PutReceipt, Prod.mk.injEq, true_and] at h
  subst h
  simp [Store.asStateStore, Store.GetReceipt]

/-- C4 on the small deployment, over the in-memory store. -/
theorem ucanConclude_stored_receipt_witness :
    ∃ stored link,
      (Store.asStateStore 0).GetReceipt
        (ucanConclude demoLib demoService demoClock { cid := "bafy-put-receipt" }
          demoConcludeInv demoStore).store link.String = .ok (some stored) ∧
      stored.Receipt.issuer = demoSigner.did ∧ stored.Receipt.ran = some link := by
  obtain ⟨stored, h⟩ := demo_ucanConclude_stores
  obtain ⟨_, _, _, link, _, _, _, _, _, _, _, _, _, hget, _, hiss, hran, _⟩ :=
    ucanConclude_stored_receipt demoLib demoService demoClock { cid := "bafy-put-receipt" }
      demoConcludeInv demoStore "bafy-accept" stored (Store.GetReceipt_PutReceipt 0) h
  exact ⟨stored, link, hget, hiss, hran⟩

/-- Every run of `space/blob/add` leaves by one of its exits. -/
theorem spaceBlobAdd_exit {σ : Type} (lib : Lib) (s : Service σ) (blobProvider : Signer)
    (clock : Nat → Nat) (capWith : String) (blobInfo : Blob) (inv : Invocation)
    (iCtxID : Signer) (st : σ) :
    spaceBlobAdd.Exit lib s blobProvider clock capWith blobInfo inv iCtxID st := by
  by_cases hlen : (hexEncode blobInfo.digest).length < 16
  · exact .slice hlen (by simp [spaceBlobAdd, hlen])
  have hlen' := Nat.le_of_not_lt hlen
  cases hd : lib.didParse capWith with
  | error e => exact .invalidDID e hlen' hd (by simp [spaceBlobAdd, hlen, hd])
  | ok spaceDID =>
  cases hc : s.PiriClient with
  | error e => exact .clientError spaceDID e hlen' hd hc (by simp [spaceBlobAdd, hlen, hd, hc])
  | ok oc =>
  cases oc with
  | none => exact .noProvider spaceDID hlen' hd hc (by simp [spaceBlobAdd, hlen, hd, hc])
  | some piriClient =>
  cases ha : piriClient.Allocate lib (clock 0) (spaceBlobAdd.req lib spaceDID blobInfo inv) with
  | error e =>
    exact .allocateFailed spaceDID piriClient e hlen' hd hc ha
      (by simp [spaceBlobAdd, hlen, hd, hc, ha])
  | ok r =>
  obtain ⟨allocResp, allocateInv, allocateRcpt⟩ := r
  cases hp : s.State.PutAllocation st (hexEncode blobInfo.digest)
      (spaceBlobAdd.record lib s clock blobInfo inv st spaceDID piriClient allocResp) with
  | mk err st1 =>
  have hp' := hp
  unfold spaceBlobAdd.record at hp'
  cases err with
  | some e =>
    exact .storeFailed spaceDID piriClient allocResp allocateInv allocateRcpt e st1 hlen' hd hc
      ha hp
      (by simp [spaceBlobAdd, spaceBlobAdd.allocated, spaceBlobAdd.record, hlen, hd, hc, ha, hp'])
  | none =>
  cases hh : spaceBlobAdd.httpPutInv lib (clock 2) blobProvider blobInfo allocateRcpt with
  | error e =>
    exact .invokeFailed spaceDID piriClient allocResp allocateInv allocateRcpt st1 e hlen' hd hc
      ha hp (.inl hh)
      ⟨"creating http put invocation: " ++ e, by simp [spaceBlobAdd, spaceBlobAdd.allocated, spaceBlobAdd.record, hlen, hd, hc, ha,
        hp', hh]⟩
  | ok httpPutInv =>
  cases hacc : spaceBlobAdd.acceptInv lib (clock 3) iCtxID piriClient.PiriDID spaceDID blobInfo
      httpPutInv with
  | error e =>
    exact .invokeFailed spaceDID piriClient allocResp allocateInv allocateRcpt st1 e hlen' hd hc
      ha hp (.inr ⟨httpPutInv, hh, hacc⟩)
      ⟨"creating accept invocation: " ++ e, by simp [spaceBlobAdd, spaceBlobAdd.allocated, spaceBlobAdd.record, hlen, hd, hc, ha,
        hp', hh, hacc]⟩
  | ok acceptInv =>
  cases hp2 : s.State.PutAllocation st1 (hexEncode blobInfo.digest)
      ((spaceBlobAdd.record lib s clock blobInfo inv st spaceDID piriClient
        allocResp).setAcceptInvLink (lib.link acceptInv)) with
  | mk err st2 =>
  have hp2' := hp2
  unfold spaceBlobAdd.record at hp2'
  refine .updated spaceDID piriClient allocResp allocateInv allocateRcpt st1 httpPutInv
    acceptInv err st2 hlen' hd hc ha hp hh hacc hp2 ?_
  cases err with
  | some e =>
    exact ⟨.failure ("updating allocation: " ++ e),
      by simp [spaceBlobAdd, spaceBlobAdd.allocated, spaceBlobAdd.record, hlen, hd, hc,
        ha, hp', hh, hacc, hp2'], by simp, by simp⟩
  | none =>
  cases hcon : spaceBlobAdd.concludeInv lib (clock 4) iCtxID piriClient.PiriDID capWith
      allocateRcpt with
  | error e =>
    exact ⟨.error ("creating conclude invocation: " ++ e),
      by simp [spaceBlobAdd, spaceBlobAdd.allocated, spaceBlobAdd.record, hlen, hd, hc,
        ha, hp', hh, hacc, hp2', hcon], by simp, by simp⟩
  | ok concludeInv0 =>
  cases hat : attachBlocks concludeInv0 allocateRcpt.blocks with
  | error e =>
    exact ⟨.error ("getting allocate receipt block: " ++ e),
      by simp [spaceBlobAdd, spaceBlobAdd.allocated, spaceBlobAdd.record, hlen, hd, hc,
        ha, hp', hh, hacc, hp2', hcon, hat], by simp, by simp⟩
  | ok concludeInv =>
    exact ⟨.ok { Site := { selector := ".out.ok.site", link := lib.link acceptInv } }
        (some { fork := [allocateInv, concludeInv, httpPutInv, acceptInv] }),
      by simp [spaceBlobAdd, spaceBlobAdd.allocated, spaceBlobAdd.record, hlen, hd, hc,
        ha, hp', hh, hacc, hp2', hcon, hat], by simp,
      fun _ => .inr ⟨concludeInv0, concludeInv, rfl, hat, rfl⟩⟩

/-- The calls of a run of `space/blob/add` before the first `PutAllocation`:
the provider lookup, the successful `Allocate` and, at most,
`GetFirstProvider`. -/
theorem spaceBlobAdd.allocated_calls {σ : Type} (lib : Lib) (s : Service σ)
    (blobInfo : Blob) (inv : Invocation) (st : σ) (spaceDID : DID) (piriClient : Client)
    (allocResp : AllocateResponse) (e : Event)
    (h : e ∈ spaceBlobAdd.allocated lib s blobInfo inv st spaceDID piriClient allocResp) :
    e = .PiriClient (.ok (some piriClient.PiriDID)) ∨
    e = .Allocate piriClient.PiriDID (spaceBlobAdd.req lib spaceDID blobInfo inv) none ∨
    ∃ r, e = .GetFirstProvider r := by
  simp only [spaceBlobAdd.allocated, List.mem_append, List.mem_cons, List.mem_singleton,
    List.not_mem_nil, or_false] at h
  rcases h with (h | h) | h
  · exact .inl h
  · exact .inr (.inl h)
  · exact .inr (.inr (spaceBlobAdd.uploadURL_calls _ _ _ _ h))

/-- The provider lookup of `space/blob/add` is reached, and answers
`(nil, nil)`, whenever the digest has the 16 hex characters the log line
slices, the space DID parses and the service has no provider. -/
theorem spaceBlobAdd_no_provider_reached {σ : Type} (lib : Lib) (s : Service σ)
    (blobProvider : Signer) (clock : Nat → Nat) (capWith : String) (blobInfo : Blob)
    (inv : Invocation) (iCtxID : Signer) (st : σ) (spaceDID : DID)
    (hlen : 8 ≤ blobInfo.digest.length)
    (hdid : lib.didParse capWith = .ok spaceDID)
    (hclient : s.PiriClient = .ok none) :
    Event.PiriClient (.ok none) ∈
      (spaceBlobAdd lib s blobProvider clock capWith blobInfo inv iCtxID st).calls := by
  have h16 : ¬ (hexEncode blobInfo.digest).length < 16 := by
    rw [hexEncode_length]
    omega
  simp [spaceBlobAdd, h16, hdid, hclient]

/-- C1. In `space/blob/add`, when the provider lookup `PiriClient` returns no
client and no error (which takes a space DID that parsed), the handler returns
the failure "no storage provider available", makes no `PutAllocation` call and
leaves the store as it was. -/
theorem spaceBlobAdd_no_provider {σ : Type} (lib : Lib) (s : Service σ)
    (blobProvider : Signer) (clock : Nat → Nat) (capWith : String) (blobInfo : Blob)
    (inv : Invocation) (iCtxID : Signer) (st : σ)
    (h : Event.PiriClient (.ok none) ∈
      (spaceBlobAdd lib s blobProvider clock capWith blobInfo inv iCtxID st).calls) :
    (∃ spaceDID, lib.didParse capWith = .ok spaceDID) ∧
    s.PiriClient = .ok none ∧
    (spaceBlobAdd lib s blobProvider clock capWith blobInfo inv iCtxID st).outcome
        = .failure "no storage provider available" ∧
    (∀ key alloc err, Event.PutAllocation key alloc err ∉
      (spaceBlobAdd lib s blobProvider clock capWith blobInfo inv iCtxID st).calls) ∧
    (spaceBlobAdd lib s blobProvider clock capWith blobInfo inv iCtxID st).store = st := by
  cases spaceBlobAdd_exit lib s blobProvider clock capWith blobInfo inv iCtxID st with
  | slice _ hrun => simp [hrun] at h
  | invalidDID _ _ _ hrun => simp [hrun] at h
  | clientError _ _ _ _ _ hrun => simp [hrun] at h
  | noProvider spaceDID _ hdid hclient hrun =>
    rw [hrun]
    exact ⟨⟨spaceDID, hdid⟩, hclient, by simp⟩
  | allocateFailed _ _ _ _ _ _ _ hrun => simp [hrun] at h
  | storeFailed _ _ _ _ _ _ _ _ _ _ _ _ hrun =>
    rw [hrun] at h
    simp only [List.mem_append, List.mem_singleton] at h
    rcases h with h | h
    · rcases spaceBlobAdd.allocated_calls _ _ _ _ _ _ _ _ _ h with h | h | ⟨_, h⟩ <;> cases h
    · cases h
  | invokeFailed _ _ _ _ _ _ _ _ _ _ _ _ _ hrun =>
    obtain ⟨message, hrun⟩ := hrun
    rw [hrun] at h
    simp only [List.mem_append, List.mem_singleton] at h
    rcases h with h | h
    · rcases spaceBlobAdd.allocated_calls _ _ _ _ _ _ _ _ _ h with h | h | ⟨_, h⟩ <;> cases h
    · cases h
  | updated _ _ _ _ _ _ _ _ _ _ _ _ _ _ _ _ _ _ hrun =>
    obtain ⟨outcome, hrun, -, -⟩ := hrun
    rw [hrun] at h
    simp only [List.mem_append, List.mem_singleton] at h
    rcases h with (h | h) | h
    · rcases spaceBlobAdd.allocated_calls _ _ _ _ _ _ _ _ _ h with h | h | ⟨_, h⟩ <;> cases h
    · cases h
    · cases h

/-- C1 at the service with an empty provider table. -/
theorem spaceBlobAdd_no_provider_witness :
    Event.PiriClient (.ok none) ∈
      (spaceBlobAdd demoLib demoServiceNoProvider demoBlobProvider demoClock
        "did:key:zSpace" demoBlob demoAddInv demoSigner NewStore).calls ∧
    (spaceBlobAdd demoLib demoServiceNoProvider demoBlobProvider demoClock
        "did:key:zSpace" demoBlob demoAddInv demoSigner NewStore).outcome
      = .failure "no storage provider available" :=
  have h : Event.PiriClient (.ok none) ∈
      (spaceBlobAdd demoLib demoServiceNoProvider demoBlobProvider demoClock
        "did:key:zSpace" demoBlob demoAddInv demoSigner NewStore).calls := by
    simp [spaceBlobAdd, hexEncode_length, demoBlob, demoLib, demoServiceNoProvider, demoService]
  ⟨h, (spaceBlobAdd_no_provider _ _ _ _ _ _ _ _ _ h).2.2.1⟩

/-- The allocation lookup of `ucan/conclude` is reached, and finds nothing,
whenever the concluded receipt is for an `http/put`, the digest has the 16
hex characters the log line slices and the store has no allocation under
it. -/
theorem ucanConclude_no_allocation_reached {σ : Type} (lib : Lib) (s : Service σ)
    (clock : Nat → Nat) (receiptLink : Link) (inv : Invocation) (st : σ)
    (ranInv : Invocation) (body : Body)
    (hput : ucanConclude.IsPut lib receiptLink inv ranInv body)
    (hlen : 8 ≤ body.digest.length)
    (hget : s.State.GetAllocation st (hexEncode body.digest) = .ok none) :
    Event.GetAllocation (hexEncode body.digest) (.ok none) ∈
      (ucanConclude lib s clock receiptLink inv st).calls := by
  obtain ⟨rcpt, putCap, rest, putMatch, hr, hran, hcaps, hab, hm, rfl⟩ := hput
  have h16 : ¬ (hexEncode putMatch.body.digest).length < 16 := by
    rw [hexEncode_length]
    omega
  simp [ucanConclude, acknowledge, hr, hran, hcaps, hab, hm, h16, hget]

/-- C5. A `ucan/conclude` whose concluded receipt ran an invocation whose
first capability is not `http/put` returns ok and stops: the run makes no call
at all (no allocation read, no storage node, no indexer, no write) and leaves
the store as it was. -/
theorem ucanConclude_other_ability {σ : Type} (lib : Lib) (s : Service σ)
    (clock : Nat → Nat) (receiptLink : Link) (inv : Invocation) (st : σ)
    (rcpt : AnyReceipt) (ranInv : Invocation) (cap : Capability) (rest : List Capability)
    (hread : lib.readReceipt receiptLink inv.blocks = .ok rcpt)
    (hran : rcpt.ran.Invocation = some ranInv)
    (hcaps : ranInv.capabilities = cap :: rest)
    (hability : cap.can ≠ PutAbility) :
    (ucanConclude lib s clock receiptLink inv st).outcome = .ok {} none ∧
    (ucanConclude lib s clock receiptLink inv st).calls = [] ∧
    (ucanConclude lib s clock receiptLink inv st).store = st := by
  simp [ucanConclude, acknowledge, hread, hran, hcaps, hability]

/-- C5 for a concluded receipt that ran a `space/blob/add` invocation. -/
theorem ucanConclude_other_ability_witness :
    (ucanConclude demoLib demoService demoClock { cid := "bafy-add-receipt" }
      demoConcludeInv demoStore).outcome = .ok {} none ∧
    (ucanConclude demoLib demoService demoClock { cid := "bafy-add-receipt" }
      demoConcludeInv demoStore).calls = [] :=
  have h := ucanConclude_other_ability demoLib demoService demoClock
    { cid := "bafy-add-receipt" } demoConcludeInv demoStore
    { root := { cid := "bafy-add-receipt" }
      ran := .invocation demoAddInv
      out := .ok (some (.map [("site", .link { cid := "bafy-location-claim" })]))
      blocks := [] }
    demoAddInv
    { can := "space/blob/add", resource := "did:key:zSpace", nb := .raw .null } []
    (by simp [demoLib, demoConcludeInv]) rfl rfl (by decide)
  ⟨h.1, h.2.1⟩

/-- When, in `ucan/conclude`, the lookup of the allocation by the blob
digest of the concluded `http/put` finds none, the handler returns ok, makes
no `blob/accept` call, no indexer call, stores no receipt and leaves the
store as it was. -/
theorem ucanConclude_no_allocation {σ : Type} (lib : Lib) (s : Service σ)
    (clock : Nat → Nat) (receiptLink : Link) (inv : Invocation) (st : σ) (key : String)
    (h : Event.GetAllocation key (.ok none) ∈
      (ucanConclude lib s clock receiptLink inv st).calls) :
    (∃ ranInv body, ucanConclude.IsPut lib receiptLink inv ranInv body ∧
      key = hexEncode body.digest ∧ s.State.GetAllocation st key = .ok none) ∧
    (ucanConclude lib s clock receiptLink inv st).outcome = .ok {} none ∧
    (∀ node req err, Event.Accept node req err ∉
      (ucanConclude lib s clock receiptLink inv st).calls) ∧
    (∀ claim addrs err, Event.CacheLocationClaim claim addrs err ∉
      (ucanConclude lib s clock receiptLink inv st).calls) ∧
    (∀ k rcpt err, Event.PutReceipt k rcpt err ∉
      (ucanConclude lib s clock receiptLink inv st).calls) ∧
    (ucanConclude lib s clock receiptLink inv st).store = st := by
  cases ucanConclude_exit lib s clock receiptLink inv st with
  | notPut hrun => simp [hrun, acknowledge] at h
  | slice _ _ _ _ hrun => simp [hrun] at h
  | lookupFailed _ _ _ _ _ _ hrun => simp [hrun, acknowledge] at h
  | noAllocation ranInv body hput _ hget hrun =>
    rw [hrun] at h ⊢
    simp only [acknowledge, List.mem_singleton, Event.GetAllocation.injEq, and_true] at h
    subst h
    exact ⟨⟨ranInv, body, hput, rfl, hget⟩, by simp [acknowledge]⟩
  | clientError _ _ _ _ _ _ _ _ hrun => simp [hrun, acknowledge] at h
  | noProvider _ _ _ _ _ _ _ hrun => simp [hrun, acknowledge] at h
  | acceptFailed _ _ _ _ _ _ _ _ _ _ hrun => simp [hrun, acknowledge] at h
  | issueFailed _ _ _ _ _ _ _ _ _ _ _ _ _ hrun =>
    rw [hrun] at h
    rcases ucanConclude.accepted_calls _ _ _ _ _ _ _ _ _ _ h with h | h | h | ⟨_, _, _, h⟩ <;>
      cases h
  | nilLink _ _ _ _ _ _ _ _ _ _ _ _ _ _ hrun =>
    rw [hrun] at h
    rcases ucanConclude.accepted_calls _ _ _ _ _ _ _ _ _ _ h with h | h | h | ⟨_, _, _, h⟩ <;>
      cases h
  | stored _ _ _ _ _ _ _ _ _ _ _ _ _ _ _ _ _ _ hrun =>
    rw [hrun] at h
    simp only [acknowledge, List.mem_append, List.mem_singleton] at h
    rcases h with h | h
    · rcases ucanConclude.accepted_calls _ _ _ _ _ _ _ _ _ _ h with h | h | h | ⟨_, _, _, h⟩ <;>
        cases h
    · cases h

/-- An `http/put` receipt concluded on the empty store: the lookup finds no
allocation and the handler returns ok. -/
theorem ucanConclude_no_allocation_witness :
    Event.GetAllocation (hexEncode demoBlob.digest) (.ok none) ∈
      (ucanConclude demoLib demoService demoClock { cid := "bafy-put-receipt" }
        demoConcludeInv NewStore).calls ∧
    (ucanConclude demoLib demoService demoClock { cid := "bafy-put-receipt" }
        demoConcludeInv NewStore).outcome = .ok {} none :=
  have h : Event.GetAllocation (hexEncode demoBlob.digest) (.ok none) ∈
      (ucanConclude demoLib demoService demoClock { cid := "bafy-put-receipt" }
        demoConcludeInv NewStore).calls := by
    simp [ucanConclude, acknowledge, hexEncode_length, demoBlob, demoLib, demoService,
      demoPutInv, demoConcludeInv, Ran.Invocation, PutAbility, Store.asStateStore,
      Store.GetAllocation, NewStore]
  ⟨h, (ucanConclude_no_allocation _ _ _ _ _ _ _ h).2.1⟩

/-- C7. When, in `ucan/conclude`, the call `piriClient.Accept` returns an
error, the handler still returns ok, stores no receipt, calls no indexer and
leaves the store as it was. -/
theorem ucanConclude_accept_failed {σ : Type} (lib : Lib) (s : Service σ)
    (clock : Nat → Nat) (receiptLink : Link) (inv : Invocation) (st : σ)
    (node : DID) (req : AcceptRequest) (e : String)
    (h : Event.Accept node req (some e) ∈
      (ucanConclude lib s clock receiptLink inv st).calls) :
    (∃ piriClient, s.PiriClient = .ok (some piriClient) ∧ node = piriClient.PiriDID ∧
      piriClient.Accept lib (clock 0) req = .error e) ∧
    (ucanConclude lib s clock receiptLink inv st).outcome = .ok {} none ∧
    (∀ k rcpt err, Event.PutReceipt k rcpt err ∉
      (ucanConclude lib s clock receiptLink inv st).calls) ∧
    (∀ claim addrs err, Event.CacheLocationClaim claim addrs err ∉
      (ucanConclude lib s clock receiptLink inv st).calls) ∧
    (ucanConclude lib s clock receiptLink inv st).store = st := by
  cases ucanConclude_exit lib s clock receiptLink inv st with
  | notPut hrun => simp [hrun, acknowledge] at h
  | slice _ _ _ _ hrun => simp [hrun] at h
  | lookupFailed _ _ _ _ _ _ hrun => simp [hrun, acknowledge] at h
  | noAllocation _ _ _ _ _ hrun => simp [hrun, acknowledge] at h
  | clientError _ _ _ _ _ _ _ _ hrun => simp [hrun, acknowledge] at h
  | noProvider _ _ _ _ _ _ _ hrun => simp [hrun, acknowledge] at h
  | acceptFailed ranInv body alloc piriClient e2 _ _ _ hclient haccept hrun =>
    rw [hrun] at h ⊢
    simp only [acknowledge, List.mem_cons, List.mem_singleton, List.not_mem_nil, or_false,
      Event.Accept.injEq, Option.some.injEq, false_or] at h
    rcases h with h | h | h
    · cases h
    · cases h
    obtain ⟨h1, rfl, rfl⟩ := h
    exact ⟨⟨piriClient, hclient, h1, haccept⟩, by simp [acknowledge]⟩
  | issueFailed _ _ _ _ _ _ _ _ _ _ _ _ _ hrun =>
    rw [hrun] at h
    rcases ucanConclude.accepted_calls _ _ _ _ _ _ _ _ _ _ h with h | h | h | ⟨_, _, _, h⟩ <;>
      cases h
  | nilLink _ _ _ _ _ _ _ _ _ _ _ _ _ _ hrun =>
    rw [hrun] at h
    rcases ucanConclude.accepted_calls _ _ _ _ _ _ _ _ _ _ h with h | h | h | ⟨_, _, _, h⟩ <;>
      cases h
  | stored _ _ _ _ _ _ _ _ _ _ _ _ _ _ _ _ _ _ hrun =>
    rw [hrun] at h
    simp only [acknowledge, List.mem_append, List.mem_singleton] at h
    rcases h with h | h
    · rcases ucanConclude.accepted_calls _ _ _ _ _ _ _ _ _ _ h with h | h | h | ⟨_, _, _, h⟩ <;>
        cases h
    · cases h

/-- C7 for a storage node whose transport is down. -/
theorem ucanConclude_accept_failed_witness :
    (∃ req e, Event.Accept demoDownClient.PiriDID req (some e) ∈
      (ucanConclude demoLib demoServiceDown demoClock { cid := "bafy-put-receipt" }
        demoConcludeInv demoStore).calls) ∧
    (ucanConclude demoLib demoServiceDown demoClock { cid := "bafy-put-receipt" }
        demoConcludeInv demoStore).outcome = .ok {} none := by
  have h : Event.Accept demoDownClient.PiriDID
      (ucanConclude.req demoLib demoAllocation demoPutInv_body demoPutInv)
      (some "executing accept invocation: connection refused") ∈
      (ucanConclude demoLib demoServiceDown demoClock { cid := "bafy-put-receipt" }
        demoConcludeInv demoStore).calls := by
    simp [ucanConclude, ucanConclude.req, acknowledge, hexEncode_length, demoBlob, demoLib,
      demoServiceDown, demoService, demoDownClient, demoClient, demoPutInv, demoPutInv_body,
      demoConcludeInv, demoStore, demoAllocation, Ran.Invocation, PutAbility, Client.Accept,
      Client.fetchDelegationOpts, Client.PiriDID, Invoke, collectFacts, optFacts, optProofs,
      hasNoExpiration, Store.asStateStore, Store.PutAllocation, Store.GetAllocation, NewStore]
  exact ⟨⟨_, _, h⟩, (ucanConclude_accept_failed _ _ _ _ _ _ _ _ _ h).2.1⟩

/-- C8, as stated, fails: over a store whose `GetAllocation` returns an
error, `ucan/conclude` makes that call, gets the error and returns ok, not a
failure result. -/
theorem state_store_failure_acknowledged :
    Event.GetAllocation (hexEncode demoBlob.digest) (.error "i/o error") ∈
      (ucanConclude demoLib demoServiceFailingStore demoClock { cid := "bafy-put-receipt" }
        demoConcludeInv ()).calls ∧
    (ucanConclude demoLib demoServiceFailingStore demoClock { cid := "bafy-put-receipt" }
        demoConcludeInv ()).outcome = .ok {} none ∧
    ∀ message,
      (ucanConclude demoLib demoServiceFailingStore demoClock { cid := "bafy-put-receipt" }
        demoConcludeInv ()).outcome ≠ .failure message := by
  simp [ucanConclude, acknowledge, hexEncode_length, demoBlob, demoLib,
    demoServiceFailingStore, failingStore, demoPutInv, demoConcludeInv, Ran.Invocation,
    PutAbility]

/-- C8, amended. Of the state-store errors, those of `PutAllocation` surface
as a failure result of `space/blob/add` ("storing allocation" for the first
call, "updating allocation" for the second). An error of `GetFirstProvider`
does not: the run goes on to store the allocation, with no upload URL. In
`ucan/conclude` an error of `GetAllocation` or of `PutReceipt` is
acknowledged with ok. -/
theorem state_store_failures {σ : Type} (lib : Lib) (s : Service σ)
    (blobProvider : Signer) (clock : Nat → Nat) (capWith : String) (blobInfo : Blob)
    (inv : Invocation) (iCtxID : Signer) (receiptLink : Link) (st : σ) :
    (∀ key alloc e, Event.PutAllocation key alloc (some e) ∈
        (spaceBlobAdd lib s blobProvider clock capWith blobInfo inv iCtxID st).calls →
      (spaceBlobAdd lib s blobProvider clock capWith blobInfo inv iCtxID st).outcome
          = .failure ("storing allocation: " ++ e) ∨
      (spaceBlobAdd lib s blobProvider clock capWith blobInfo inv iCtxID st).outcome
          = .failure ("updating allocation: " ++ e)) ∧
    (∀ e, Event.GetFirstProvider (.error e) ∈
        (spaceBlobAdd lib s blobProvider clock capWith blobInfo inv iCtxID st).calls →
      ∃ alloc err, alloc.UploadURL = none ∧
        Event.PutAllocation (hexEncode blobInfo.digest) alloc err ∈
          (spaceBlobAdd lib s blobProvider clock capWith blobInfo inv iCtxID st).calls) ∧
    (∀ key e, Event.GetAllocation key (.error e) ∈
        (ucanConclude lib s clock receiptLink inv st).calls →
      (ucanConclude lib s clock receiptLink inv st).outcome = .ok {} none) ∧
    (∀ key rcpt e, Event.PutReceipt key rcpt (some e) ∈
        (ucanConclude lib s clock receiptLink inv st).calls →
      (ucanConclude lib s clock receiptLink inv st).outcome = .ok {} none) := by
  refine ⟨?_, ?_, ?_, ?_⟩
  · intro key alloc e h
    cases spaceBlobAdd_exit lib s blobProvider clock capWith blobInfo inv iCtxID st with
    | slice _ hrun => simp [hrun] at h
    | invalidDID _ _ _ hrun => simp [hrun] at h
    | clientError _ _ _ _ _ hrun => simp [hrun] at h
    | noProvider _ _ _ _ hrun => simp [hrun] at h
    | allocateFailed _ _ _ _ _ _ _ hrun => simp [hrun] at h
    | storeFailed _ _ _ _ _ e2 _ _ _ _ _ _ hrun =>
      rw [hrun] at h ⊢
      simp only [List.mem_append, List.mem_singleton] at h
      rcases h with h | h
      · rcases spaceBlobAdd.allocated_calls _ _ _ _ _ _ _ _ _ h with h | h | ⟨_, h⟩ <;> cases h
      · simp only [Event.PutAllocation.injEq, Option.some.injEq] at h
        obtain ⟨-, -, rfl⟩ := h
        exact .inl rfl
    | invokeFailed _ _ _ _ _ _ _ _ _ _ _ _ _ hrun =>
      obtain ⟨message, hrun⟩ := hrun
      rw [hrun] at h
      simp only [List.mem_append, List.mem_singleton] at h
      rcases h with h | h
      · rcases spaceBlobAdd.allocated_calls _ _ _ _ _ _ _ _ _ h with h | h | ⟨_, h⟩ <;> cases h
      · cases h
    | updated _ _ _ _ _ _ _ _ err _ _ _ _ _ _ _ _ _ hrun =>
      obtain ⟨outcome, hrun, hfail, -⟩ := hrun
      rw [hrun] at h ⊢
      simp only [List.mem_append, List.mem_singleton] at h
      rcases h with (h | h) | h
      · rcases spaceBlobAdd.allocated_calls _ _ _ _ _ _ _ _ _ h with h | h | ⟨_, h⟩ <;> cases h
      · cases h
      · simp only [Event.PutAllocation.injEq] at h
        obtain ⟨-, -, rfl⟩ := h
        exact .inr (hfail e rfl)
  · intro e h
    have hurl : ∀ spaceDID piriClient allocResp,
        Event.GetFirstProvider (.error e) ∈
          spaceBlobAdd.allocated lib s blobInfo inv st spaceDID piriClient allocResp →
        (spaceBlobAdd.record lib s clock blobInfo inv st spaceDID piriClient
          allocResp).UploadURL = none := by
      intro spaceDID piriClient allocResp hmem
      simp only [spaceBlobAdd.allocated, List.mem_append, List.mem_cons, List.mem_singleton,
        List.not_mem_nil, or_false] at hmem
      rcases hmem with (hmem | hmem) | hmem
      · cases hmem
      · cases hmem
      · simp only [spaceBlobAdd.record, spaceBlobAdd.alloc]
        unfold spaceBlobAdd.uploadURL at hmem ⊢
        repeat' split at hmem
        all_goals simp_all
    cases spaceBlobAdd_exit lib s blobProvider clock capWith blobInfo inv iCtxID st with
    | slice _ hrun => simp [hrun] at h
    | invalidDID _ _ _ hrun => simp [hrun] at h
    | clientError _ _ _ _ _ hrun => simp [hrun] at h
    | noProvider _ _ _ _ hrun => simp [hrun] at h
    | allocateFailed _ _ _ _ _ _ _ hrun => simp [hrun] at h
    | storeFailed spaceDID piriClient allocResp _ _ e2 _ _ _ _ _ _ hrun =>
      rw [hrun] at h ⊢
      simp only [List.mem_append, List.mem_singleton] at h
      rcases h with h | h
      · exact ⟨_, some e2, hurl _ _ _ h, by simp⟩
      · cases h
    | invokeFailed spaceDID piriClient allocResp _ _ _ _ _ _ _ _ _ _ hrun =>
      obtain ⟨message, hrun⟩ := hrun
      rw [hrun] at h ⊢
      simp only [List.mem_append, List.mem_singleton] at h
      rcases h with h | h
      · exact ⟨_, none, hurl _ _ _ h, by simp⟩
      · cases h
    | updated spaceDID piriClient allocResp _ _ _ _ _ err _ _ _ _ _ _ _ _ _ hrun =>
      obtain ⟨outcome, hrun, -, -⟩ := hrun
      rw [hrun] at h ⊢
      simp only [List.mem_append, List.mem_singleton] at h
      rcases h with (h | h) | h
      · exact ⟨_, none, hurl _ _ _ h, by simp⟩
      · cases h
      · cases h
  · intro key e h
    cases ucanConclude_exit lib s clock receiptLink inv st with
    | notPut hrun => simp [hrun, acknowledge]
    | slice _ _ _ _ hrun => simp [hrun] at h
    | lookupFailed _ _ _ _ _ _ hrun => simp [hrun, acknowledge]
    | noAllocation _ _ _ _ _ hrun => simp [hrun, acknowledge]
    | clientError _ _ _ _ _ _ _ _ hrun => simp [hrun, acknowledge]
    | noProvider _ _ _ _ _ _ _ hrun => simp [hrun, acknowledge]
    | acceptFailed _ _ _ _ _ _ _ _ _ _ hrun => simp [hrun, acknowledge]
    | issueFailed _ _ _ _ _ _ _ _ _ _ _ _ _ hrun => simp [hrun, acknowledge]
    | nilLink _ _ _ _ _ _ _ _ _ _ _ _ _ _ hrun =>
      rw [hrun] at h
      rcases ucanConclude.accepted_calls _ _ _ _ _ _ _ _ _ _ h with h | h | h | ⟨_, _, _, h⟩ <;>
        cases h
    | stored _ _ _ _ _ _ _ _ _ _ _ _ _ _ _ _ _ _ hrun => simp [hrun, acknowledge]
  · intro key rcpt e h
    cases ucanConclude_exit lib s clock receiptLink inv st with
    | notPut hrun => simp [hrun, acknowledge]
    | slice _ _ _ _ hrun => simp [hrun] at h
    | lookupFailed _ _ _ _ _ _ hrun => simp [hrun, acknowledge]
    | noAllocation _ _ _ _ _ hrun => simp [hrun, acknowledge]
    | clientError _ _ _ _ _ _ _ _ hrun => simp [hrun, acknowledge]
    | noProvider _ _ _ _ _ _ _ hrun => simp [hrun, acknowledge]
    | acceptFailed _ _ _ _ _ _ _ _ _ _ hrun => simp [hrun, acknowledge]
    | issueFailed _ _ _ _ _ _ _ _ _ _ _ _ _ hrun => simp [hrun, acknowledge]
    | nilLink _ _ _ _ _ _ _ _ _ _ _ _ _ _ hrun =>
      rw [hrun] at h
      rcases ucanConclude.accepted_calls _ _ _ _ _ _ _ _ _ _ h with h | h | h | ⟨_, _, _, h⟩ <;>
        cases h
    | stored _ _ _ _ _ _ _ _ _ _ _ _ _ _ _ _ _ _ hrun => simp [hrun, acknowledge]

/-- C8, amended, over the store whose every operation fails: the failed
`PutAllocation` fails `space/blob/add`, the failed `GetAllocation` is
acknowledged by `ucan/conclude`. -/
theorem state_store_failures_witness :
    ((spaceBlobAdd demoLib demoServiceFailingStore demoBlobProvider demoClock "did:key:zSpace"
        demoBlob demoAddInv demoSigner ()).outcome = .failure ("storing allocation: " ++ "i/o error") ∨
      (spaceBlobAdd demoLib demoServiceFailingStore demoBlobProvider demoClock "did:key:zSpace"
        demoBlob demoAddInv demoSigner ()).outcome
        = .failure ("updating allocation: " ++ "i/o error")) ∧
    (ucanConclude demoLib demoServiceFailingStore demoClock { cid := "bafy-put-receipt" }
        demoAddInv ()).outcome = .ok {} none := by
  have hall := state_store_failures demoLib demoServiceFailingStore demoBlobProvider demoClock
    "did:key:zSpace" demoBlob demoAddInv demoSigner { cid := "bafy-put-receipt" } ()
  have h1 : ∃ alloc, Event.PutAllocation (hexEncode demoBlob.digest) alloc (some "i/o error") ∈
      (spaceBlobAdd demoLib demoServiceFailingStore demoBlobProvider demoClock "did:key:zSpace"
        demoBlob demoAddInv demoSigner ()).calls := by
    simp [spaceBlobAdd, spaceBlobAdd.req, spaceBlobAdd.alloc, spaceBlobAdd.uploadURL,
      hexEncode_length, demoBlob, demoLib, demoServiceFailingStore, failingStore, demoClient,
      Client.Allocate, Client.fetchDelegationOpts, Invoke, collectFacts, optFacts, optProofs,
      hasNoExpiration, Response.Get, Out.Unwrap]
  have h3 : Event.GetAllocation (hexEncode demoBlob.digest) (.error "i/o error") ∈
      (ucanConclude demoLib demoServiceFailingStore demoClock { cid := "bafy-put-receipt" }
        demoAddInv ()).calls := by
    simp [ucanConclude, acknowledge, hexEncode_length, demoBlob, demoLib,
      demoServiceFailingStore, failingStore, demoPutInv, demoAddInv, Ran.Invocation,
      PutAbility]
  obtain ⟨alloc, h1⟩ := h1
  exact ⟨hall.1 _ _ _ h1, hall.2.2.1 _ _ h3⟩

/-- C9. When, in `space/blob/add`, the call `piriClient.Allocate` returns an
error, the handler returns the failure "piri allocate failed: " followed by
that error's message, makes no `PutAllocation` call and leaves the store as
it was. A node receipt whose `out` is an error is such a case: `Allocate`
then returns "allocate failed: " followed by the error node's details. -/
theorem spaceBlobAdd_allocate_failed {σ : Type} (lib : Lib) (s : Service σ)
    (blobProvider : Signer) (clock : Nat → Nat) (capWith : String) (blobInfo : Blob)
    (inv : Invocation) (iCtxID : Signer) (st : σ)
    (node : DID) (req : AllocateRequest) (e : String)
    (h : Event.Allocate node req (some e) ∈
      (spaceBlobAdd lib s blobProvider clock capWith blobInfo inv iCtxID st).calls) :
    (∃ piriClient, s.PiriClient = .ok (some piriClient) ∧ node = piriClient.PiriDID ∧
      piriClient.Allocate lib (clock 0) req = .error e) ∧
    (spaceBlobAdd lib s blobProvider clock capWith blobInfo inv iCtxID st).outcome
      = .failure ("piri allocate failed: " ++ e) ∧
    (∀ key alloc err, Event.PutAllocation key alloc err ∉
      (spaceBlobAdd lib s blobProvider clock capWith blobInfo inv iCtxID st).calls) ∧
    (spaceBlobAdd lib s blobProvider clock capWith blobInfo inv iCtxID st).store = st ∧
    (∀ (c : Client) (now : Nat) (r : AllocateRequest) (opts : List DelegationOption)
        (allocateInv : Invocation) (resp : Response) (rcptLink : Link) (rcpt : AnyReceipt)
        (errNode : Node),
      c.fetchDelegationOpts = .ok opts →
      Invoke lib now c.signer c.piriDID AllocateAbility c.piriDID.String
        (.allocate r.Space { digest := r.Digest, size := r.Size } r.Cause) opts
        = .ok allocateInv →
      c.connection [allocateInv] = .ok resp →
      resp.Get (lib.link allocateInv) = some rcptLink →
      lib.readReceipt rcptLink resp.blocks = .ok rcpt →
      rcpt.out = .error (some errNode) →
      c.Allocate lib now r = .error ("allocate failed: " ++ errDetails errNode)) := by
  refine ⟨?_, ?_⟩
  swap
  · cases spaceBlobAdd_exit lib s blobProvider clock capWith blobInfo inv iCtxID st with
    | slice _ hrun => simp [hrun] at h
    | invalidDID _ _ _ hrun => simp [hrun] at h
    | clientError _ _ _ _ _ hrun => simp [hrun] at h
    | noProvider _ _ _ _ hrun => simp [hrun] at h
    | allocateFailed _ _ e2 _ _ _ _ hrun =>
      rw [hrun] at h ⊢
      simp only [List.mem_cons, List.mem_singleton, List.not_mem_nil, or_false,
        Event.Allocate.injEq, Option.some.injEq] at h
      rcases h with h | h
      · cases h
      obtain ⟨-, -, rfl⟩ := h
      refine ⟨rfl, by simp, rfl, ?_⟩
      intro c now r opts allocateInv resp rcptLink rcpt errNode h1 h2 h3 h4 h5 h6
      simp [Client.Allocate, h1, h2, h3, h4, h5, h6, Out.Unwrap]
    | storeFailed _ _ _ _ _ _ _ _ _ _ _ _ hrun =>
      rw [hrun] at h
      simp only [List.mem_append, List.mem_singleton] at h
      rcases h with h | h
      · rcases spaceBlobAdd.allocated_calls _ _ _ _ _ _ _ _ _ h with h | h | ⟨_, h⟩ <;> cases h
      · cases h
    | invokeFailed _ _ _ _ _ _ _ _ _ _ _ _ _ hrun =>
      obtain ⟨message, hrun⟩ := hrun
      rw [hrun] at h
      simp only [List.mem_append, List.mem_singleton] at h
      rcases h with h | h
      · rcases spaceBlobAdd.allocated_calls _ _ _ _ _ _ _ _ _ h with h | h | ⟨_, h⟩ <;> cases h
      · cases h
    | updated _ _ _ _ _ _ _ _ _ _ _ _ _ _ _ _ _ _ hrun =>
      obtain ⟨outcome, hrun, -, -⟩ := hrun
      rw [hrun] at h
      simp only [List.mem_append, List.mem_singleton] at h
      rcases h with (h | h) | h
      · rcases spaceBlobAdd.allocated_calls _ _ _ _ _ _ _ _ _ h with h | h | ⟨_, h⟩ <;> cases h
      · cases h
      · cases h
  · cases spaceBlobAdd_exit lib s blobProvider clock capWith blobInfo inv iCtxID st with
    | slice _ hrun => simp [hrun] at h
    | invalidDID _ _ _ hrun => simp [hrun] at h
    | clientError _ _ _ _ _ hrun => simp [hrun] at h
    | noProvider _ _ _ _ hrun => simp [hrun] at h
    | allocateFailed _ piriClient e2 _ _ hclient hallocate hrun =>
      rw [hrun] at h
      simp only [List.mem_cons, List.mem_singleton, List.not_mem_nil, or_false,
        Event.Allocate.injEq, Option.some.injEq] at h
      rcases h with h | h
      · cases h
      obtain ⟨h1, rfl, rfl⟩ := h
      exact ⟨piriClient, hclient, h1, hallocate⟩
    | storeFailed _ _ _ _ _ _ _ _ _ _ _ _ hrun =>
      rw [hrun] at h
      simp only [List.mem_append, List.mem_singleton] at h
      rcases h with h | h
      · rcases spaceBlobAdd.allocated_calls _ _ _ _ _ _ _ _ _ h with h | h | ⟨_, h⟩ <;> cases h
      · cases h
    | invokeFailed _ _ _ _ _ _ _ _ _ _ _ _ _ hrun =>
      obtain ⟨message, hrun⟩ := hrun
      rw [hrun] at h
      simp only [List.mem_append, List.mem_singleton] at h
      rcases h with h | h
      · rcases spaceBlobAdd.allocated_calls _ _ _ _ _ _ _ _ _ h with h | h | ⟨_, h⟩ <;> cases h
      · cases h
    | updated _ _ _ _ _ _ _ _ _ _ _ _ _ _ _ _ _ _ hrun =>
      obtain ⟨outcome, hrun, -, -⟩ := hrun
      rw [hrun] at h
      simp only [List.mem_append, List.mem_singleton] at h
      rcases h with (h | h) | h
      · rcases spaceBlobAdd.allocated_calls _ _ _ _ _ _ _ _ _ h with h | h | ⟨_, h⟩ <;> cases h
      · cases h
      · cases h

/-- C9 for a storage node whose transport is down. -/
theorem spaceBlobAdd_allocate_failed_witness :
    (spaceBlobAdd demoLib demoServiceDown demoBlobProvider demoClock "did:key:zSpace" demoBlob
      demoAddInv demoSigner NewStore).outcome
      = .failure ("piri allocate failed: "
          ++ "executing allocate invocation: connection refused") ∧
    (spaceBlobAdd demoLib demoServiceDown demoBlobProvider demoClock "did:key:zSpace" demoBlob
      demoAddInv demoSigner NewStore).store = NewStore := by
  have h : Event.Allocate demoDownClient.PiriDID
      (spaceBlobAdd.req demoLib { str := "did:key:zSpace" } demoBlob demoAddInv)
      (some "executing allocate invocation: connection refused") ∈
      (spaceBlobAdd demoLib demoServiceDown demoBlobProvider demoClock "did:key:zSpace"
        demoBlob demoAddInv demoSigner NewStore).calls := by
    simp [spaceBlobAdd, spaceBlobAdd.req, hexEncode_length, demoBlob, demoLib, demoServiceDown,
      demoService, demoDownClient, demoClient, Client.Allocate, Client.fetchDelegationOpts,
      Client.PiriDID, Invoke, collectFacts, optFacts, optProofs, hasNoExpiration]
  have hall := spaceBlobAdd_allocate_failed _ _ _ _ _ _ _ _ _ _ _ _ h
  exact ⟨hall.2.1, hall.2.2.2.1⟩

/-- C13, as stated, fails: the fact of the blob provider `did:key:zBlobProvider`
has no `id` entry, and its `keys` entry is not the one-entry map from the DID
to the key bytes. -/
theorem httpPutFact_not_id_keys :
    ∃ fact,
      httpPutFact.ToIPLD { id := "did:key:zBlobProvider", key := [9, 9] } = .ok fact ∧
      fact.lookup "id" = none ∧
      fact.lookup "keys" ≠ some (.map [("did:key:zBlobProvider", .bytes [9, 9])]) := by
  refine ⟨_, rfl, ?_, ?_⟩
  · simp
  · simp

/-- C13, amended. For every id string and key byte string the fact of
`httpPutFact.ToIPLD` is a map with the single entry `keys`, holding the map
with an `id` entry (the identity's DID string) and a `keys` entry (the
one-entry map from that DID string to the private key bytes); and that is the
one fact of the `http/put` invocation `space/blob/add` builds, for the DID
and the key of the blob provider. -/
theorem httpPutFact_ToIPLD (id : String) (key : List Nat) :
    httpPutFact.ToIPLD { id := id, key := key }
      = .ok [("keys", .map [("id", .string id), ("keys", .map [(id, .bytes key)])])] ∧
    ∀ (lib : Lib) (now : Nat) (blobProvider : Signer) (blobInfo : Blob)
      (allocateRcpt : AnyReceipt) (httpPutInv : Invocation),
      spaceBlobAdd.httpPutInv lib now blobProvider blobInfo allocateRcpt = .ok httpPutInv →
      httpPutInv.facts =
        [[("keys", .map [("id", .string blobProvider.did.String),
            ("keys", .map [(blobProvider.did.String, .bytes blobProvider.key)])])]] := by
  refine ⟨rfl, ?_⟩
  intro lib now blobProvider blobInfo allocateRcpt httpPutInv h
  have h' : Invoke _ _ _ _ _ _ _ _ = .ok httpPutInv := h
  have hf := (Invoke_ok _ _ _ _ _ _ _ _ _ h').2.2.2.2.2
  simp only [optFacts, httpPutFact.ToIPLD, collectFacts, Except.ok.injEq] at hf
  exact hf.symm

/-- C13, amended, for the `http/put` invocation of the small deployment. -/
theorem httpPutFact_ToIPLD_witness :
    ∃ httpPutInv,
      spaceBlobAdd.httpPutInv demoLib 1002 demoBlobProvider demoBlob
        { root := { cid := "bafy-receipt" }, ran := .link none, out := .ok none, blocks := [] }
        = .ok httpPutInv ∧
      httpPutInv.facts =
        [[("keys", .map [("id", .string "did:key:zBlobProvider"),
            ("keys", .map [("did:key:zBlobProvider", .bytes [9, 9])])])]] := by
  have h : ∃ httpPutInv,
      spaceBlobAdd.httpPutInv demoLib 1002 demoBlobProvider demoBlob
        { root := { cid := "bafy-receipt" }, ran := .link none, out := .ok none, blocks := [] }
        = .ok httpPutInv := by
    simp [spaceBlobAdd.httpPutInv, Invoke, collectFacts, optFacts, httpPutFact.ToIPLD, demoLib]
  obtain ⟨httpPutInv, h⟩ := h
  exact ⟨httpPutInv, h,
    (httpPutFact_ToIPLD "did:key:zBlobProvider" [9, 9]).2 _ _ _ _ _ _ h⟩

/-- The expected allocation after one more, later operation. -/
theorem expectedAllocation_append (before : Option Allocation) (k : String)
    (later : List AllocationOp) (op : AllocationOp) :
    expectedAllocation before k (later ++ [op])
      = expectedAllocation (expectedAllocation before k [op]) k later := by
  induction later with
  | nil => simp [expectedAllocation]
  | cons x rest ih =>
    cases x with
    | put key alloc =>
      by_cases hk : key = k
      · simp [expectedAllocation, hk]
      · simp only [List.cons_append, expectedAllocation, hk, if_false]
        exact ih
    | delete key =>
      by_cases hk : key = k
      · simp [expectedAllocation, hk]
      · simp only [List.cons_append, expectedAllocation, hk, if_false]
        exact ih

/-- The allocation under `k` after one operation is the expected one. -/
theorem Store.applyOp_allocations (st : Store) (op : AllocationOp) (k : String) :
    (st.applyOp op).allocations k = expectedAllocation (st.allocations k) k [op] := by
  cases op with
  | put key alloc =>
    by_cases hk : key = k
    · simp [Store.applyOp, Store.PutAllocation, expectedAllocation, hk]
    · have hk' : ¬ k = key := fun h => hk h.symm
      simp [Store.applyOp, Store.PutAllocation, expectedAllocation, hk, hk']
  | delete key =>
    by_cases hk : key = k
    · simp [Store.applyOp, Store.DeleteAllocation, expectedAllocation, hk]
    · have hk' : ¬ k = key := fun h => hk h.symm
      simp [Store.applyOp, Store.DeleteAllocation, expectedAllocation, hk, hk']

/-- The allocation under `k` after a sequence of operations is the expected
one. -/
theorem Store.applyOps_allocations (ops : List AllocationOp) (st : Store) (k : String) :
    (st.applyOps ops).allocations k
      = expectedAllocation (st.allocations k) k ops.reverse := by
  induction ops generalizing st with
  | nil => simp [Store.applyOps, expectedAllocation]
  | cons op rest ih =>
    have h := ih (st.applyOp op)
    simp only [Store.applyOps, List.foldl_cons] at h ⊢
    rw [h, List.reverse_cons, expectedAllocation_append, Store.applyOp_allocations]

/-- Operations on allocations leave the receipts as they are. -/
theorem Store.applyOps_receipts (ops : List AllocationOp) (st : Store) :
    (st.applyOps ops).receipts = st.receipts := by
  induction ops generalizing st with
  | nil => simp [Store.applyOps]
  | cons op rest ih =>
    have h := ih (st.applyOp op)
    simp only [Store.applyOps, List.foldl_cons] at h ⊢
    rw [h]
    cases op <;> simp [Store.applyOp, Store.PutAllocation, Store.DeleteAllocation]

/-- C18. The in-memory store reads its own writes, the last write winning,
key by key: after any sequence of `PutAllocation` and `DeleteAllocation`
calls, `GetAllocation(k)` returns the value of the last `PutAllocation(k, ·)`
not followed by a `DeleteAllocation(k)`, what the store held before when no
call touched `k`, and `(nil, nil)` otherwise (on a new store: whenever there
is no such put). A call on another key does not change what `GetAllocation(k)`
returns, and no such call changes what `GetReceipt` returns for any key. -/
theorem Store.last_write_wins (st : Store) (ops : List AllocationOp) (k : String) :
    (st.applyOps ops).GetAllocation k
      = .ok (expectedAllocation (st.allocations k) k ops.reverse) ∧
    (NewStore.applyOps ops).GetAllocation k = .ok (expectedAllocation none k ops.reverse) ∧
    (∀ alloc, (st.PutAllocation k alloc).2.GetAllocation k = .ok (some alloc)) ∧
    (st.DeleteAllocation k).2.GetAllocation k = .ok none ∧
    (∀ op : AllocationOp, op.key ≠ k →
      (st.applyOp op).GetAllocation k = st.GetAllocation k) ∧
    (∀ key, (st.applyOps ops).GetReceipt key = st.GetReceipt key) := by
  refine ⟨?_, ?_, ?_, ?_, ?_, ?_⟩
  · simp [Store.GetAllocation, Store.applyOps_allocations]
  · simp [Store.GetAllocation, Store.applyOps_allocations, NewStore]
  · intro alloc
    simp [Store.GetAllocation, Store.PutAllocation]
  · simp [Store.GetAllocation, Store.DeleteAllocation]
  · intro op hop
    have hk : ¬ k = op.key := fun h => hop h.symm
    cases op with
    | put key alloc =>
      simp only [AllocationOp.key] at hk
      simp [Store.GetAllocation, Store.applyOp, Store.PutAllocation, hk]
    | delete key =>
      simp only [AllocationOp.key] at hk
      simp [Store.GetAllocation, Store.applyOp, Store.DeleteAllocation, hk]
  · intro key
    simp [Store.GetReceipt, Store.applyOps_receipts]

/-- C18 on the store of the small deployment: a put and a delete under
another key leave the allocation of `demoBlob` readable. -/
theorem Store.last_write_wins_witness :
    (demoStore.applyOp (.delete "00")).GetAllocation (hexEncode demoBlob.digest)
      = .ok (some demoAllocation) := by
  have h := (Store.last_write_wins demoStore [] (hexEncode demoBlob.digest)).2.2.2.2.1
    (.delete "00") (by simp [AllocationOp.key, hexEncode, demoBlob, hexDigit])
  rw [h]
  simp [demoStore, Store.GetAllocation, Store.PutAllocation]

/-- C19. The handler of `space/index/add` returns ok with the empty payload
and no effects for every invocation and every answer of the indexer, and
leaves the store as it was. Without an indexer client it makes no call; with
one, its only call is `PublishIndexClaim`, whatever error that returns and
whether or not a retrieval delegation could be read from the facts. -/
theorem spaceIndexAdd_ok {σ : Type} (lib : Lib) (s : Service σ) (clock : Nat → Nat)
    (capWith : String) (index content : Link) (inv : Invocation) (st : σ) :
    (spaceIndexAdd lib s clock capWith index content inv st).outcome = .ok {} none ∧
    (spaceIndexAdd lib s clock capWith index content inv st).store = st ∧
    (s.IndexerClient = none →
      (spaceIndexAdd lib s clock capWith index content inv st).calls = []) ∧
    (∀ indexerClient, s.IndexerClient = some indexerClient →
      ∃ retrievalAuth err,
        (spaceIndexAdd lib s clock capWith index content inv st).calls
          = [.PublishIndexClaim capWith content index retrievalAuth err] ∧
        err = indexerClient.PublishIndexClaim lib (clock 0) capWith content index
          retrievalAuth ∧
        (∀ e, extractRetrievalAuth lib inv = .error e → retrievalAuth = none) ∧
        (∀ dlg, extractRetrievalAuth lib inv = .ok dlg → retrievalAuth = some dlg)) := by
  cases hidx : s.IndexerClient with
  | none => simp [spaceIndexAdd, hidx]
  | some indexerClient =>
    refine ⟨by simp [spaceIndexAdd, hidx], by simp [spaceIndexAdd, hidx], by simp, ?_⟩
    intro ic hic
    simp only [Option.some.injEq] at hic
    subst hic
    cases hx : extractRetrievalAuth lib inv with
    | error e => exact ⟨none, _, by simp [spaceIndexAdd, hidx, hx], rfl, by simp, by simp⟩
    | ok dlg => exact ⟨some dlg, _, by simp [spaceIndexAdd, hidx, hx], rfl, by simp, by simp⟩

/-- C19 on the small deployment, which has no indexer: ok, and no call. -/
theorem spaceIndexAdd_ok_witness :
    (spaceIndexAdd demoLib demoService demoClock "did:key:zSpace" { cid := "bafy-index" }
      { cid := "bafy-content" } demoIndexInv NewStore).outcome = .ok {} none ∧
    (spaceIndexAdd demoLib demoService demoClock "did:key:zSpace" { cid := "bafy-index" }
      { cid := "bafy-content" } demoIndexInv NewStore).calls = [] :=
  have h := spaceIndexAdd_ok demoLib demoService demoClock "did:key:zSpace"
    { cid := "bafy-index" } { cid := "bafy-content" } demoIndexInv NewStore
  ⟨h.1, h.2.2.1 rfl⟩

/-- What `PublishIndexClaim` gives the indexer delegation, when it issues
one: the service as issuer, the indexer as audience, the space as resource,
the caveats read from the client's first capability, no expiration and the
client's delegation as its proof. -/
theorem IndexerClient.PublishIndexClaim.indexerDelegation_ok (lib : Lib) (now : Nat)
    (c : IndexerClient) (spaceDID : String) (clientAuth : Delegation)
    (indexerDelegation : Delegation)
    (h : IndexerClient.PublishIndexClaim.indexerDelegation lib now c spaceDID clientAuth
      = .ok indexerDelegation) :
    ∃ cap0 rest origCaveats,
      clientAuth.capabilities = cap0 :: rest ∧
      lib.readRetrieveCaveats cap0.nb = .ok origCaveats ∧
      indexerDelegation.issuer = c.signer.did ∧
      indexerDelegation.audience = c.indexerDID ∧
      indexerDelegation.capabilities =
        [{ can := RetrieveAbility, resource := spaceDID, nb := .retrieve origCaveats }] ∧
      indexerDelegation.proofs = [lib.link clientAuth] ∧
      indexerDelegation.expiration = none := by
  unfold IndexerClient.PublishIndexClaim.indexerDelegation at h
  simp only at h
  split at h
  · simp at h
  rename_i cap0 rest hcaps
  split at h
  · simp at h
  rename_i origCaveats hread
  split at h
  · simp at h
  rename_i d hd
  simp only [Except.ok.injEq] at h
  subst h
  obtain ⟨hi, ha, hc, hp, he, -⟩ := Invoke_ok _ _ _ _ _ _ _ _ _ hd
  exact ⟨cap0, rest, origCaveats, hcaps, hread, hi, ha, hc,
    by simpa [optProofs] using hp, by simpa [hasNoExpiration] using he⟩

/-- C20. The `assert/index` invocation `PublishIndexClaim` builds and sends is
issued by the client's signer (the service) to the indexer, has the service's
own DID as resource and the caveats `{content, index}`. Given a client
retrieval delegation, it carries exactly one fact, `retrievalAuth`, whose
value is the link of the delegation re-issued from the service to the
indexer, and its proofs are that re-delegation; given none, it carries no
fact and no proof. It is the invocation handed to the connection. -/
theorem IndexerClient.PublishIndexClaim_inv (lib : Lib) (now : Nat) (c : IndexerClient)
    (spaceDID : String) (content index : Link) (clientAuth : Option Delegation)
    (inv : Invocation)
    (h : IndexerClient.PublishIndexClaim.inv lib now c spaceDID content index clientAuth
      = .ok inv) :
    inv.issuer = c.signer.did ∧
    inv.audience = c.indexerDID ∧
    inv.capabilities =
      [{ can := IndexAbility, resource := c.signer.did.String, nb := .index content index }] ∧
    (clientAuth = none → inv.facts = [] ∧ inv.proofs = []) ∧
    (∀ auth, clientAuth = some auth →
      ∃ indexerDelegation,
        IndexerClient.PublishIndexClaim.indexerDelegation lib now c spaceDID auth
          = .ok indexerDelegation ∧
        indexerDelegation.issuer = c.signer.did ∧
        indexerDelegation.audience = c.indexerDID ∧
        inv.facts = [[("retrievalAuth", .link (lib.link indexerDelegation))]] ∧
        inv.proofs = [lib.link indexerDelegation]) ∧
    (∀ e, c.connection [inv] = .error e →
      c.PublishIndexClaim lib now spaceDID content index clientAuth
        = some ("executing assert/index: " ++ e)) := by
  have hsend : ∀ e, c.connection [inv] = .error e →
      c.PublishIndexClaim lib now spaceDID content index clientAuth
        = some ("executing assert/index: " ++ e) := by
    intro e he
    simp [IndexerClient.PublishIndexClaim, h, he]
  unfold IndexerClient.PublishIndexClaim.inv at h
  split at h
  · simp at h
  rename_i opts hopts
  split at h
  · simp at h
  rename_i inv0 hinv
  simp only [Except.ok.injEq] at h
  subst h
  obtain ⟨hi, ha, hc, hp, -, hf⟩ := Invoke_ok _ _ _ _ _ _ _ _ _ hinv
  refine ⟨hi, ha, hc, ?_, ?_, hsend⟩
  · intro hnone
    subst hnone
    simp only [IndexerClient.PublishIndexClaim.opts, Except.ok.injEq] at hopts
    subst hopts
    simp only [optFacts, collectFacts, Except.ok.injEq] at hf
    exact ⟨hf.symm, by simpa [optProofs] using hp⟩
  · intro auth hauth
    subst hauth
    simp only [IndexerClient.PublishIndexClaim.opts] at hopts
    split at hopts
    · simp at hopts
    rename_i indexerDelegation hdel
    simp only [Except.ok.injEq] at hopts
    subst hopts
    obtain ⟨_, _, _, _, _, hdi, hda, _, _, _⟩ :=
      IndexerClient.PublishIndexClaim.indexerDelegation_ok _ _ _ _ _ _ hdel
    simp only [optFacts, retrievalAuthFact.ToIPLD, collectFacts, Except.ok.injEq] at hf
    exact ⟨indexerDelegation, hdel, hdi, hda, hf.symm, by simpa [optProofs] using hp⟩

/-- C20 for the indexer of the small deployment and the agent's retrieval
delegation. -/
theorem IndexerClient.PublishIndexClaim_inv_witness :
    ∃ inv indexerDelegation,
      IndexerClient.PublishIndexClaim.inv demoLib 1000 demoIndexer "did:key:zSpace"
        { cid := "bafy-content" } { cid := "bafy-index" } (some demoRetrievalAuth) = .ok inv ∧
      inv.issuer = demoSigner.did ∧
      inv.facts = [[("retrievalAuth", .link (demoLib.link indexerDelegation))]] ∧
      inv.proofs = [demoLib.link indexerDelegation] := by
  have h : ∃ inv,
      IndexerClient.PublishIndexClaim.inv demoLib 1000 demoIndexer "did:key:zSpace"
        { cid := "bafy-content" } { cid := "bafy-index" } (some demoRetrievalAuth)
        = .ok inv := by
    simp [IndexerClient.PublishIndexClaim.inv, IndexerClient.PublishIndexClaim.opts,
      IndexerClient.PublishIndexClaim.indexerDelegation, retrievalAuthFact.ToIPLD, Invoke,
      collectFacts, optFacts, optProofs, hasNoExpiration, demoLib, demoRetrievalAuth]
  obtain ⟨inv, h⟩ := h
  obtain ⟨hi, -, -, -, hsome, -⟩ :=
    IndexerClient.PublishIndexClaim_inv demoLib 1000 demoIndexer "did:key:zSpace"
      { cid := "bafy-content" } { cid := "bafy-index" } (some demoRetrievalAuth) inv h
  obtain ⟨indexerDelegation, -, -, -, hf, hp⟩ := hsome _ rfl
  exact ⟨inv, indexerDelegation, h, hi, hf, hp⟩

/-- The run of `space/blob/add` on the small deployment succeeds at the later
clock too. -/
theorem demo_spaceBlobAdd_ok_later :
    ∃ payload fx,
      (spaceBlobAdd demoLib demoService demoBlobProvider demoLaterClock "did:key:zSpace"
        demoBlob demoAddInv demoSigner NewStore).outcome = .ok payload fx := by
  simp [spaceBlobAdd, spaceBlobAdd.req, spaceBlobAdd.alloc, spaceBlobAdd.uploadURL,
    spaceBlobAdd.httpPutInv, spaceBlobAdd.acceptInv, spaceBlobAdd.concludeInv,
    hexEncode_length, demoBlob, demoLib, demoService, demoClient, Client.Allocate,
    Client.fetchDelegationOpts, Invoke, collectFacts, optFacts, optProofs, hasNoExpiration,
    httpPutFact.ToIPLD, Response.Get, Out.Unwrap, attachBlocks, Store.asStateStore,
    Store.PutAllocation, Allocation.setAcceptInvLink]

/-- The run of `space/blob/add` on the small deployment succeeds for the other
blob, at the later clock. -/
theorem demo_spaceBlobAdd_ok_other :
    ∃ payload fx,
      (spaceBlobAdd demoLib demoService demoBlobProvider demoLaterClock "did:key:zSpace"
        demoOtherBlob demoAddInv demoSigner NewStore).outcome = .ok payload fx := by
  simp [spaceBlobAdd, spaceBlobAdd.req, spaceBlobAdd.alloc, spaceBlobAdd.uploadURL,
    spaceBlobAdd.httpPutInv, spaceBlobAdd.acceptInv, spaceBlobAdd.concludeInv,
    hexEncode_length, demoOtherBlob, demoLib, demoService, demoClient, Client.Allocate,
    Client.fetchDelegationOpts, Invoke, collectFacts, optFacts, optProofs, hasNoExpiration,
    httpPutFact.ToIPLD, Response.Get, Out.Unwrap, attachBlocks, Store.asStateStore,
    Store.PutAllocation, Allocation.setAcceptInvLink]

/-- The `http/put` invocation of a successful `space/blob/add`, the third
effect: issued by the blob provider to itself, with an expiration that is the
clock reading plus the default lifetime, and with the blob provider's fact. -/
theorem spaceBlobAdd_httpPutInv {σ : Type} (lib : Lib) (s : Service σ)
    (blobProvider : Signer) (clock : Nat → Nat) (capWith : String) (blobInfo : Blob)
    (inv : Invocation) (iCtxID : Signer) (st : σ) (payload : AddOk) (fx : Option Effects)
    (hok : (spaceBlobAdd lib s blobProvider clock capWith blobInfo inv iCtxID st).outcome
      = .ok payload fx) :
    ∃ allocateInv concludeInv httpPutInv acceptInv,
      fx = some { fork := [allocateInv, concludeInv, httpPutInv, acceptInv] } ∧
      httpPutInv.issuer = blobProvider.did ∧
      httpPutInv.audience = blobProvider.did ∧
      httpPutInv.expiration = some (clock 2 + lib.defaultLifetime) ∧
      httpPutInv.proofs = [] ∧
      httpPutInv.facts =
        [[("keys", .map [("id", .string blobProvider.did.String),
            ("keys", .map [(blobProvider.did.String, .bytes blobProvider.key)])])]] ∧
      (∃ allocateRcpt : AnyReceipt, httpPutInv.capabilities =
        [{ can := PutAbility, resource := blobProvider.did.String
           nb := .httpPut
             { url := { selector := ".out.ok.address.url", link := allocateRcpt.root }
               headers := { selector := ".out.ok.address.headers", link := allocateRcpt.root }
               body := { digest := blobInfo.digest, size := blobInfo.size } } }]) ∧
      acceptInv.expiration = none ∧
      (∃ (spaceDID : DID) (piriClient : Client), acceptInv.capabilities =
        [{ can := AcceptAbility, resource := piriClient.PiriDID.String
           nb := .accept spaceDID { digest := blobInfo.digest, size := blobInfo.size }
             { selector := ".out.ok", link := lib.link httpPutInv } }]) := by
  obtain ⟨spaceDID, piriClient, allocResp, allocateInv, allocateRcpt, st1, httpPutInv,
    acceptInv, st2, concludeInv0, concludeInv, -, -, -, -, -, hh, hacc, -, -, -, hrun⟩ :=
    spaceBlobAdd_ok_inv lib s blobProvider clock capWith blobInfo inv iCtxID st payload fx hok
  rw [hrun] at hok
  simp only [Outcome.ok.injEq] at hok
  have hh' : Invoke _ _ _ _ _ _ _ _ = .ok httpPutInv := hh
  have hacc' : Invoke _ _ _ _ _ _ _ _ = .ok acceptInv := hacc
  obtain ⟨hi, ha, hc, hp, he, hf⟩ := Invoke_ok _ _ _ _ _ _ _ _ _ hh'
  obtain ⟨-, -, hc2, -, he2, -⟩ := Invoke_ok _ _ _ _ _ _ _ _ _ hacc'
  simp only [optFacts, httpPutFact.ToIPLD, collectFacts, Except.ok.injEq] at hf
  exact ⟨allocateInv, concludeInv, httpPutInv, acceptInv, hok.2.symm, hi, ha,
    by simpa [hasNoExpiration] using he, by simpa [optProofs] using hp, hf.symm,
    ⟨allocateRcpt, hc⟩, by simpa [hasNoExpiration] using he2, ⟨spaceDID, piriClient, hc2⟩⟩

/-- C11 at two clock readings. `space/blob/add` handled at 1000 and at 2000 for
the same space, digest, size, node and allocate receipt: the `http/put`
invocations expire at 1032 and at 2032 and have different links, and the
`blob/accept` invocations, though without expiration, differ in the `put`
link they await. -/
theorem spaceBlobAdd_httpPutInv_link_moves :
    ∃ p1 a1 c1 put1 acc1 p2 a2 c2 put2 acc2,
      (spaceBlobAdd demoLib demoService demoBlobProvider demoClock "did:key:zSpace" demoBlob
        demoAddInv demoSigner NewStore).outcome
        = .ok p1 (some { fork := [a1, c1, put1, acc1] }) ∧
      (spaceBlobAdd demoLib demoService demoBlobProvider demoLaterClock "did:key:zSpace"
        demoBlob demoAddInv demoSigner NewStore).outcome
        = .ok p2 (some { fork := [a2, c2, put2, acc2] }) ∧
      put1.expiration = some 1032 ∧ put2.expiration = some 2032 ∧
      demoLib.link put1 ≠ demoLib.link put2 ∧
      acc1.expiration = none ∧ acc2.expiration = none ∧
      acc1.capabilities ≠ acc2.capabilities := by
  obtain ⟨p1, fx1, hok1⟩ := demo_spaceBlobAdd_ok
  obtain ⟨p2, fx2, hok2⟩ := demo_spaceBlobAdd_ok_later
  obtain ⟨a1, c1, put1, acc1, hfx1, hi1, ha1, he1, hp1, -, ⟨r1, hc1⟩, hae1, ⟨d1, n1, hac1⟩⟩ :=
    spaceBlobAdd_httpPutInv _ _ _ _ _ _ _ _ _ _ _ hok1
  obtain ⟨a2, c2, put2, acc2, hfx2, hi2, ha2, he2, hp2, -, ⟨r2, hc2⟩, hae2, ⟨d2, n2, hac2⟩⟩ :=
    spaceBlobAdd_httpPutInv _ _ _ _ _ _ _ _ _ _ _ hok2
  have hl1 : demoLib.link put1 = { cid :=
      "bafy(did:key:zBlobProvider>did:key:zBlobProvider:http/put@did:key:zBlobProvider;exp=1032;prf=)" } := by
    simp only [demoLib, hi1, ha1, hc1, he1, hp1, demoClock, demoBlobProvider, PutAbility,
      DID.String, List.map, String.join, List.foldl, Link.mk.injEq]
    decide
  have hl2 : demoLib.link put2 = { cid :=
      "bafy(did:key:zBlobProvider>did:key:zBlobProvider:http/put@did:key:zBlobProvider;exp=2032;prf=)" } := by
    simp only [demoLib, hi2, ha2, hc2, he2, hp2, demoLaterClock, demoBlobProvider, PutAbility,
      DID.String, List.map, String.join, List.foldl, Link.mk.injEq]
    decide
  have hne : demoLib.link put1 ≠ demoLib.link put2 := by
    rw [hl1, hl2]
    decide
  refine ⟨p1, a1, c1, put1, acc1, p2, a2, c2, put2, acc2, hfx1 ▸ hok1, hfx2 ▸ hok2,
    by simpa [demoClock, demoLib] using he1, by simpa [demoLaterClock, demoLib] using he2,
    hne, hae1, hae2, ?_⟩
  rw [hac1, hac2]
  intro h
  simp only [List.cons.injEq, Capability.mk.injEq, Caveats.accept.injEq, Promise.mk.injEq,
    and_true, true_and] at h
  exact hne h.2.2

/-- C12, as stated, fails: two `space/blob/add` invocations handled by the
handler of one registration, for different blobs at different times, build
`http/put` invocations issued by the same identity and carrying the same
fact. -/
theorem blobProvider_not_fresh :
    ∃ handler p1 a1 c1 put1 acc1 p2 a2 c2 put2 acc2,
      WithSpaceBlobAddMethod demoLib demoService (.ok demoBlobProvider) = some handler ∧
      (handler demoClock "did:key:zSpace" demoBlob demoAddInv demoSigner NewStore).outcome
        = .ok p1 (some { fork := [a1, c1, put1, acc1] }) ∧
      (handler demoLaterClock "did:key:zSpace" demoOtherBlob demoAddInv demoSigner
        NewStore).outcome = .ok p2 (some { fork := [a2, c2, put2, acc2] }) ∧
      put1.issuer = put2.issuer ∧ put1.facts = put2.facts := by
  obtain ⟨p1, fx1, hok1⟩ := demo_spaceBlobAdd_ok
  obtain ⟨p2, fx2, hok2⟩ := demo_spaceBlobAdd_ok_other
  obtain ⟨a1, c1, put1, acc1, hfx1, hi1, -, -, -, hf1, -⟩ :=
    spaceBlobAdd_httpPutInv _ _ _ _ _ _ _ _ _ _ _ hok1
  obtain ⟨a2, c2, put2, acc2, hfx2, hi2, -, -, -, hf2, -⟩ :=
    spaceBlobAdd_httpPutInv _ _ _ _ _ _ _ _ _ _ _ hok2
  exact ⟨spaceBlobAdd demoLib demoService demoBlobProvider, p1, a1, c1, put1, acc1, p2, a2,
    c2, put2, acc2, rfl, hfx1 ▸ hok1, hfx2 ▸ hok2, hi1.trans hi2.symm, hf1.trans hf2.symm⟩

/-- C12, amended. The blob-provider key is generated once, when the handler is
registered: every `http/put` invocation built by the handler of one
registration, in whatever run, is issued by that one identity to itself and
carries its DID and its key bytes in its fact. -/
theorem WithSpaceBlobAddMethod_one_identity {σ : Type} (lib : Lib) (s : Service σ)
    (generate : Except String Signer)
    (handler : (Nat → Nat) → String → Blob → Invocation → Signer → σ → Run σ AddOk)
    (hreg : WithSpaceBlobAddMethod lib s generate = some handler) :
    ∃ blobProvider, generate = .ok blobProvider ∧
      ∀ clock capWith blobInfo inv iCtxID st payload fx,
        (handler clock capWith blobInfo inv iCtxID st).outcome = .ok payload fx →
        ∃ allocateInv concludeInv httpPutInv acceptInv,
          fx = some { fork := [allocateInv, concludeInv, httpPutInv, acceptInv] } ∧
          httpPutInv.issuer = blobProvider.did ∧
          httpPutInv.audience = blobProvider.did ∧
          httpPutInv.facts =
            [[("keys", .map [("id", .string blobProvider.did.String),
                ("keys", .map [(blobProvider.did.String, .bytes blobProvider.key)])])]] := by
  cases generate with
  | error e => simp [WithSpaceBlobAddMethod] at hreg
  | ok blobProvider =>
    simp only [WithSpaceBlobAddMethod, Option.some.injEq] at hreg
    subst hreg
    refine ⟨blobProvider, rfl, ?_⟩
    intro clock capWith blobInfo inv iCtxID st payload fx hok
    obtain ⟨a, c, put, acc, hfx, hi, ha, -, -, hf, -⟩ :=
      spaceBlobAdd_httpPutInv _ _ _ _ _ _ _ _ _ _ _ hok
    exact ⟨a, c, put, acc, hfx, hi, ha, hf⟩

/-- C12, amended, for the registration of the small deployment and its run
for `demoBlob`. -/
theorem WithSpaceBlobAddMethod_one_identity_witness :
    ∃ payload allocateInv concludeInv httpPutInv acceptInv,
      (spaceBlobAdd demoLib demoService demoBlobProvider demoClock "did:key:zSpace" demoBlob
        demoAddInv demoSigner NewStore).outcome
        = .ok payload (some { fork := [allocateInv, concludeInv, httpPutInv, acceptInv] }) ∧
      httpPutInv.issuer = demoBlobProvider.did := by
  obtain ⟨blobProvider, hgen, hall⟩ :=
    WithSpaceBlobAddMethod_one_identity demoLib demoService (.ok demoBlobProvider)
      (spaceBlobAdd demoLib demoService demoBlobProvider) rfl
  simp only [Except.ok.injEq] at hgen
  subst hgen
  obtain ⟨payload, fx, hok⟩ := demo_spaceBlobAdd_ok
  obtain ⟨a, c, put, acc, hfx, hi, -⟩ := hall _ _ _ _ _ _ payload fx hok
  exact ⟨payload, a, c, put, acc, hfx ▸ hok, hi⟩

/-- How the publishing to the indexer comes to call `CacheLocationClaim`: an
indexer client is configured, the node returned a site, the location claim
reads from the blocks of the node's receipt, the node's DID gives a peer id,
and both address texts parse. -/
theorem ucanConclude.cacheLocationClaim_inv (lib : Lib) (now : Nat)
    (indexerClient : Option IndexerClient) (piriClient : Client)
    (acceptResp : AcceptResponse) (piriRcpt : AnyReceipt) (e : Event)
    (h : e ∈ ucanConclude.cacheLocationClaim lib now indexerClient piriClient acceptResp
      piriRcpt) :
    ∃ idx site bs locationClaim piriPeerID piriBlobAddr piriClaimAddr,
      indexerClient = some idx ∧
      acceptResp.Site = some site ∧
      lib.newBlockReader piriRcpt.blocks = .ok bs ∧
      lib.newDelegationView site bs = .ok locationClaim ∧
      didToPeerID lib piriClient.PiriDID = .ok piriPeerID ∧
      lib.newMultiaddr
        ("/dns4/piri/tcp/3000/http/p2p/" ++ piriPeerID ++ "/http-path/piece%2F%7BblobCID%7D")
        = .ok piriBlobAddr ∧
      lib.newMultiaddr
        ("/dns4/piri/tcp/3000/http/p2p/" ++ piriPeerID ++ "/http-path/claim%2F%7Bclaim%7D")
        = .ok piriClaimAddr ∧
      e = .CacheLocationClaim (lib.link locationClaim) [piriBlobAddr, piriClaimAddr]
        (idx.CacheLocationClaim lib now locationClaim [piriBlobAddr, piriClaimAddr]) := by
  unfold ucanConclude.cacheLocationClaim at h
  simp only at h
  split at h
  swap
  · simp at h
  rename_i idx site hsite
  split at h
  · simp at h
  rename_i bs hbs
  split at h
  · simp at h
  rename_i locationClaim hclaim
  split at h
  · simp at h
  rename_i piriPeerID hpeer
  split at h
  swap
  · simp at h
  rename_i piriBlobAddr piriClaimAddr hblob hclaimAddr
  simp only [List.mem_singleton] at h
  exact ⟨idx, site, bs, locationClaim, piriPeerID, piriBlobAddr, piriClaimAddr, rfl, hsite,
    hbs, hclaim, hpeer, hblob, hclaimAddr, h⟩

/-- A `CacheLocationClaim` call of `ucan/conclude` is made by the publishing
step, after the allocation was found and `Accept` succeeded. -/
theorem ucanConclude_cache_inv {σ : Type} (lib : Lib) (s : Service σ)
    (clock : Nat → Nat) (receiptLink : Link) (inv : Invocation) (st : σ)
    (claim : Link) (addrs : List String) (err : Option String)
    (h : Event.CacheLocationClaim claim addrs err ∈
      (ucanConclude lib s clock receiptLink inv st).calls) :
    ∃ ranInv body alloc piriClient acceptResp piriRcpt,
      ucanConclude.IsPut lib receiptLink inv ranInv body ∧
      s.State.GetAllocation st (hexEncode body.digest) = .ok (some alloc) ∧
      s.PiriClient = .ok (some piriClient) ∧
      piriClient.Accept lib (clock 0) (ucanConclude.req lib alloc body ranInv)
        = .ok (acceptResp, piriRcpt) ∧
      Event.CacheLocationClaim claim addrs err ∈
        ucanConclude.cacheLocationClaim lib (clock 1) s.IndexerClient piriClient acceptResp
          piriRcpt := by
  have hacc : ∀ ranInv body alloc piriClient acceptResp piriRcpt,
      Event.CacheLocationClaim claim addrs err ∈
        ucanConclude.accepted lib s clock ranInv body alloc piriClient acceptResp piriRcpt →
      Event.CacheLocationClaim claim addrs err ∈
        ucanConclude.cacheLocationClaim lib (clock 1) s.IndexerClient piriClient acceptResp
          piriRcpt := by
    intro ranInv body alloc piriClient acceptResp piriRcpt hmem
    simp only [ucanConclude.accepted, List.mem_append, List.mem_cons, List.mem_singleton,
      List.not_mem_nil, or_false] at hmem
    rcases hmem with (hmem | hmem | hmem) | hmem
    · cases hmem
    · cases hmem
    · cases hmem
    · exact hmem
  cases ucanConclude_exit lib s clock receiptLink inv st with
  | notPut hrun => simp [hrun, acknowledge] at h
  | slice _ _ _ _ hrun => simp [hrun] at h
  | lookupFailed _ _ _ _ _ _ hrun => simp [hrun, acknowledge] at h
  | noAllocation _ _ _ _ _ hrun => simp [hrun, acknowledge] at h
  | clientError _ _ _ _ _ _ _ _ hrun => simp [hrun, acknowledge] at h
  | noProvider _ _ _ _ _ _ _ hrun => simp [hrun, acknowledge] at h
  | acceptFailed _ _ _ _ _ _ _ _ _ _ hrun => simp [hrun, acknowledge] at h
  | issueFailed ranInv body alloc piriClient acceptResp piriRcpt _ hput _ hget hclient haccept
      _ hrun =>
    rw [hrun] at h
    exact ⟨ranInv, body, alloc, piriClient, acceptResp, piriRcpt, hput, hget, hclient,
      haccept, hacc _ _ _ _ _ _ h⟩
  | nilLink ranInv body alloc piriClient acceptResp piriRcpt _ hput _ hget hclient haccept _ _
      hrun =>
    rw [hrun] at h
    exact ⟨ranInv, body, alloc, piriClient, acceptResp, piriRcpt, hput, hget, hclient,
      haccept, hacc _ _ _ _ _ _ h⟩
  | stored ranInv body alloc piriClient acceptResp piriRcpt _ _ _ _ hput _ hget hclient
      haccept _ _ _ hrun =>
    rw [hrun] at h
    simp only [acknowledge, List.mem_append, List.mem_singleton] at h
    rcases h with h | h
    · exact ⟨ranInv, body, alloc, piriClient, acceptResp, piriRcpt, hput, hget, hclient,
        haccept, hacc _ _ _ _ _ _ h⟩
    · cases h

/-- C14. Whenever `ucan/conclude` invokes `claim/cache` it passes exactly two
provider addresses, the blob address first and the claim address second. For
the peer id `p` derived from the node's DID, they are the multiaddrs parsed
from `/dns4/piri/tcp/3000/http/p2p/<p>/http-path/<template>`, so both hold
`/p2p/` followed by `p`, and the two percent-encoded templates decode to
`piece/{blobCID}` and `claim/{claim}`. -/
theorem ucanConclude_claim_cache_addresses {σ : Type} (lib : Lib) (s : Service σ)
    (clock : Nat → Nat) (receiptLink : Link) (inv : Invocation) (st : σ)
    (claim : Link) (addrs : List String) (err : Option String)
    (h : Event.CacheLocationClaim claim addrs err ∈
      (ucanConclude lib s clock receiptLink inv st).calls) :
    ∃ piriClient p blobAddr claimAddr,
      s.PiriClient = .ok (some piriClient) ∧
      didToPeerID lib piriClient.PiriDID = .ok p ∧
      addrs = [blobAddr, claimAddr] ∧
      lib.newMultiaddr ("/dns4/" ++ "piri" ++ "/tcp/" ++ "3000" ++ "/http" ++ "/p2p/" ++ p
        ++ "/http-path/" ++ "piece%2F%7BblobCID%7D") = .ok blobAddr ∧
      lib.newMultiaddr ("/dns4/" ++ "piri" ++ "/tcp/" ++ "3000" ++ "/http" ++ "/p2p/" ++ p
        ++ "/http-path/" ++ "claim%2F%7Bclaim%7D") = .ok claimAddr ∧
      percentDecode "piece%2F%7BblobCID%7D".data = some "piece/\x7bblobCID\x7d".data ∧
      percentDecode "claim%2F%7Bclaim%7D".data = some "claim/\x7bclaim\x7d".data := by
  obtain ⟨_, _, _, piriClient, acceptResp, piriRcpt, -, -, hclient, -, hmem⟩ :=
    ucanConclude_cache_inv lib s clock receiptLink inv st claim addrs err h
  obtain ⟨_, _, _, _, p, blobAddr, claimAddr, -, -, -, -, hpeer, hblob, hclaimAddr, he⟩ :=
    ucanConclude.cacheLocationClaim_inv _ _ _ _ _ _ _ hmem
  simp only [Event.CacheLocationClaim.injEq] at he
  have hpre : "/dns4/" ++ "piri" ++ "/tcp/" ++ "3000" ++ "/http" ++ "/p2p/"
      = "/dns4/piri/tcp/3000/http/p2p/" := by decide
  have hblobText : "/dns4/" ++ "piri" ++ "/tcp/" ++ "3000" ++ "/http" ++ "/p2p/" ++ p
        ++ "/http-path/" ++ "piece%2F%7BblobCID%7D"
      = "/dns4/piri/tcp/3000/http/p2p/" ++ p ++ "/http-path/piece%2F%7BblobCID%7D" := by
    rw [hpre, String.append_assoc _ "/http-path/" "piece%2F%7BblobCID%7D"]
    rfl
  have hclaimText : "/dns4/" ++ "piri" ++ "/tcp/" ++ "3000" ++ "/http" ++ "/p2p/" ++ p
        ++ "/http-path/" ++ "claim%2F%7Bclaim%7D"
      = "/dns4/piri/tcp/3000/http/p2p/" ++ p ++ "/http-path/claim%2F%7Bclaim%7D" := by
    rw [hpre, String.append_assoc _ "/http-path/" "claim%2F%7Bclaim%7D"]
    rfl
  refine ⟨piriClient, p, blobAddr, claimAddr, hclient, hpeer, he.2.1, ?_, ?_, ?_, ?_⟩
  · rw [hblobText]
    exact hblob
  · rw [hclaimText]
    exact hclaimAddr
  · decide
  · decide

/-- The run of `ucan/conclude` on the deployment with an indexer caches the
location claim. -/
theorem demo_ucanConclude_caches :
    Event.CacheLocationClaim (demoLib.link demoLocationClaim)
      ["/dns4/piri/tcp/3000/http/p2p/12D3KooWPiri/http-path/piece%2F%7BblobCID%7D",
       "/dns4/piri/tcp/3000/http/p2p/12D3KooWPiri/http-path/claim%2F%7Bclaim%7D"]
      (demoIndexer.CacheLocationClaim demoLib (demoClock 1) demoLocationClaim
        ["/dns4/piri/tcp/3000/http/p2p/12D3KooWPiri/http-path/piece%2F%7BblobCID%7D",
         "/dns4/piri/tcp/3000/http/p2p/12D3KooWPiri/http-path/claim%2F%7Bclaim%7D"]) ∈
      (ucanConclude demoLib demoServiceIndexed demoClock { cid := "bafy-put-receipt" }
        demoConcludeInv demoStore).calls := by
  have hb : "/dns4/piri/tcp/3000/http/p2p/" ++ "12D3KooWPiri"
      ++ "/http-path/piece%2F%7BblobCID%7D"
      = "/dns4/piri/tcp/3000/http/p2p/12D3KooWPiri/http-path/piece%2F%7BblobCID%7D" := by
    decide
  have hc : "/dns4/piri/tcp/3000/http/p2p/" ++ "12D3KooWPiri"
      ++ "/http-path/claim%2F%7Bclaim%7D"
      = "/dns4/piri/tcp/3000/http/p2p/12D3KooWPiri/http-path/claim%2F%7Bclaim%7D" := by
    decide
  simp [ucanConclude, ucanConclude.req, ucanConclude.cacheLocationClaim, ucanConclude.stored,
    acknowledge, receiptIssue, didToPeerID, hexEncode_length, demoBlob, demoLib,
    demoServiceIndexed, demoService, demoClient, demoPutInv, demoConcludeInv, demoStore,
    demoAllocation, Ran.Invocation, PutAbility, Client.Accept, Client.fetchDelegationOpts,
    Client.PiriDID, Invoke, collectFacts, optFacts, optProofs, hasNoExpiration, Response.Get,
    Out.Unwrap, Node.LookupByString, Node.AsLink, Store.asStateStore, Store.PutAllocation,
    Store.GetAllocation, Store.PutReceipt, Link.String, NewStore, hb, hc]

/-- C14 on the deployment with an indexer: two addresses, each holding the
peer id of the node. -/
theorem ucanConclude_claim_cache_addresses_witness :
    ∃ claim blobAddr claimAddr err,
      Event.CacheLocationClaim claim [blobAddr, claimAddr] err ∈
        (ucanConclude demoLib demoServiceIndexed demoClock { cid := "bafy-put-receipt" }
          demoConcludeInv demoStore).calls ∧
      demoLib.newMultiaddr ("/dns4/" ++ "piri" ++ "/tcp/" ++ "3000" ++ "/http" ++ "/p2p/"
        ++ "12D3KooWPiri" ++ "/http-path/" ++ "piece%2F%7BblobCID%7D") = .ok blobAddr := by
  have h := demo_ucanConclude_caches
  obtain ⟨piriClient, p, blobAddr, claimAddr, hclient, hpeer, haddrs, hblob, -⟩ :=
    ucanConclude_claim_cache_addresses _ _ _ _ _ _ _ _ _ h
  have hp : p = "12D3KooWPiri" := by
    simp only [demoServiceIndexed, demoService, Except.ok.injEq, Option.some.injEq] at hclient
    subst hclient
    simpa [didToPeerID, demoLib] using hpeer.symm
  subst hp
  exact ⟨_, blobAddr, claimAddr, _, haddrs ▸ h, hblob⟩

/-- The publishing functions of the library play no part in `Accept`. -/
theorem Client.Accept_publishingWith (lib other : Lib) (now : Nat) (c : Client)
    (req : AcceptRequest) :
    c.Accept (lib.publishingWith other) now req = c.Accept lib now req := by
  simp [Client.Accept, Invoke, Lib.publishingWith]

/-- Every call of the publishing step is a `CacheLocationClaim`, so none is
left when those are set apart. -/
theorem ucanConclude.cacheLocationClaim_filter (lib : Lib) (now : Nat)
    (indexerClient : Option IndexerClient) (piriClient : Client)
    (acceptResp : AcceptResponse) (piriRcpt : AnyReceipt) :
    (ucanConclude.cacheLocationClaim lib now indexerClient piriClient acceptResp
      piriRcpt).filter (fun e => !e.isCacheLocationClaim) = [] := by
  rw [List.filter_eq_nil_iff]
  intro e he
  obtain ⟨claim, addrs, err, rfl⟩ :=
    ucanConclude.cacheLocationClaim_calls _ _ _ _ _ _ _ he
  simp [Event.isCacheLocationClaim]

/-- C15. Publishing to the indexer in `ucan/conclude` is best-effort. Whatever
the publishing step meets (another indexer client or none, other answers of
the block reader, of the location-claim view, of the peer-id derivation, of
the multiaddr parser, and so any outcome of `claim/cache`), the run has the
same outcome, leaves the same store and makes the same calls apart from
`CacheLocationClaim`, the same `PutReceipt` among them. And whenever the
allocation carries its accept link, `Accept` succeeded and the receipt could
be issued, the run stores the re-issued receipt under that link and returns
ok. -/
theorem ucanConclude_publish_best_effort {σ : Type} (lib other : Lib) (s : Service σ)
    (indexerClient : Option IndexerClient) (clock : Nat → Nat) (receiptLink : Link)
    (inv : Invocation) (st : σ) :
    ((ucanConclude (lib.publishingWith other) (s.withIndexerClient indexerClient) clock
        receiptLink inv st).outcome
      = (ucanConclude lib s clock receiptLink inv st).outcome ∧
    (ucanConclude (lib.publishingWith other) (s.withIndexerClient indexerClient) clock
        receiptLink inv st).store
      = (ucanConclude lib s clock receiptLink inv st).store ∧
    (ucanConclude (lib.publishingWith other) (s.withIndexerClient indexerClient) clock
        receiptLink inv st).calls.filter (fun e => !e.isCacheLocationClaim)
      = (ucanConclude lib s clock receiptLink inv st).calls.filter
          (fun e => !e.isCacheLocationClaim)) ∧
    (∀ ranInv body alloc piriClient acceptResp piriRcpt link reissuedRcpt,
      ucanConclude.IsPut lib receiptLink inv ranInv body →
      8 ≤ body.digest.length →
      s.State.GetAllocation st (hexEncode body.digest) = .ok (some alloc) →
      s.PiriClient = .ok (some piriClient) →
      piriClient.Accept lib (clock 0) (ucanConclude.req lib alloc body ranInv)
        = .ok (acceptResp, piriRcpt) →
      alloc.AcceptInvLink = some link →
      receiptIssue lib s.ID { site := acceptResp.Site } (some link) = .ok reissuedRcpt →
      (ucanConclude lib s clock receiptLink inv st).outcome = .ok {} none ∧
      ∃ err, Event.PutReceipt link.String
          (ucanConclude.stored (clock 2) alloc reissuedRcpt piriRcpt) err ∈
        (ucanConclude lib s clock receiptLink inv st).calls) := by
  refine ⟨?_, ?_⟩
  · have hA := Client.Accept_publishingWith lib other
    have hE1 : ∀ k r e, (Event.PutReceipt k r e).isCacheLocationClaim = false :=
      fun _ _ _ => rfl
    have hE2 : ∀ k r, (Event.GetAllocation k r).isCacheLocationClaim = false :=
      fun _ _ => rfl
    have hE3 : ∀ r, (Event.PiriClient r).isCacheLocationClaim = false := fun _ => rfl
    have hE4 : ∀ n r e, (Event.Accept n r e).isCacheLocationClaim = false :=
      fun _ _ _ => rfl
    cases hr : lib.readReceipt receiptLink inv.blocks with
    | error e => simp [ucanConclude, Lib.publishingWith, Service.withIndexerClient, hr]
    | ok rcpt =>
    cases hran : rcpt.ran.Invocation with
    | none => simp [ucanConclude, Lib.publishingWith, Service.withIndexerClient, hr, hran]
    | some ranInv =>
    cases hcaps : ranInv.capabilities with
    | nil =>
      simp [ucanConclude, Lib.publishingWith, Service.withIndexerClient, hr, hran, hcaps]
    | cons putCap rest =>
    by_cases hab : putCap.can = PutAbility
    swap
    · simp [ucanConclude, Lib.publishingWith, Service.withIndexerClient, hr, hran, hcaps, hab]
    cases hm : lib.matchPut putCap ranInv with
    | error e =>
      simp [ucanConclude, Lib.publishingWith, Service.withIndexerClient, hr, hran, hcaps, hab,
        hm]
    | ok putMatch =>
    by_cases hlen : (hexEncode putMatch.body.digest).length < 16
    · simp [ucanConclude, Lib.publishingWith, Service.withIndexerClient, hr, hran, hcaps, hab,
        hm, hlen]
    cases hget : s.State.GetAllocation st (hexEncode putMatch.body.digest) with
    | error e =>
      simp [ucanConclude, Lib.publishingWith, Service.withIndexerClient, hr, hran, hcaps, hab,
        hm, hlen, hget]
    | ok oa =>
    cases oa with
    | none =>
      simp [ucanConclude, Lib.publishingWith, Service.withIndexerClient, hr, hran, hcaps, hab,
        hm, hlen, hget]
    | some alloc =>
    cases hc : s.PiriClient with
    | error e =>
      simp [ucanConclude, Lib.publishingWith, Service.withIndexerClient, hr, hran, hcaps, hab,
        hm, hlen, hget, hc]
    | ok oc =>
    cases oc with
    | none =>
      simp [ucanConclude, Lib.publishingWith, Service.withIndexerClient, hr, hran, hcaps, hab,
        hm, hlen, hget, hc]
    | some piriClient =>
    have hA' := hA (clock 0) piriClient (ucanConclude.req lib alloc putMatch.body ranInv)
    have hreq : ucanConclude.req (lib.publishingWith other) alloc putMatch.body ranInv
        = ucanConclude.req lib alloc putMatch.body ranInv := rfl
    cases hacc : piriClient.Accept lib (clock 0)
        (ucanConclude.req lib alloc putMatch.body ranInv) with
    | error e =>
      rw [hacc] at hA'
      have hr' : (lib.publishingWith other).readReceipt receiptLink inv.blocks = .ok rcpt := hr
      have hm' : (lib.publishingWith other).matchPut putCap ranInv = .ok putMatch := hm
      have hget' : (s.withIndexerClient indexerClient).State.GetAllocation st
          (hexEncode putMatch.body.digest) = .ok (some alloc) := hget
      have hc' : (s.withIndexerClient indexerClient).PiriClient = .ok (some piriClient) := hc
      simp [ucanConclude, hr, hran, hcaps, hab, hm, hlen, hget, hc, hacc, hr', hm', hget',
        hc', hreq, hA']
    | ok r =>
    obtain ⟨acceptResp, piriRcpt⟩ := r
    rw [hacc] at hA'
    have hr' : (lib.publishingWith other).readReceipt receiptLink inv.blocks = .ok rcpt := hr
    have hm' : (lib.publishingWith other).matchPut putCap ranInv = .ok putMatch := hm
    have hget' : (s.withIndexerClient indexerClient).State.GetAllocation st
        (hexEncode putMatch.body.digest) = .ok (some alloc) := hget
    have hc' : (s.withIndexerClient indexerClient).PiriClient = .ok (some piriClient) := hc
    have hf := ucanConclude.cacheLocationClaim_filter lib (clock 1) s.IndexerClient piriClient
      acceptResp piriRcpt
    have hf' := ucanConclude.cacheLocationClaim_filter (lib.publishingWith other) (clock 1)
      (s.withIndexerClient indexerClient).IndexerClient piriClient acceptResp piriRcpt
    have hiss : ∀ ran, receiptIssue (lib.publishingWith other)
        (s.withIndexerClient indexerClient).ID { site := acceptResp.Site } ran
        = receiptIssue lib s.ID { site := acceptResp.Site } ran := fun _ => rfl
    have hput : ∀ k r, (s.withIndexerClient indexerClient).State.PutReceipt st k r
        = s.State.PutReceipt st k r := fun _ _ => rfl
    cases hi : receiptIssue lib s.ID { site := acceptResp.Site } alloc.AcceptInvLink with
    | error e =>
      simp [ucanConclude, acknowledge, hr, hran, hcaps, hab, hm, hlen, hget, hc, hacc, hr',
        hm', hget', hc', hreq, hA', hiss, hi, hf, hf', hE1, hE2, hE3, hE4]
    | ok reissuedRcpt =>
    cases hl : alloc.AcceptInvLink with
    | none =>
      rw [hl] at hi
      simp [ucanConclude, acknowledge, hr, hran, hcaps, hab, hm, hlen, hget, hc, hacc, hr',
        hm', hget', hc', hreq, hA', hiss, hi, hl, hf, hf', hE1, hE2, hE3, hE4]
    | some link =>
    rw [hl] at hi
    cases hs : s.State.PutReceipt st link.String
        (ucanConclude.stored (clock 2) alloc reissuedRcpt piriRcpt) with
    | mk err st1 =>
    cases err with
    | none =>
      simp [ucanConclude, acknowledge, hr, hran, hcaps, hab, hm, hlen, hget, hc, hacc, hr',
        hm', hget', hc', hreq, hA', hiss, hput, hi, hl, hs, hf, hf', hE1, hE2, hE3, hE4]
    | some e =>
      simp [ucanConclude, acknowledge, hr, hran, hcaps, hab, hm, hlen, hget, hc, hacc, hr',
        hm', hget', hc', hreq, hA', hiss, hput, hi, hl, hs, hf, hf', hE1, hE2, hE3, hE4]
  · intro ranInv body alloc piriClient acceptResp piriRcpt link reissuedRcpt hput hlen hget
      hclient haccept hlink hissue
    obtain ⟨rcpt, putCap, rest, putMatch, hr, hran, hcaps, hab, hm, rfl⟩ := hput
    have h16 : ¬ (hexEncode putMatch.body.digest).length < 16 := by
      rw [hexEncode_length]
      omega
    cases hs : s.State.PutReceipt st link.String
        (ucanConclude.stored (clock 2) alloc reissuedRcpt piriRcpt) with
    | mk err st1 =>
    cases err with
    | none =>
      simp [ucanConclude, acknowledge, hr, hran, hcaps, hab, hm, h16, hget, hclient, haccept,
        hissue, hlink, hs]
    | some e =>
      simp [ucanConclude, acknowledge, hr, hran, hcaps, hab, hm, h16, hget, hclient, haccept,
        hissue, hlink, hs]

/-- The run of `ucan/conclude` on the small deployment returns ok. -/
theorem demo_ucanConclude_ok :
    (ucanConclude demoLib demoService demoClock { cid := "bafy-put-receipt" }
      demoConcludeInv demoStore).outcome = .ok {} none := by
  simp [ucanConclude, ucanConclude.req, ucanConclude.cacheLocationClaim, ucanConclude.stored,
    acknowledge, receiptIssue, hexEncode_length, demoBlob, demoLib, demoService, demoClient,
    demoPutInv, demoConcludeInv, demoStore, demoAllocation, Ran.Invocation, PutAbility,
    Client.Accept, Client.fetchDelegationOpts, Invoke, collectFacts, optFacts, optProofs,
    hasNoExpiration, Response.Get, Out.Unwrap, Store.asStateStore, Store.PutAllocation,
    Store.GetAllocation, Store.PutReceipt, Link.String, NewStore]

/-- C15 on the small deployment: with an indexer configured and a multiaddr
parser that rejects every address, the run still returns ok and stores the
receipt. -/
theorem ucanConclude_publish_best_effort_witness :
    (ucanConclude (demoLib.publishingWith demoLibBadAddr)
        (demoService.withIndexerClient (some demoIndexer)) demoClock
        { cid := "bafy-put-receipt" } demoConcludeInv demoStore).outcome = .ok {} none ∧
    ∃ stored, Event.PutReceipt "bafy-accept" stored none ∈
      (ucanConclude (demoLib.publishingWith demoLibBadAddr)
        (demoService.withIndexerClient (some demoIndexer)) demoClock
        { cid := "bafy-put-receipt" } demoConcludeInv demoStore).calls := by
  obtain ⟨⟨ho, _, hcalls⟩, _⟩ :=
    ucanConclude_publish_best_effort demoLib demoLibBadAddr demoService (some demoIndexer)
      demoClock { cid := "bafy-put-receipt" } demoConcludeInv demoStore
  refine ⟨ho.trans demo_ucanConclude_ok, ?_⟩
  obtain ⟨stored, h⟩ := demo_ucanConclude_stores
  refine ⟨stored, ?_⟩
  have h1 : Event.PutReceipt "bafy-accept" stored none ∈
      (ucanConclude demoLib demoService demoClock { cid := "bafy-put-receipt" }
        demoConcludeInv demoStore).calls.filter (fun e => !e.isCacheLocationClaim) :=
    List.mem_filter.mpr ⟨h, rfl⟩
  rw [← hcalls] at h1
  exact (List.mem_filter.mp h1).1

/-- The run of `ucan/conclude` when it reaches `PutReceipt`: the receipt is an
`http/put` one, the allocation is found with its accept link, `Accept`
succeeds and the receipt is issued. -/
theorem ucanConclude_reaches_store {σ : Type} (lib : Lib) (s : Service σ) (clock : Nat → Nat)
    (receiptLink : Link) (inv : Invocation) (st : σ) (ranInv : Invocation) (body : Body)
    (alloc : Allocation) (piriClient : Client) (acceptResp : AcceptResponse)
    (piriRcpt : AnyReceipt) (link : Link) (reissuedRcpt : Receipt)
    (hput : ucanConclude.IsPut lib receiptLink inv ranInv body)
    (hlen : 8 ≤ body.digest.length)
    (hget : s.State.GetAllocation st (hexEncode body.digest) = .ok (some alloc))
    (hclient : s.PiriClient = .ok (some piriClient))
    (haccept : piriClient.Accept lib (clock 0) (ucanConclude.req lib alloc body ranInv)
      = .ok (acceptResp, piriRcpt))
    (hlink : alloc.AcceptInvLink = some link)
    (hissue : receiptIssue lib s.ID { site := acceptResp.Site } (some link)
      = .ok reissuedRcpt) :
    ucanConclude lib s clock receiptLink inv st =
      acknowledge
        (s.State.PutReceipt st link.String
          (ucanConclude.stored (clock 2) alloc reissuedRcpt piriRcpt)).2
        (ucanConclude.accepted lib s clock ranInv body alloc piriClient acceptResp piriRcpt
          ++ [.PutReceipt link.String
            (ucanConclude.stored (clock 2) alloc reissuedRcpt piriRcpt)
            (s.State.PutReceipt st link.String
              (ucanConclude.stored (clock 2) alloc reissuedRcpt piriRcpt)).1]) := by
  obtain ⟨rcpt, putCap, rest, putMatch, hr, hran, hcaps, hab, hm, rfl⟩ := hput
  have h16 : ¬ (hexEncode putMatch.body.digest).length < 16 := by
    rw [hexEncode_length]
    omega
  cases hs : s.State.PutReceipt st link.String
      (ucanConclude.stored (clock 2) alloc reissuedRcpt piriRcpt) with
  | mk err st1 =>
  cases err with
  | none =>
    simp [ucanConclude, ucanConclude.accepted, acknowledge, hr, hran, hcaps, hab, hm, h16,
      hget, hclient, haccept, hissue, hlink, hs]
  | some e =>
    simp [ucanConclude, ucanConclude.accepted, acknowledge, hr, hran, hcaps, hab, hm, h16,
      hget, hclient, haccept, hissue, hlink, hs]

/-- An option list that ends with `WithNoExpiration` asks for no expiration. -/
theorem hasNoExpiration_append (opts : List DelegationOption) :
    hasNoExpiration (opts ++ [.WithNoExpiration]) = true := by
  induction opts with
  | nil => rfl
  | cons o rest ih => cases o <;> simp [hasNoExpiration, ih]

/-- The accept invocation has no expiration, so `Accept` does not depend on
the time of the call. -/
theorem Client.Accept_now (lib : Lib) (now later : Nat) (c : Client) (req : AcceptRequest) :
    c.Accept lib now req = c.Accept lib later req := by
  unfold Client.Accept
  cases c.fetchDelegationOpts with
  | error e => rfl
  | ok opts => simp [Invoke, hasNoExpiration_append]

/-- C17. Submitting the same `http/put` conclude twice, at any two times and
from any two stores that hold the allocation, the storage node returning the
same site both times: both runs return ok, both call `PutReceipt` under the
accept link of the allocation, and the receipt in the second record is the
receipt in the first, built from the service signer, the site and the accept
link alone; a store that reads back the last receipt written returns the
second record, with that receipt, afterwards. -/
theorem ucanConclude_twice_same_receipt {σ : Type} (lib : Lib) (s1 s2 : Service σ)
    (clock1 clock2 : Nat → Nat) (receiptLink : Link) (inv : Invocation) (st1 st2 : σ)
    (ranInv : Invocation) (body : Body) (alloc : Allocation)
    (piriClient1 piriClient2 : Client) (resp1 resp2 : AcceptResponse)
    (rcpt1 rcpt2 : AnyReceipt) (link : Link)
    (hID : s2.ID = s1.ID)
    (hput : ucanConclude.IsPut lib receiptLink inv ranInv body)
    (hlen : 8 ≤ body.digest.length)
    (hget1 : s1.State.GetAllocation st1 (hexEncode body.digest) = .ok (some alloc))
    (hget2 : s2.State.GetAllocation st2 (hexEncode body.digest) = .ok (some alloc))
    (hlink : alloc.AcceptInvLink = some link)
    (hclient1 : s1.PiriClient = .ok (some piriClient1))
    (hclient2 : s2.PiriClient = .ok (some piriClient2))
    (haccept1 : piriClient1.Accept lib (clock1 0) (ucanConclude.req lib alloc body ranInv)
      = .ok (resp1, rcpt1))
    (haccept2 : piriClient2.Accept lib (clock2 0) (ucanConclude.req lib alloc body ranInv)
      = .ok (resp2, rcpt2))
    (hsite : resp2.Site = resp1.Site)
    (hissue : lib.receiptIssueErr s1.ID { site := resp1.Site } (some link) = none)
    (hback : ∀ st k r st3, s2.State.PutReceipt st k r = (none, st3) →
      s2.State.GetReceipt st3 k = .ok (some r)) :
    (ucanConclude lib s1 clock1 receiptLink inv st1).outcome = .ok {} none ∧
    (ucanConclude lib s2 clock2 receiptLink inv st2).outcome = .ok {} none ∧
    ∃ stored1 stored2 err1 err2,
      Event.PutReceipt link.String stored1 err1 ∈
        (ucanConclude lib s1 clock1 receiptLink inv st1).calls ∧
      Event.PutReceipt link.String stored2 err2 ∈
        (ucanConclude lib s2 clock2 receiptLink inv st2).calls ∧
      stored1.Receipt
        = { issuer := s1.ID.did, ran := some link, out := { site := resp1.Site } } ∧
      stored2.Receipt = stored1.Receipt ∧
      stored2.Task = stored1.Task ∧
      (err2 = none →
        s2.State.GetReceipt (ucanConclude lib s2 clock2 receiptLink inv st2).store link.String
          = .ok (some stored2)) := by
  have hi1 : receiptIssue lib s1.ID { site := resp1.Site } (some link)
      = .ok { issuer := s1.ID.did, ran := some link, out := { site := resp1.Site } } := by
    simp [receiptIssue, hissue]
  have hi2 : receiptIssue lib s2.ID { site := resp2.Site } (some link)
      = .ok { issuer := s1.ID.did, ran := some link, out := { site := resp1.Site } } := by
    rw [hID, hsite]
    exact hi1
  have h1 := ucanConclude_reaches_store lib s1 clock1 receiptLink inv st1 ranInv body alloc
    piriClient1 resp1 rcpt1 link _ hput hlen hget1 hclient1 haccept1 hlink hi1
  have h2 := ucanConclude_reaches_store lib s2 clock2 receiptLink inv st2 ranInv body alloc
    piriClient2 resp2 rcpt2 link _ hput hlen hget2 hclient2 haccept2 hlink hi2
  rw [h1, h2]
  refine ⟨rfl, rfl,
    ucanConclude.stored (clock1 2) alloc
      { issuer := s1.ID.did, ran := some link, out := { site := resp1.Site } } rcpt1,
    ucanConclude.stored (clock2 2) alloc
      { issuer := s1.ID.did, ran := some link, out := { site := resp1.Site } } rcpt2,
    (s1.State.PutReceipt st1 link.String
      (ucanConclude.stored (clock1 2) alloc
        { issuer := s1.ID.did, ran := some link, out := { site := resp1.Site } } rcpt1)).1,
    (s2.State.PutReceipt st2 link.String
      (ucanConclude.stored (clock2 2) alloc
        { issuer := s1.ID.did, ran := some link, out := { site := resp1.Site } } rcpt2)).1,
    ?_, ?_, rfl, rfl, rfl, ?_⟩
  · simp [acknowledge]
  · simp [acknowledge]
  · intro herr
    exact hback st2 _ _ _ (Prod.ext herr rfl)

/-- The concluded receipt of the small deployment is an `http/put` one. -/
theorem demo_isPut :
    ucanConclude.IsPut demoLib { cid := "bafy-put-receipt" } demoConcludeInv demoPutInv
      demoPutInv_body := by
  refine ⟨_, _, _, _, rfl, ?_, rfl, rfl, rfl, rfl⟩
  simp [Ran.Invocation]

/-- The storage node of the small deployment accepts, with the site
`bafy-location-claim`, at any time. -/
theorem demo_Accept (now : Nat) :
    ∃ rcpt, demoClient.Accept demoLib now
        (ucanConclude.req demoLib demoAllocation demoPutInv_body demoPutInv)
      = .ok ({ Site := some { cid := "bafy-location-claim" } }, rcpt) := by
  simp [ucanConclude.req, demoLib, demoClient, demoPutInv, demoPutInv_body, demoAllocation,
    demoBlob, Client.Accept, Client.fetchDelegationOpts, Invoke, collectFacts, optFacts,
    optProofs, hasNoExpiration, Response.Get, Out.Unwrap, Node.LookupByString, Node.AsLink]

/-- C17 on the small deployment: the conclude is submitted at time 1000 and
again, on the store the first run left, at time 2000. -/
theorem ucanConclude_twice_same_receipt_witness :
    (ucanConclude demoLib demoService demoClock { cid := "bafy-put-receipt" } demoConcludeInv
      demoStore).outcome = .ok {} none ∧
    (ucanConclude demoLib demoService demoLaterClock { cid := "bafy-put-receipt" }
      demoConcludeInv
      (ucanConclude demoLib demoService demoClock { cid := "bafy-put-receipt" }
        demoConcludeInv demoStore).store).outcome = .ok {} none ∧
    ∃ stored1 stored2 err1 err2,
      Event.PutReceipt "bafy-accept" stored1 err1 ∈
        (ucanConclude demoLib demoService demoClock { cid := "bafy-put-receipt" }
          demoConcludeInv demoStore).calls ∧
      Event.PutReceipt "bafy-accept" stored2 err2 ∈
        (ucanConclude demoLib demoService demoLaterClock { cid := "bafy-put-receipt" }
          demoConcludeInv
          (ucanConclude demoLib demoService demoClock { cid := "bafy-put-receipt" }
            demoConcludeInv demoStore).store).calls ∧
      stored1.Receipt
        = { issuer := demoSigner.did, ran := some { cid := "bafy-accept" }
            out := { site := some { cid := "bafy-location-claim" } } } ∧
      stored2.Receipt = stored1.Receipt ∧
      stored2.Task = stored1.Task ∧
      (err2 = none →
        (Store.asStateStore 0).GetReceipt
          (ucanConclude demoLib demoService demoLaterClock { cid := "bafy-put-receipt" }
            demoConcludeInv
            (ucanConclude demoLib demoService demoClock { cid := "bafy-put-receipt" }
              demoConcludeInv demoStore).store).store "bafy-accept"
          = .ok (some stored2)) := by
  obtain ⟨r1, ha1⟩ := demo_Accept (demoClock 0)
  obtain ⟨r2, ha2⟩ := demo_Accept (demoLaterClock 0)
  have hget1 : demoService.State.GetAllocation demoStore (hexEncode demoPutInv_body.digest)
      = .ok (some demoAllocation) := by
    simp [demoService, demoStore, demoPutInv_body, Store.asStateStore, Store.PutAllocation,
      Store.GetAllocation, NewStore]
  have hrun1 := ucanConclude_reaches_store demoLib demoService demoClock
    { cid := "bafy-put-receipt" } demoConcludeInv demoStore demoPutInv demoPutInv_body
    demoAllocation demoClient _ r1 { cid := "bafy-accept" } _ demo_isPut (by decide) hget1 rfl
    ha1 rfl rfl
  have hget2 : demoService.State.GetAllocation
      (ucanConclude demoLib demoService demoClock { cid := "bafy-put-receipt" } demoConcludeInv
        demoStore).store (hexEncode demoPutInv_body.digest) = .ok (some demoAllocation) := by
    rw [hrun1]
    simp [acknowledge, demoService, demoStore, demoPutInv_body, Store.asStateStore,
      Store.PutAllocation, Store.PutReceipt, Store.GetAllocation, NewStore]
  exact ucanConclude_twice_same_receipt demoLib demoService demoService demoClock
    demoLaterClock { cid := "bafy-put-receipt" } demoConcludeInv demoStore _ demoPutInv
    demoPutInv_body demoAllocation demoClient demoClient _ _ r1 r2 { cid := "bafy-accept" } rfl
    demo_isPut (by decide) hget1 hget2 rfl rfl rfl ha1 ha2 rfl rfl
    (fun st k r st3 h => Store.GetReceipt_PutReceipt 0 st k r st3 h)

/-- The storage node of the small deployment that moved accepts with the site
`bafy-location-claim-moved`. -/
theorem demo_Accept_moved (now : Nat) :
    ∃ rcpt, demoMovedClient.Accept demoLib now
        (ucanConclude.req demoLib demoAllocation demoPutInv_body demoPutInv)
      = .ok ({ Site := some { cid := "bafy-location-claim-moved" } }, rcpt) := by
  simp [ucanConclude.req, demoLib, demoMovedClient, demoClient, demoPutInv, demoPutInv_body,
    demoAllocation, demoBlob, Client.Accept, Client.fetchDelegationOpts, Invoke, collectFacts,
    optFacts, optProofs, hasNoExpiration, Response.Get, Out.Unwrap, Node.LookupByString,
    Node.AsLink]

/-- C16, as stated, fails: the conclude of the small deployment stores a
receipt with the site `bafy-location-claim` under `bafy-accept`; the same
conclude again, the storage node now answering with the site
`bafy-location-claim-moved`, stores another receipt under that key, and
`GetReceipt` returns the second. -/
theorem stored_receipt_replaced :
    ∃ stored1 stored2,
      (Store.asStateStore 0).GetReceipt
        (ucanConclude demoLib demoService demoClock { cid := "bafy-put-receipt" }
          demoConcludeInv demoStore).store "bafy-accept" = .ok (some stored1) ∧
      (Store.asStateStore 0).GetReceipt
        (ucanConclude demoLib demoServiceMoved demoLaterClock { cid := "bafy-put-receipt" }
          demoConcludeInv
          (ucanConclude demoLib demoService demoClock { cid := "bafy-put-receipt" }
            demoConcludeInv demoStore).store).store "bafy-accept" = .ok (some stored2) ∧
      stored1.Receipt.out.site = some { cid := "bafy-location-claim" } ∧
      stored2.Receipt.out.site = some { cid := "bafy-location-claim-moved" } ∧
      stored2.Receipt ≠ stored1.Receipt := by
  obtain ⟨r1, ha1⟩ := demo_Accept (demoClock 0)
  obtain ⟨r2, ha2⟩ := demo_Accept_moved (demoLaterClock 0)
  have hget1 : demoService.State.GetAllocation demoStore (hexEncode demoPutInv_body.digest)
      = .ok (some demoAllocation) := by
    simp [demoService, demoStore, demoPutInv_body, Store.asStateStore, Store.PutAllocation,
      Store.GetAllocation, NewStore]
  have hrun1 := ucanConclude_reaches_store demoLib demoService demoClock
    { cid := "bafy-put-receipt" } demoConcludeInv demoStore demoPutInv demoPutInv_body
    demoAllocation demoClient _ r1 { cid := "bafy-accept" } _ demo_isPut (by decide) hget1 rfl
    ha1 rfl rfl
  have hget2 : demoServiceMoved.State.GetAllocation
      (ucanConclude demoLib demoService demoClock { cid := "bafy-put-receipt" } demoConcludeInv
        demoStore).store (hexEncode demoPutInv_body.digest) = .ok (some demoAllocation) := by
    rw [hrun1]
    simp [acknowledge, demoServiceMoved, demoService, demoStore, demoPutInv_body,
      Store.asStateStore, Store.PutAllocation, Store.PutReceipt, Store.GetAllocation, NewStore]
  have hrun2 := ucanConclude_reaches_store demoLib demoServiceMoved demoLaterClock
    { cid := "bafy-put-receipt" } demoConcludeInv _ demoPutInv demoPutInv_body
    demoAllocation demoMovedClient _ r2 { cid := "bafy-accept" } _ demo_isPut (by decide) hget2
    rfl ha2 rfl rfl
  rw [hrun2, hrun1]
  refine ⟨_, _, rfl, rfl, rfl, rfl, ?_⟩
  simp [ucanConclude.stored]

/-- Storing an allocation leaves the receipts as they are. -/
theorem Store.PutAllocation_receipts (st : Store) (k : String) (a : Allocation) :
    (st.PutAllocation k a).2.receipts = st.receipts := rfl

/-- A run of `space/blob/add` over the in-memory store leaves the receipts as
they are. -/
theorem spaceBlobAdd_receipts (order : Nat) (lib : Lib) (s : Service Store)
    (hs : s.State = Store.asStateStore order) (blobProvider : Signer) (clock : Nat → Nat)
    (capWith : String) (blobInfo : Blob) (inv : Invocation) (iCtxID : Signer) (st : Store) :
    (spaceBlobAdd lib s blobProvider clock capWith blobInfo inv iCtxID st).store.receipts
      = st.receipts := by
  cases spaceBlobAdd_exit lib s blobProvider clock capWith blobInfo inv iCtxID st with
  | slice hlen hrun => rw [hrun]
  | invalidDID e hlen hdid hrun => rw [hrun]
  | clientError spaceDID e hlen hdid hclient hrun => rw [hrun]
  | noProvider spaceDID hlen hdid hclient hrun => rw [hrun]
  | allocateFailed spaceDID piriClient e hlen hdid hclient hallocate hrun => rw [hrun]
  | storeFailed spaceDID piriClient allocResp allocateInv allocateRcpt e st1 hlen hdid hclient
      hallocate hstore hrun =>
    rw [hrun]
    rw [hs] at hstore
    simp [Store.asStateStore, Store.PutAllocation] at hstore
  | invokeFailed spaceDID piriClient allocResp allocateInv allocateRcpt st1 e hlen hdid hclient
      hallocate hstore hinvoke hrun =>
    obtain ⟨message, hrun⟩ := hrun
    rw [hrun]
    rw [hs] at hstore
    simp only [Store.asStateStore, Store.PutAllocation, Prod.mk.injEq, true_and] at hstore
    rw [← hstore]
  | updated spaceDID piriClient allocResp allocateInv allocateRcpt st1 httpPutInv acceptInv err
      st2 hlen hdid hclient hallocate hstore hput haccept hupdate hrun =>
    obtain ⟨outcome, hrun, _⟩ := hrun
    rw [hrun]
    rw [hs] at hstore hupdate
    simp only [Store.asStateStore, Store.PutAllocation, Prod.mk.injEq, true_and] at hstore
    simp only [Store.asStateStore, Store.PutAllocation, Prod.mk.injEq] at hupdate
    rw [← hupdate.2, ← hstore]

/-- C16, amended. Over the in-memory store a receipt stays under its key until
the next `PutReceipt` under that key, which replaces it. `PutAllocation` and
`DeleteAllocation` calls, a `PutReceipt` under another key, a run of
`space/blob/add` and a run of `space/index/add` leave what `GetReceipt(k)`
returns; `PutReceipt(k, r)` makes it return `r`; a run of `ucan/conclude`
leaves it, or it called `PutReceipt` under `k` and `GetReceipt(k)` returns the
record of that call. -/
theorem Store.receipt_kept_until_rewritten (order : Nat) (lib : Lib) (s : Service Store)
    (hs : s.State = Store.asStateStore order) (st : Store) (k : String) :
    (∀ ops, (st.applyOps ops).GetReceipt k = st.GetReceipt k) ∧
    (∀ k2 r, k2 ≠ k → (st.PutReceipt k2 r).2.GetReceipt k = st.GetReceipt k) ∧
    (∀ r, (st.PutReceipt k r).2.GetReceipt k = .ok (some r)) ∧
    (∀ blobProvider clock capWith blobInfo inv iCtxID,
      (spaceBlobAdd lib s blobProvider clock capWith blobInfo inv iCtxID st).store.GetReceipt k
        = st.GetReceipt k) ∧
    (∀ clock capWith index content inv,
      (spaceIndexAdd lib s clock capWith index content inv st).store = st) ∧
    (∀ clock receiptLink inv,
      (ucanConclude lib s clock receiptLink inv st).store.GetReceipt k = st.GetReceipt k ∨
      ∃ stored,
        Event.PutReceipt k stored none ∈ (ucanConclude lib s clock receiptLink inv st).calls ∧
        (ucanConclude lib s clock receiptLink inv st).store.GetReceipt k
          = .ok (some stored)) := by
  refine ⟨?_, ?_, ?_, ?_, ?_, ?_⟩
  · intro ops
    simp [Store.GetReceipt, Store.applyOps_receipts]
  · intro k2 r hne
    simp [Store.GetReceipt, Store.PutReceipt, Ne.symm hne]
  · intro r
    simp [Store.GetReceipt, Store.PutReceipt]
  · intro blobProvider clock capWith blobInfo inv iCtxID
    simp [Store.GetReceipt, spaceBlobAdd_receipts order lib s hs]
  · intro clock capWith index content inv
    unfold spaceIndexAdd
    cases s.IndexerClient <;> rfl
  · intro clock receiptLink inv
    cases ucanConclude_exit lib s clock receiptLink inv st with
    | notPut hrun => left; rw [hrun]; rfl
    | slice ranInv body hput hlen hrun => left; rw [hrun]
    | lookupFailed ranInv body e hput hlen hget hrun => left; rw [hrun]; rfl
    | noAllocation ranInv body hput hlen hget hrun => left; rw [hrun]; rfl
    | clientError ranInv body alloc e hput hlen hget hclient hrun => left; rw [hrun]; rfl
    | noProvider ranInv body alloc hput hlen hget hclient hrun => left; rw [hrun]; rfl
    | acceptFailed ranInv body alloc piriClient e hput hlen hget hclient haccept hrun =>
      left; rw [hrun]; rfl
    | issueFailed ranInv body alloc piriClient acceptResp piriRcpt e hput hlen hget hclient
        haccept hissue hrun => left; rw [hrun]; rfl
    | nilLink ranInv body alloc piriClient acceptResp piriRcpt reissuedRcpt hput hlen hget
        hclient haccept hissue hlink hrun => left; rw [hrun]
    | stored ranInv body alloc piriClient acceptResp piriRcpt reissuedRcpt link err st1 hput
        hlen hget hclient haccept hissue hlink hstore hrun =>
      rw [hrun]
      rw [hs] at hstore
      simp only [Store.asStateStore, Store.PutReceipt, Prod.mk.injEq] at hstore
      obtain ⟨herr, hst⟩ := hstore
      subst herr hst
      by_cases hk : link.String = k
      · right
        subst hk
        exact ⟨ucanConclude.stored (clock 2) alloc reissuedRcpt piriRcpt,
          by simp [acknowledge], by simp [acknowledge, Store.GetReceipt]⟩
      · left
        simp [acknowledge, Store.GetReceipt, Ne.symm hk]

/-- C16, amended, on the small deployment: the conclude replaces what
`GetReceipt` returned under `bafy-accept`, nothing there before, by the record
it stored. -/
theorem Store.receipt_kept_until_rewritten_witness :
    demoStore.GetReceipt "bafy-accept" = .ok none ∧
    ∃ stored,
      Event.PutReceipt "bafy-accept" stored none ∈
        (ucanConclude demoLib demoService demoClock { cid := "bafy-put-receipt" }
          demoConcludeInv demoStore).calls ∧
      (ucanConclude demoLib demoService demoClock { cid := "bafy-put-receipt" }
        demoConcludeInv demoStore).store.GetReceipt "bafy-accept" = .ok (some stored) := by
  have h0 : demoStore.GetReceipt "bafy-accept" = .ok none := by
    simp [demoStore, Store.GetReceipt, Store.PutAllocation, NewStore]
  refine ⟨h0, ?_⟩
  rcases (Store.receipt_kept_until_rewritten 0 demoLib demoService rfl demoStore
    "bafy-accept").2.2.2.2.2 demoClock { cid := "bafy-put-receipt" } demoConcludeInv with h | h
  · exfalso
    obtain ⟨stored, hmem⟩ := demo_ucanConclude_stores
    obtain ⟨r1, ha1⟩ := demo_Accept (demoClock 0)
    have hget1 : demoService.State.GetAllocation demoStore (hexEncode demoPutInv_body.digest)
        = .ok (some demoAllocation) := by
      simp [demoService, demoStore, demoPutInv_body, Store.asStateStore, Store.PutAllocation,
        Store.GetAllocation, NewStore]
    have hrun1 := ucanConclude_reaches_store demoLib demoService demoClock
      { cid := "bafy-put-receipt" } demoConcludeInv demoStore demoPutInv demoPutInv_body
      demoAllocation demoClient _ r1 { cid := "bafy-accept" } _ demo_isPut (by decide) hget1
      rfl ha1 rfl rfl
    rw [hrun1, h0] at h
    simp [acknowledge, demoService, Store.asStateStore, Store.PutReceipt, Store.GetReceipt,
      Link.String] at h
  · exact h

/-- The blocks `Invoke` gives the delegation: those of its proofs. -/
theorem Invoke_ok_blocks (lib : Lib) (now : Nat) (issuer : Signer) (audience : DID)
    (can resource : String) (nb : Caveats) (opts : List DelegationOption) (d : Delegation)
    (h : Invoke lib now issuer audience can resource nb opts = .ok d) :
    d.blocks = (optProofs opts).flatMap fun p => p.blocks := by
  unfold Invoke at h
  split at h
  · simp at h
  · simp only at h
    split at h
    · simp at h
    · simp only [Except.ok.injEq] at h
      subst h
      rfl

/-- C21, as stated, fails: given the agent's retrieval delegation, the
delegation `PublishIndexClaim` issues to the indexer has the link of that
delegation among its proofs, and carries its blocks. -/
theorem indexerDelegation_carries_client_proof :
    ∃ indexerDelegation,
      IndexerClient.PublishIndexClaim.indexerDelegation demoLib 1000 demoIndexer
        "did:key:zSpace" demoRetrievalAuth = .ok indexerDelegation ∧
      demoLib.link demoRetrievalAuth ∈ indexerDelegation.proofs ∧
      indexerDelegation.blocks = demoRetrievalAuth.blocks := by
  simp [IndexerClient.PublishIndexClaim.indexerDelegation, Invoke, collectFacts, optFacts,
    optProofs, hasNoExpiration, demoLib, demoRetrievalAuth, demoIndexer]

/-- C21, amended. The delegation `PublishIndexClaim` issues from the upload
service to the indexer, given a client retrieval delegation, has the caveats
read from the client's first capability, the space as resource, no expiration,
and the client's delegation as its one proof: the link of the client's
delegation is its proof list and the client's blocks, its proof chain, travel
with it. -/
theorem IndexerClient.PublishIndexClaim.indexerDelegation_proofs (lib : Lib) (now : Nat)
    (c : IndexerClient) (spaceDID : String) (clientAuth : Delegation)
    (indexerDelegation : Delegation)
    (h : IndexerClient.PublishIndexClaim.indexerDelegation lib now c spaceDID clientAuth
      = .ok indexerDelegation) :
    (∃ cap0 rest origCaveats,
      clientAuth.capabilities = cap0 :: rest ∧
      lib.readRetrieveCaveats cap0.nb = .ok origCaveats ∧
      indexerDelegation.capabilities =
        [{ can := RetrieveAbility, resource := spaceDID, nb := .retrieve origCaveats }]) ∧
    indexerDelegation.issuer = c.signer.did ∧
    indexerDelegation.audience = c.indexerDID ∧
    indexerDelegation.expiration = none ∧
    indexerDelegation.proofs = [lib.link clientAuth] ∧
    indexerDelegation.blocks = clientAuth.blocks := by
  unfold IndexerClient.PublishIndexClaim.indexerDelegation at h
  simp only at h
  split at h
  · simp at h
  rename_i cap0 rest hcaps
  split at h
  · simp at h
  rename_i origCaveats hread
  split at h
  · simp at h
  rename_i d hd
  simp only [Except.ok.injEq] at h
  subst h
  obtain ⟨hi, ha, hc, hp, he, -⟩ := Invoke_ok _ _ _ _ _ _ _ _ _ hd
  have hb := Invoke_ok_blocks _ _ _ _ _ _ _ _ _ hd
  exact ⟨⟨cap0, rest, origCaveats, hcaps, hread, hc⟩, hi, ha,
    by simpa [hasNoExpiration] using he, by simpa [optProofs] using hp,
    by simpa [optProofs] using hb⟩

/-- C21, amended, for the indexer of the small deployment and the agent's
retrieval delegation. -/
theorem IndexerClient.PublishIndexClaim.indexerDelegation_proofs_witness :
    ∃ indexerDelegation,
      IndexerClient.PublishIndexClaim.indexerDelegation demoLib 1000 demoIndexer
        "did:key:zSpace" demoRetrievalAuth = .ok indexerDelegation ∧
      indexerDelegation.proofs = [demoLib.link demoRetrievalAuth] ∧
      indexerDelegation.capabilities =
        [{ can := RetrieveAbility, resource := "did:key:zSpace"
           nb := .retrieve (.map [("blob", .bytes [18, 32])]) }] := by
  have h : ∃ indexerDelegation,
      IndexerClient.PublishIndexClaim.indexerDelegation demoLib 1000 demoIndexer
        "did:key:zSpace" demoRetrievalAuth = .ok indexerDelegation := by
    simp [IndexerClient.PublishIndexClaim.indexerDelegation, Invoke, collectFacts, optFacts,
      optProofs, hasNoExpiration, demoLib, demoRetrievalAuth, demoIndexer]
  obtain ⟨d, h⟩ := h
  obtain ⟨⟨cap0, rest, origCaveats, hcaps, hread, hc⟩, -, -, -, hp, -⟩ :=
    IndexerClient.PublishIndexClaim.indexerDelegation_proofs demoLib 1000 demoIndexer
      "did:key:zSpace" demoRetrievalAuth d h
  refine ⟨d, h, hp, ?_⟩
  rw [hc]
  simp only [demoRetrievalAuth, List.cons.injEq] at hcaps
  obtain ⟨rfl, -⟩ := hcaps
  simp only [demoLib, Except.ok.injEq] at hread
  subst hread
  rfl

/-- C22 at a short digest. `space/blob/replicate` for the three-byte digest
of the identity multihash of one byte, held in a slice of capacity three,
aborts on the log slice `blob.Digest[:8]`. For every digest of eight bytes or
more it returns ok with the empty payload, no effects and no calls, the store
untouched, whatever the replica count; `access/delegate` does so for every
invocation. -/
theorem spaceBlobReplicate_short_digest :
    (spaceBlobReplicate "did:key:zSpace" { digest := [0, 1, 97], size := 1 } 3 2
      NewStore).outcome = .panic ∧
    (∀ (σ : Type) (capWith : String) (blob : Blob) (digestCap replicas : Nat) (st : σ),
      8 ≤ max blob.digest.length digestCap →
      spaceBlobReplicate capWith blob digestCap replicas st = ⟨.ok {} none, st, []⟩) ∧
    (∀ (σ : Type) (s : Service σ) (inv : Invocation) (delegations : DelegationsModel) (st : σ),
      accessDelegate s inv delegations st = ⟨.ok {} none, st, []⟩) := by
  refine ⟨by simp [spaceBlobReplicate], ?_, ?_⟩
  · intro σ capWith blob digestCap replicas st h
    have h2 : ¬ max blob.digest.length digestCap < 8 := by omega
    simp [spaceBlobReplicate, h2]
  · intro σ s inv delegations st
    rfl

/-- C23, as stated, fails: the allocation of `demoBlob` records the provider
`did:web:piri`; when `PiriClient` selects the node `did:web:other`, the
`blob/accept` of `ucan/conclude` goes to `did:web:other`. -/
theorem accept_sent_to_selected_node :
    (Store.asStateStore 0).GetAllocation demoStore (hexEncode demoBlob.digest)
      = .ok (some demoAllocation) ∧
    demoAllocation.PiriNode = "did:web:piri" ∧
    ∃ req err, Event.Accept { str := "did:web:other" } req err ∈
      (ucanConclude demoLib demoServiceOther demoClock { cid := "bafy-put-receipt" }
        demoConcludeInv demoStore).calls := by
  refine ⟨?_, rfl, ?_⟩
  · simp [demoStore, Store.asStateStore, Store.PutAllocation, Store.GetAllocation, NewStore]
  · simp [ucanConclude, ucanConclude.req, ucanConclude.cacheLocationClaim, ucanConclude.stored,
      acknowledge, receiptIssue, hexEncode_length, demoBlob, demoLib, demoServiceOther,
      demoOtherClient, demoService, demoClient,
      demoPutInv, demoConcludeInv, demoStore, demoAllocation, Ran.Invocation, PutAbility,
      Client.Accept, Client.fetchDelegationOpts, Client.PiriDID, Invoke, collectFacts, optFacts,
      optProofs, hasNoExpiration, Response.Get, Out.Unwrap, Store.asStateStore,
      Store.PutAllocation, Store.GetAllocation, Store.PutReceipt, Link.String, NewStore]

/-- C23, amended. `ucan/conclude` sends `blob/accept` to the storage node that
`PiriClient` selects during the run, whatever provider the allocation records:
whenever the run calls `Accept`, the node called is the one of the client
`PiriClient` returned, and the request carries the space of the allocation
found for the digest, the digest and size of the `http/put` body and the link
of the `http/put` invocation. -/
theorem ucanConclude_accept_node {σ : Type} (lib : Lib) (s : Service σ) (clock : Nat → Nat)
    (receiptLink : Link) (inv : Invocation) (st : σ) (node : DID) (req : AcceptRequest)
    (err : Option String)
    (h : Event.Accept node req err ∈ (ucanConclude lib s clock receiptLink inv st).calls) :
    ∃ piriClient alloc ranInv body,
      s.PiriClient = .ok (some piriClient) ∧
      node = piriClient.PiriDID ∧
      ucanConclude.IsPut lib receiptLink inv ranInv body ∧
      s.State.GetAllocation st (hexEncode body.digest) = .ok (some alloc) ∧
      req = { Space := alloc.Space, Digest := body.digest, Size := body.size
              Put := lib.link ranInv } := by
  have key : ∀ ranInv body alloc piriClient acceptResp piriRcpt,
      Event.Accept node req err ∈
        ucanConclude.accepted lib s clock ranInv body alloc piriClient acceptResp piriRcpt →
      node = piriClient.PiriDID ∧ req = ucanConclude.req lib alloc body ranInv := by
    intro ranInv body alloc piriClient acceptResp piriRcpt hm
    rcases ucanConclude.accepted_calls _ _ _ _ _ _ _ _ _ _ hm with h | h | h | ⟨_, _, _, h⟩
    · cases h
    · cases h
    · simp only [Event.Accept.injEq] at h
      exact ⟨h.1, h.2.1⟩
    · cases h
  cases ucanConclude_exit lib s clock receiptLink inv st with
  | notPut hrun => rw [hrun] at h; simp [acknowledge] at h
  | slice ranInv body hput hlen hrun => rw [hrun] at h; simp at h
  | lookupFailed ranInv body e hput hlen hget hrun => rw [hrun] at h; simp [acknowledge] at h
  | noAllocation ranInv body hput hlen hget hrun => rw [hrun] at h; simp [acknowledge] at h
  | clientError ranInv body alloc e hput hlen hget hclient hrun =>
    rw [hrun] at h; simp [acknowledge] at h
  | noProvider ranInv body alloc hput hlen hget hclient hrun =>
    rw [hrun] at h; simp [acknowledge] at h
  | acceptFailed ranInv body alloc piriClient e hput hlen hget hclient haccept hrun =>
    rw [hrun] at h
    simp only [acknowledge, List.mem_cons, List.mem_singleton, List.not_mem_nil, or_false,
      Event.Accept.injEq] at h
    rcases h with h | h | h
    · cases h
    · cases h
    · exact ⟨piriClient, alloc, ranInv, body, hclient, h.1, hput, hget, h.2.1⟩
  | issueFailed ranInv body alloc piriClient acceptResp piriRcpt e hput hlen hget hclient
      haccept hissue hrun =>
    rw [hrun] at h
    obtain ⟨h1, h2⟩ := key _ _ _ _ _ _ h
    exact ⟨piriClient, alloc, ranInv, body, hclient, h1, hput, hget, h2⟩
  | nilLink ranInv body alloc piriClient acceptResp piriRcpt reissuedRcpt hput hlen hget
      hclient haccept hissue hlink hrun =>
    rw [hrun] at h
    obtain ⟨h1, h2⟩ := key _ _ _ _ _ _ h
    exact ⟨piriClient, alloc, ranInv, body, hclient, h1, hput, hget, h2⟩
  | stored ranInv body alloc piriClient acceptResp piriRcpt reissuedRcpt link err1 st1 hput
      hlen hget hclient haccept hissue hlink hstore hrun =>
    rw [hrun] at h
    simp only [acknowledge, List.mem_append, List.mem_singleton] at h
    rcases h with h | h
    · obtain ⟨h1, h2⟩ := key _ _ _ _ _ _ h
      exact ⟨piriClient, alloc, ranInv, body, hclient, h1, hput, hget, h2⟩
    · cases h

/-- C23, amended, on the deployment where `PiriClient` selects the other
node. -/
theorem ucanConclude_accept_node_witness :
    ∃ req err, Event.Accept { str := "did:web:other" } req err ∈
        (ucanConclude demoLib demoServiceOther demoClock { cid := "bafy-put-receipt" }
          demoConcludeInv demoStore).calls ∧
      req.Space = { str := "did:key:zSpace" } := by
  have h : ∃ req err, Event.Accept { str := "did:web:other" } req err ∈
      (ucanConclude demoLib demoServiceOther demoClock { cid := "bafy-put-receipt" }
        demoConcludeInv demoStore).calls := by
    simp [ucanConclude, ucanConclude.req, ucanConclude.cacheLocationClaim, ucanConclude.stored,
      acknowledge, receiptIssue, hexEncode_length, demoBlob, demoLib, demoServiceOther,
      demoOtherClient, demoService, demoClient,
      demoPutInv, demoConcludeInv, demoStore, demoAllocation, Ran.Invocation, PutAbility,
      Client.Accept, Client.fetchDelegationOpts, Client.PiriDID, Invoke, collectFacts, optFacts,
      optProofs, hasNoExpiration, Response.Get, Out.Unwrap, Store.asStateStore,
      Store.PutAllocation, Store.GetAllocation, Store.PutReceipt, Link.String, NewStore]
  obtain ⟨req, err, h⟩ := h
  obtain ⟨piriClient, alloc, ranInv, body, -, -, hput, hget, hreq⟩ :=
    ucanConclude_accept_node _ _ _ _ _ _ _ _ _ h
  refine ⟨req, err, h, ?_⟩
  obtain ⟨rcpt, putCap, rest, putMatch, hr, hran, hcaps, hab, hm, rfl⟩ := hput
  simp only [demoLib, Except.ok.injEq] at hr
  subst hr
  simp [Ran.Invocation] at hran
  subst hran
  simp only [demoPutInv, List.cons.injEq] at hcaps
  obtain ⟨rfl, -⟩ := hcaps
  simp only [demoLib, Except.ok.injEq] at hm
  subst hm
  have hget2 : alloc = demoAllocation := by
    simpa [demoServiceOther, demoService, demoStore, demoBlob, Store.asStateStore,
      Store.PutAllocation, Store.GetAllocation, NewStore] using hget.symm
  rw [hreq, hget2]
  rfl

/-- The allocation between the two `PutAllocation` calls. The store holds the
allocation of `demoBlob` without its accept link; when `receipt.Issue` returns
a receipt for the nil link, as in `demoLib`, `ucan/conclude` for that blob
calls `Accept` on the storage node and then aborts on
`alloc.AcceptInvLink.String()`: it does not return ok. In general, for an
allocation found without its accept link the run makes no `PutReceipt` call,
leaves the store as it was, and either returns ok or aborts; it aborts exactly
when `Accept` succeeded and `receipt.Issue` returned a receipt for the nil
link. -/
theorem ucanConclude_pending_allocation :
    (Store.asStateStore 0).GetAllocation demoPendingStore (hexEncode demoBlob.digest)
      = .ok (some demoPendingAllocation) ∧
    demoPendingAllocation.AcceptInvLink = none ∧
    (ucanConclude demoLib demoService demoClock { cid := "bafy-put-receipt" } demoConcludeInv
      demoPendingStore).outcome = .panic ∧
    (∃ req, Event.Accept demoClient.PiriDID req none ∈
      (ucanConclude demoLib demoService demoClock { cid := "bafy-put-receipt" }
        demoConcludeInv demoPendingStore).calls) ∧
    (∀ (σ : Type) (lib : Lib) (s : Service σ) (clock : Nat → Nat) (receiptLink : Link)
      (inv : Invocation) (st : σ) (ranInv : Invocation) (body : Body) (alloc : Allocation),
      ucanConclude.IsPut lib receiptLink inv ranInv body →
      8 ≤ body.digest.length →
      s.State.GetAllocation st (hexEncode body.digest) = .ok (some alloc) →
      alloc.AcceptInvLink = none →
      (ucanConclude lib s clock receiptLink inv st).store = st ∧
      (∀ key stored err, Event.PutReceipt key stored err ∉
        (ucanConclude lib s clock receiptLink inv st).calls) ∧
      ((ucanConclude lib s clock receiptLink inv st).outcome = .panic ↔
        ∃ piriClient acceptResp piriRcpt reissuedRcpt,
          s.PiriClient = .ok (some piriClient) ∧
          piriClient.Accept lib (clock 0) (ucanConclude.req lib alloc body ranInv)
            = .ok (acceptResp, piriRcpt) ∧
          receiptIssue lib s.ID { site := acceptResp.Site } none = .ok reissuedRcpt) ∧
      ((ucanConclude lib s clock receiptLink inv st).outcome = .panic ∨
        (ucanConclude lib s clock receiptLink inv st).outcome = .ok {} none)) := by
  refine ⟨?_, rfl, ?_, ?_, ?_⟩
  · simp [demoPendingStore, Store.asStateStore, Store.PutAllocation, Store.GetAllocation,
      NewStore]
  · simp [ucanConclude, ucanConclude.req, ucanConclude.cacheLocationClaim, ucanConclude.stored,
      acknowledge, receiptIssue, hexEncode_length, demoBlob, demoLib, demoService, demoClient,
      demoPutInv, demoConcludeInv, demoPendingStore, demoPendingAllocation, demoAllocation,
      Ran.Invocation, PutAbility,
      Client.Accept, Client.fetchDelegationOpts, Invoke, collectFacts, optFacts, optProofs,
      hasNoExpiration, Response.Get, Out.Unwrap, Store.asStateStore, Store.PutAllocation,
      Store.GetAllocation, Store.PutReceipt, Link.String, NewStore]
  · simp [ucanConclude, ucanConclude.req, ucanConclude.cacheLocationClaim, ucanConclude.stored,
      acknowledge, receiptIssue, hexEncode_length, demoBlob, demoLib, demoService, demoClient,
      demoPutInv, demoConcludeInv, demoPendingStore, demoPendingAllocation, demoAllocation,
      Ran.Invocation, PutAbility, Client.PiriDID,
      Client.Accept, Client.fetchDelegationOpts, Invoke, collectFacts, optFacts, optProofs,
      hasNoExpiration, Response.Get, Out.Unwrap, Store.asStateStore, Store.PutAllocation,
      Store.GetAllocation, Store.PutReceipt, Link.String, NewStore]
  · intro σ lib s clock receiptLink inv st ranInv body alloc hput hlen hget hlink
    obtain ⟨rcpt, putCap, rest, putMatch, hr, hran, hcaps, hab, hm, rfl⟩ := hput
    have h16 : ¬ (hexEncode putMatch.body.digest).length < 16 := by
      rw [hexEncode_length]
      omega
    have hcache : ∀ piriClient acceptResp piriRcpt key stored err,
        Event.PutReceipt key stored err ∉
          ucanConclude.cacheLocationClaim lib (clock 1) s.IndexerClient piriClient acceptResp
            piriRcpt := by
      intro piriClient acceptResp piriRcpt key stored err hmem
      obtain ⟨_, _, _, h⟩ := ucanConclude.cacheLocationClaim_calls _ _ _ _ _ _ _ hmem
      cases h
    cases hc : s.PiriClient with
    | error e =>
      simp [ucanConclude, acknowledge, hr, hran, hcaps, hab, hm, h16, hget, hc]
    | ok oc =>
    cases oc with
    | none =>
      simp [ucanConclude, acknowledge, hr, hran, hcaps, hab, hm, h16, hget, hc]
    | some piriClient =>
    cases hacc : piriClient.Accept lib (clock 0)
        (ucanConclude.req lib alloc putMatch.body ranInv) with
    | error e =>
      simp [ucanConclude, acknowledge, hr, hran, hcaps, hab, hm, h16, hget, hc, hacc]
    | ok r =>
    obtain ⟨acceptResp, piriRcpt⟩ := r
    cases hi : receiptIssue lib s.ID { site := acceptResp.Site } none with
    | error e =>
      simp [ucanConclude, acknowledge, hr, hran, hcaps, hab, hm, h16, hget, hc, hacc, hlink,
        hi, hcache]
    | ok reissuedRcpt =>
      simp [ucanConclude, acknowledge, hr, hran, hcaps, hab, hm, h16, hget, hc, hacc, hlink,
        hi, hcache]

/-- An invocation issued without expiration does not depend on the time it is
issued at. -/
theorem Invoke_now (lib : Lib) (now later : Nat) (issuer : Signer) (audience : DID)
    (can resource : String) (nb : Caveats) (opts : List DelegationOption)
    (h : hasNoExpiration opts = true) :
    Invoke lib now issuer audience can resource nb opts
      = Invoke lib later issuer audience can resource nb opts := by
  simp [Invoke, h]

/-- The invocation `Client.Accept` issues and sends is `Client.Accept.inv` for
the options it fetched: a failure to issue it is the error of `Accept`, and so
is a failure of the connection to take it. -/
theorem Client.Accept_inv (lib : Lib) (now : Nat) (c : Client) (req : AcceptRequest)
    (opts : List DelegationOption) (hopts : c.fetchDelegationOpts = .ok opts) :
    (∀ e, Client.Accept.inv lib now c req opts = .error e →
      c.Accept lib now req = .error ("creating accept invocation: " ++ e)) ∧
    (∀ inv e, Client.Accept.inv lib now c req opts = .ok inv →
      c.connection [inv] = .error e →
      c.Accept lib now req = .error ("executing accept invocation: " ++ e)) := by
  refine ⟨?_, ?_⟩
  · intro e h
    unfold Client.Accept.inv at h
    simp [Client.Accept, hopts, h]
  · intro inv e h hconn
    unfold Client.Accept.inv at h
    simp [Client.Accept, hopts, h, hconn]

/-- C25, as stated, fails: when the delegation fetcher finds a delegation, the
`blob/accept` invocation of the storage-node client has it as proof, the one
`space/blob/add` builds for the same signer, node, space, blob and `http/put`
link has no proof, and their links differ. -/
theorem accept_invocations_differ :
    ∃ opts inv1 inv2,
      demoFetchingClient.fetchDelegationOpts = .ok opts ∧
      Client.Accept.inv demoLib 1000 demoFetchingClient
        { Space := { str := "did:key:zSpace" }, Digest := demoBlob.digest
          Size := demoBlob.size, Put := demoLib.link demoPutInv } opts = .ok inv1 ∧
      spaceBlobAdd.acceptInv demoLib 1003 demoFetchingClient.signer demoFetchingClient.piriDID
        { str := "did:key:zSpace" } demoBlob demoPutInv = .ok inv2 ∧
      inv1.proofs = [demoLib.link demoNodeDelegation] ∧
      inv2.proofs = [] ∧
      demoLib.link inv1 ≠ demoLib.link inv2 := by
  refine ⟨[.WithProof demoNodeDelegation], _, _, rfl, rfl, rfl, rfl, rfl, ?_⟩
  simp only [demoLib, demoFetchingClient, demoClient, demoNodeDelegation, demoSigner, optProofs,
    hasNoExpiration, AcceptAbility, DID.String, List.map, String.join, List.foldl,
    List.append, ne_eq, Link.mk.injEq]
  decide

/-- C25, amended. For the same service signer, node, space, digest, size and
`http/put` link, the `blob/accept` invocation of `Client.Accept` and the one
`space/blob/add` puts in the effects have the same issuer, audience and
capability, the same facts and no expiration. When the delegation fetcher
supplies no delegation they are the same invocation, so they have the same
link. When it supplies one, the invocation of `Client.Accept` carries it as
its proof, with its blocks, and the one of the effects has no proof. -/
theorem Client.Accept.inv_and_effect (lib : Lib) (now1 now2 : Nat) (c : Client)
    (spaceDID : DID) (blobInfo : Blob) (httpPutInv : Invocation)
    (opts : List DelegationOption) (inv1 inv2 : Invocation)
    (hopts : c.fetchDelegationOpts = .ok opts)
    (h1 : Client.Accept.inv lib now1 c
      { Space := spaceDID, Digest := blobInfo.digest, Size := blobInfo.size
        Put := lib.link httpPutInv } opts = .ok inv1)
    (h2 : spaceBlobAdd.acceptInv lib now2 c.signer c.piriDID spaceDID blobInfo httpPutInv
      = .ok inv2) :
    inv1.issuer = inv2.issuer ∧ inv1.audience = inv2.audience ∧
    inv1.capabilities = inv2.capabilities ∧ inv1.facts = inv2.facts ∧
    inv1.expiration = none ∧ inv2.expiration = none ∧ inv2.proofs = [] ∧
    ((opts = [] ∧ inv1 = inv2 ∧ lib.link inv1 = lib.link inv2) ∨
      ∃ proof, opts = [.WithProof proof] ∧ inv1.proofs = [lib.link proof] ∧
        inv1.blocks = proof.blocks) := by
  have hcases : opts = [] ∨ ∃ proof, opts = [.WithProof proof] := by
    unfold Client.fetchDelegationOpts at hopts
    split at hopts
    · split at hopts
      · simp at hopts
      · simp only [Except.ok.injEq] at hopts
        exact .inr ⟨_, hopts.symm⟩
      · simp only [Except.ok.injEq] at hopts
        exact .inl hopts.symm
    · simp only [Except.ok.injEq] at hopts
      exact .inl hopts.symm
  unfold Client.Accept.inv at h1
  unfold spaceBlobAdd.acceptInv at h2
  obtain ⟨i1, a1, c1, p1, e1, f1⟩ := Invoke_ok _ _ _ _ _ _ _ _ _ h1
  obtain ⟨i2, a2, c2, p2, e2, f2⟩ := Invoke_ok _ _ _ _ _ _ _ _ _ h2
  have b1 := Invoke_ok_blocks _ _ _ _ _ _ _ _ _ h1
  rw [hasNoExpiration_append] at e1
  simp only [hasNoExpiration, if_true] at e2
  simp only [if_true] at e1
  rcases hcases with rfl | ⟨proof, rfl⟩
  · simp only [List.nil_append] at h1
    rw [Invoke_now lib now1 now2 _ _ _ _ _ [.WithNoExpiration] rfl] at h1
    rw [h1] at h2
    simp only [Except.ok.injEq] at h2
    subst h2
    exact ⟨rfl, rfl, rfl, rfl, e1, e1, by simpa [optProofs] using p1, .inl ⟨rfl, rfl, rfl⟩⟩
  · simp only [optFacts, collectFacts, List.cons_append, List.nil_append, Except.ok.injEq]
      at f1 f2
    exact ⟨i1.trans i2.symm, a1.trans a2.symm, c1.trans c2.symm, f1.symm.trans f2, e1, e2,
      by simpa [optProofs] using p2,
      .inr ⟨proof, rfl, by simpa [optProofs] using p1, by simpa [optProofs] using b1⟩⟩

/-- C25, amended, for the storage-node client of the small deployment, which
has no delegation fetcher: one invocation, built at two times. -/
theorem Client.Accept.inv_and_effect_witness :
    ∃ inv,
      Client.Accept.inv demoLib 1000 demoClient
        { Space := { str := "did:key:zSpace" }, Digest := demoBlob.digest
          Size := demoBlob.size, Put := demoLib.link demoPutInv } [] = .ok inv ∧
      spaceBlobAdd.acceptInv demoLib 2003 demoClient.signer demoClient.piriDID
        { str := "did:key:zSpace" } demoBlob demoPutInv = .ok inv := by
  have h1 : ∃ inv, Client.Accept.inv demoLib 1000 demoClient
      { Space := { str := "did:key:zSpace" }, Digest := demoBlob.digest
        Size := demoBlob.size, Put := demoLib.link demoPutInv } [] = .ok inv := ⟨_, rfl⟩
  have h2 : ∃ inv, spaceBlobAdd.acceptInv demoLib 2003 demoClient.signer demoClient.piriDID
      { str := "did:key:zSpace" } demoBlob demoPutInv = .ok inv := ⟨_, rfl⟩
  obtain ⟨inv1, h1⟩ := h1
  obtain ⟨inv2, h2⟩ := h2
  have h := Client.Accept.inv_and_effect demoLib 1000 2003 demoClient
    { str := "did:key:zSpace" } demoBlob demoPutInv [] inv1 inv2 rfl h1 h2
  rcases h.2.2.2.2.2.2.2 with ⟨-, heq, -⟩ | ⟨proof, hp, -⟩
  · exact ⟨inv1, h1, heq ▸ h2⟩
  · cases hp

/-- The upload URL `space/blob/add` chooses: the URL of the address, when the
node returned one; otherwise the endpoint of the provider `GetFirstProvider`
answers with, nil when it answers nil or fails. -/
theorem spaceBlobAdd.uploadURL_fst {σ : Type} (State : StateStore σ) (st : σ)
    (allocResp : AllocateResponse) :
    (∀ address, allocResp.Address = some address →
      (spaceBlobAdd.uploadURL State st allocResp).1 = some address.url) ∧
    (allocResp.Address = none →
      (∀ firstProvider, State.GetFirstProvider st = .ok (some firstProvider) →
        (spaceBlobAdd.uploadURL State st allocResp).1 = firstProvider.Endpoint) ∧
      (State.GetFirstProvider st = .ok none →
        (spaceBlobAdd.uploadURL State st allocResp).1 = none) ∧
      (∀ e, State.GetFirstProvider st = .error e →
        (spaceBlobAdd.uploadURL State st allocResp).1 = none)) := by
  refine ⟨?_, ?_⟩
  · intro address h
    simp [spaceBlobAdd.uploadURL, h]
  · intro h
    refine ⟨?_, ?_, ?_⟩
    · intro p hp
      simp [spaceBlobAdd.uploadURL, h, hp]
    · intro hp
      simp [spaceBlobAdd.uploadURL, h, hp]
    · intro e hp
      simp [spaceBlobAdd.uploadURL, h, hp]

/-- C26, as stated, fails: the node `did:web:piri` is chosen for the
allocation and its allocate result has no address; the store's providers are
`did:web:other` and `did:web:piri`, the range meeting `did:web:other` first.
The allocation records `did:web:piri` as its node and the endpoint of
`did:web:other` as its upload URL, not the endpoint of `did:web:piri`. -/
theorem uploadURL_of_first_provider :
    ∃ alloc err,
      Event.PutAllocation (hexEncode demoBlob.digest) alloc err ∈
        (spaceBlobAdd demoLibPresent demoService demoBlobProvider demoClock "did:key:zSpace"
          demoBlob demoAddInv demoSigner demoProviderStore).calls ∧
      alloc.PiriNode = "did:web:piri" ∧
      alloc.UploadURL = some "http://other:3000" ∧
      demoProviderStore.providers.lookup "did:web:piri"
        = some { DID := "did:web:piri", Endpoint := some "http://piri:3000" } := by
  refine ⟨spaceBlobAdd.alloc demoLibPresent (demoClock 1) { str := "did:key:zSpace" } demoBlob
    demoAddInv demoClient (some "http://other:3000"), none, ?_, rfl, rfl, by decide⟩
  simp [spaceBlobAdd, spaceBlobAdd.req, spaceBlobAdd.alloc, spaceBlobAdd.uploadURL,
    spaceBlobAdd.httpPutInv, spaceBlobAdd.acceptInv, spaceBlobAdd.concludeInv,
    hexEncode_length, demoBlob, demoLibPresent, demoLib, demoService, demoClient,
    Client.Allocate, Client.PiriDID, demoProviderStore, Store.GetFirstProvider,
    Client.fetchDelegationOpts, Invoke, collectFacts, optFacts, optProofs, hasNoExpiration,
    httpPutFact.ToIPLD, Response.Get, Out.Unwrap, attachBlocks, Store.asStateStore,
    Store.PutAllocation, Allocation.setAcceptInvLink, NewStore]

/-- C26, amended. In every allocation `space/blob/add` stores, the recorded
node is the one `PiriClient` selected. When the node's allocate result has an
address the upload URL is that address's URL; when it has none the upload URL
is the endpoint of the provider `GetFirstProvider` answers with, whichever node
was selected, and nil when `GetFirstProvider` finds no provider or fails. -/
theorem spaceBlobAdd_uploadURL {σ : Type} (lib : Lib) (s : Service σ) (blobProvider : Signer)
    (clock : Nat → Nat) (capWith : String) (blobInfo : Blob) (inv : Invocation)
    (iCtxID : Signer) (st : σ) (key : String) (alloc : Allocation) (err : Option String)
    (h : Event.PutAllocation key alloc err ∈
      (spaceBlobAdd lib s blobProvider clock capWith blobInfo inv iCtxID st).calls) :
    ∃ spaceDID piriClient allocResp allocateInv allocateRcpt,
      s.PiriClient = .ok (some piriClient) ∧
      piriClient.Allocate lib (clock 0) (spaceBlobAdd.req lib spaceDID blobInfo inv)
        = .ok (allocResp, allocateInv, allocateRcpt) ∧
      key = hexEncode blobInfo.digest ∧
      alloc.PiriNode = piriClient.PiriDID.String ∧
      (∀ address, allocResp.Address = some address → alloc.UploadURL = some address.url) ∧
      (allocResp.Address = none →
        (∀ firstProvider, s.State.GetFirstProvider st = .ok (some firstProvider) →
          alloc.UploadURL = firstProvider.Endpoint) ∧
        (s.State.GetFirstProvider st = .ok none → alloc.UploadURL = none) ∧
        (∀ e, s.State.GetFirstProvider st = .error e → alloc.UploadURL = none)) := by
  have hpre : ∀ spaceDID piriClient allocResp,
      Event.PutAllocation key alloc err ∉
        spaceBlobAdd.allocated lib s blobInfo inv st spaceDID piriClient allocResp := by
    intro spaceDID piriClient allocResp hm
    rcases spaceBlobAdd.allocated_calls _ _ _ _ _ _ _ _ _ hm with h | h | ⟨_, h⟩ <;> cases h
  have hrec : ∀ spaceDID piriClient allocResp,
      (spaceBlobAdd.record lib s clock blobInfo inv st spaceDID piriClient allocResp).PiriNode
        = piriClient.PiriDID.String ∧
      (spaceBlobAdd.record lib s clock blobInfo inv st spaceDID piriClient allocResp).UploadURL
        = (spaceBlobAdd.uploadURL s.State st allocResp).1 := fun _ _ _ => ⟨rfl, rfl⟩
  have hurl := spaceBlobAdd.uploadURL_fst s.State st
  cases spaceBlobAdd_exit lib s blobProvider clock capWith blobInfo inv iCtxID st with
  | slice hlen hrun => rw [hrun] at h; simp at h
  | invalidDID e hlen hdid hrun => rw [hrun] at h; simp at h
  | clientError spaceDID e hlen hdid hclient hrun => rw [hrun] at h; simp at h
  | noProvider spaceDID hlen hdid hclient hrun => rw [hrun] at h; simp at h
  | allocateFailed spaceDID piriClient e hlen hdid hclient hallocate hrun =>
    rw [hrun] at h; simp at h
  | storeFailed spaceDID piriClient allocResp allocateInv allocateRcpt e st1 hlen hdid hclient
      hallocate hstore hrun =>
    rw [hrun] at h
    simp only [List.mem_append, List.mem_singleton] at h
    rcases h with h | h
    · exact absurd h (hpre _ _ _)
    · simp only [Event.PutAllocation.injEq] at h
      obtain ⟨rfl, rfl, -⟩ := h
      refine ⟨spaceDID, piriClient, allocResp, allocateInv, allocateRcpt, hclient, hallocate,
        rfl, rfl, ?_⟩
      rw [(hrec spaceDID piriClient allocResp).2]
      exact hurl allocResp
  | invokeFailed spaceDID piriClient allocResp allocateInv allocateRcpt st1 e hlen hdid hclient
      hallocate hstore hinvoke hrun =>
    obtain ⟨message, hrun⟩ := hrun
    rw [hrun] at h
    simp only [List.mem_append, List.mem_singleton] at h
    rcases h with h | h
    · exact absurd h (hpre _ _ _)
    · simp only [Event.PutAllocation.injEq] at h
      obtain ⟨rfl, rfl, -⟩ := h
      refine ⟨spaceDID, piriClient, allocResp, allocateInv, allocateRcpt, hclient, hallocate,
        rfl, rfl, ?_⟩
      rw [(hrec spaceDID piriClient allocResp).2]
      exact hurl allocResp
  | updated spaceDID piriClient allocResp allocateInv allocateRcpt st1 httpPutInv acceptInv err1
      st2 hlen hdid hclient hallocate hstore hput haccept hupdate hrun =>
    obtain ⟨outcome, hrun, -⟩ := hrun
    rw [hrun] at h
    simp only [List.mem_append, List.mem_singleton] at h
    rcases h with (h | h) | h
    · exact absurd h (hpre _ _ _)
    · simp only [Event.PutAllocation.injEq] at h
      obtain ⟨rfl, rfl, -⟩ := h
      refine ⟨spaceDID, piriClient, allocResp, allocateInv, allocateRcpt, hclient, hallocate,
        rfl, rfl, ?_⟩
      rw [(hrec spaceDID piriClient allocResp).2]
      exact hurl allocResp
    · simp only [Event.PutAllocation.injEq] at h
      obtain ⟨rfl, rfl, -⟩ := h
      refine ⟨spaceDID, piriClient, allocResp, allocateInv, allocateRcpt, hclient, hallocate,
        rfl, rfl, ?_⟩
      have hu : ((spaceBlobAdd.record lib s clock blobInfo inv st spaceDID piriClient
          allocResp).setAcceptInvLink (lib.link acceptInv)).UploadURL
          = (spaceBlobAdd.uploadURL s.State st allocResp).1 := rfl
      rw [hu]
      exact hurl allocResp

/-- C26, amended, on the small deployment, whose node returns an address. -/
theorem spaceBlobAdd_uploadURL_witness :
    ∃ alloc err,
      Event.PutAllocation (hexEncode demoBlob.digest) alloc err ∈
        (spaceBlobAdd demoLib demoService demoBlobProvider demoClock "did:key:zSpace" demoBlob
          demoAddInv demoSigner NewStore).calls ∧
      alloc.PiriNode = "did:web:piri" := by
  have h : Event.PutAllocation (hexEncode demoBlob.digest)
      (spaceBlobAdd.alloc demoLib (demoClock 1) { str := "did:key:zSpace" } demoBlob
        demoAddInv demoClient (some "http://piri/upload/abc")) none ∈
      (spaceBlobAdd demoLib demoService demoBlobProvider demoClock "did:key:zSpace" demoBlob
        demoAddInv demoSigner NewStore).calls := by
    simp [spaceBlobAdd, spaceBlobAdd.req, spaceBlobAdd.alloc, spaceBlobAdd.uploadURL,
      spaceBlobAdd.httpPutInv, spaceBlobAdd.acceptInv, spaceBlobAdd.concludeInv,
      hexEncode_length, demoBlob, demoLib, demoService, demoClient, Client.Allocate,
      Client.PiriDID,
      Client.fetchDelegationOpts, Invoke, collectFacts, optFacts, optProofs, hasNoExpiration,
      httpPutFact.ToIPLD, Response.Get, Out.Unwrap, attachBlocks, Store.asStateStore,
      Store.PutAllocation, Allocation.setAcceptInvLink]
  obtain ⟨spaceDID, piriClient, allocResp, allocateInv, allocateRcpt, hclient, -, -, hnode, -⟩ :=
    spaceBlobAdd_uploadURL _ _ _ _ _ _ _ _ _ _ _ _ h
  refine ⟨_, _, h, ?_⟩
  rw [hnode]
  simp only [demoService, Except.ok.injEq, Option.some.injEq] at hclient
  subst hclient
  rfl

/-- C27. `ucan/conclude` reads the invocation the concluded receipt ran and
never its result: for two concluded receipts that ran the same invocation,
whatever their `out` (ok in one, an error in the other), the two runs are the
same run, with the same `Accept` call, the same `CacheLocationClaim` call,
the same `PutReceipt` call, the same outcome and the same store. -/
theorem ucanConclude_ignores_put_outcome {σ : Type} (lib : Lib) (s : Service σ)
    (clock : Nat → Nat) (receiptLink1 receiptLink2 : Link) (inv1 inv2 : Invocation) (st : σ)
    (rcpt1 rcpt2 : AnyReceipt)
    (h1 : lib.readReceipt receiptLink1 inv1.blocks = .ok rcpt1)
    (h2 : lib.readReceipt receiptLink2 inv2.blocks = .ok rcpt2)
    (hran : rcpt1.ran = rcpt2.ran) :
    ucanConclude lib s clock receiptLink1 inv1 st
      = ucanConclude lib s clock receiptLink2 inv2 st := by
  unfold ucanConclude
  simp only [h1, h2, hran]

/-- C27 on the small deployment: the receipt under `bafy-put-receipt` reports
ok, the one under `bafy-put-receipt-failed` an error, both ran `demoPutInv`;
the two runs are the same, and both store the accept receipt. -/
theorem ucanConclude_ignores_put_outcome_witness :
    (∃ rcpt1 rcpt2 n1 n2,
      demoLibFailedPut.readReceipt { cid := "bafy-put-receipt" } demoConcludeInv.blocks
        = .ok rcpt1 ∧
      demoLibFailedPut.readReceipt { cid := "bafy-put-receipt-failed" } demoConcludeInv.blocks
        = .ok rcpt2 ∧
      rcpt1.out = .ok n1 ∧ rcpt2.out = .error n2) ∧
    ucanConclude demoLibFailedPut demoServiceIndexed demoClock { cid := "bafy-put-receipt" }
        demoConcludeInv demoStore
      = ucanConclude demoLibFailedPut demoServiceIndexed demoClock
        { cid := "bafy-put-receipt-failed" } demoConcludeInv demoStore ∧
    ∃ stored, Event.PutReceipt "bafy-accept" stored none ∈
      (ucanConclude demoLibFailedPut demoServiceIndexed demoClock
        { cid := "bafy-put-receipt-failed" } demoConcludeInv demoStore).calls := by
  refine ⟨⟨_, _, _, _, rfl, rfl, rfl, rfl⟩,
    ucanConclude_ignores_put_outcome demoLibFailedPut demoServiceIndexed demoClock
      { cid := "bafy-put-receipt" } { cid := "bafy-put-receipt-failed" } demoConcludeInv
      demoConcludeInv demoStore _ _ rfl rfl rfl, ?_⟩
  simp [ucanConclude, ucanConclude.req, ucanConclude.cacheLocationClaim, ucanConclude.stored,
    acknowledge, receiptIssue, hexEncode_length, demoBlob, demoLibFailedPut, demoLib,
    demoServiceIndexed, demoService, demoClient, demoIndexer, didToPeerID,
    demoPutInv, demoConcludeInv, demoStore, demoAllocation, Ran.Invocation, PutAbility,
    Client.Accept, Client.fetchDelegationOpts, Invoke, collectFacts, optFacts, optProofs,
    hasNoExpiration, Response.Get, Out.Unwrap, Store.asStateStore, Store.PutAllocation,
    Store.GetAllocation, Store.PutReceipt, Link.String, NewStore]

/-- C28. `space/blob/add` is not atomic on a late failure. When the first
`PutAllocation` of a run succeeded and the second, which records the accept
link, failed with `e`, the run returns the failure `updating allocation: e`,
the first record has no accept link and the second record is the first with
the link set; over a store that reads back a successful write and whose failed
write leaves the key as it was, `GetAllocation` of the digest key returns the
first record afterwards. A run that makes no `PutAllocation` call leaves the
store as it was, and so does every return before the first `PutAllocation`:
an invalid space DID, a failed or empty provider lookup, a failed
`Allocate`. -/
theorem spaceBlobAdd_late_failure {σ : Type} (lib : Lib) (s : Service σ)
    (blobProvider : Signer) (clock : Nat → Nat) (capWith : String) (blobInfo : Blob)
    (inv : Invocation) (iCtxID : Signer) (st : σ) :
    (∀ key1 key2 alloc1 alloc2 e,
      Event.PutAllocation key1 alloc1 none ∈
        (spaceBlobAdd lib s blobProvider clock capWith blobInfo inv iCtxID st).calls →
      Event.PutAllocation key2 alloc2 (some e) ∈
        (spaceBlobAdd lib s blobProvider clock capWith blobInfo inv iCtxID st).calls →
      (spaceBlobAdd lib s blobProvider clock capWith blobInfo inv iCtxID st).outcome
        = .failure ("updating allocation: " ++ e) ∧
      key1 = hexEncode blobInfo.digest ∧ key2 = hexEncode blobInfo.digest ∧
      alloc1.AcceptInvLink = none ∧
      (∃ link, alloc2 = alloc1.setAcceptInvLink link) ∧
      ((∀ st1 k a st2, s.State.PutAllocation st1 k a = (none, st2) →
          s.State.GetAllocation st2 k = .ok (some a)) →
        (∀ st1 k a e1 st2, s.State.PutAllocation st1 k a = (some e1, st2) →
          s.State.GetAllocation st2 k = s.State.GetAllocation st1 k) →
        s.State.GetAllocation
          (spaceBlobAdd lib s blobProvider clock capWith blobInfo inv iCtxID st).store
          (hexEncode blobInfo.digest) = .ok (some alloc1))) ∧
    ((∀ key alloc err, Event.PutAllocation key alloc err ∉
        (spaceBlobAdd lib s blobProvider clock capWith blobInfo inv iCtxID st).calls) →
      (spaceBlobAdd lib s blobProvider clock capWith blobInfo inv iCtxID st).store = st) ∧
    ((∀ e, lib.didParse capWith = .error e →
        (spaceBlobAdd lib s blobProvider clock capWith blobInfo inv iCtxID st).store = st) ∧
      (∀ e, s.PiriClient = .error e →
        (spaceBlobAdd lib s blobProvider clock capWith blobInfo inv iCtxID st).store = st) ∧
      (s.PiriClient = .ok none →
        (spaceBlobAdd lib s blobProvider clock capWith blobInfo inv iCtxID st).store = st) ∧
      (∀ spaceDID piriClient e, lib.didParse capWith = .ok spaceDID →
        s.PiriClient = .ok (some piriClient) →
        piriClient.Allocate lib (clock 0) (spaceBlobAdd.req lib spaceDID blobInfo inv)
          = .error e →
        (spaceBlobAdd lib s blobProvider clock capWith blobInfo inv iCtxID st).store = st)) := by
  have hpre : ∀ spaceDID piriClient allocResp key alloc err,
      Event.PutAllocation key alloc err ∉
        spaceBlobAdd.allocated lib s blobInfo inv st spaceDID piriClient allocResp := by
    intro spaceDID piriClient allocResp key alloc err hm
    rcases spaceBlobAdd.allocated_calls _ _ _ _ _ _ _ _ _ hm with h | h | ⟨_, h⟩ <;> cases h
  refine ⟨?_, ?_, ?_⟩
  · intro key1 key2 alloc1 alloc2 e h1 h2
    cases spaceBlobAdd_exit lib s blobProvider clock capWith blobInfo inv iCtxID st with
    | slice hlen hrun => rw [hrun] at h1; simp at h1
    | invalidDID e hlen hdid hrun => rw [hrun] at h1; simp at h1
    | clientError spaceDID e hlen hdid hclient hrun => rw [hrun] at h1; simp at h1
    | noProvider spaceDID hlen hdid hclient hrun => rw [hrun] at h1; simp at h1
    | allocateFailed spaceDID piriClient e hlen hdid hclient hallocate hrun =>
      rw [hrun] at h1; simp at h1
    | storeFailed spaceDID piriClient allocResp allocateInv allocateRcpt e st1 hlen hdid
        hclient hallocate hstore hrun =>
      rw [hrun] at h1
      simp only [List.mem_append, List.mem_singleton] at h1
      rcases h1 with h1 | h1
      · exact absurd h1 (hpre _ _ _ _ _ _)
      · cases h1
    | invokeFailed spaceDID piriClient allocResp allocateInv allocateRcpt st1 e hlen hdid
        hclient hallocate hstore hinvoke hrun =>
      obtain ⟨message, hrun⟩ := hrun
      rw [hrun] at h2
      simp only [List.mem_append, List.mem_singleton] at h2
      rcases h2 with h2 | h2
      · exact absurd h2 (hpre _ _ _ _ _ _)
      · cases h2
    | updated spaceDID piriClient allocResp allocateInv allocateRcpt st1 httpPutInv acceptInv
        err st2 hlen hdid hclient hallocate hstore hput haccept hupdate hrun =>
      obtain ⟨outcome, hrun, hfail, -⟩ := hrun
      rw [hrun] at h1 h2 ⊢
      simp only [List.mem_append, List.mem_singleton] at h1 h2
      rcases h2 with (h2 | h2) | h2
      · exact absurd h2 (hpre _ _ _ _ _ _)
      · cases h2
      simp only [Event.PutAllocation.injEq] at h2
      obtain ⟨rfl, rfl, rfl⟩ := h2
      rcases h1 with (h1 | h1) | h1
      · exact absurd h1 (hpre _ _ _ _ _ _)
      swap
      · simp only [Event.PutAllocation.injEq] at h1
        exact absurd h1.2.2 (by simp)
      simp only [Event.PutAllocation.injEq] at h1
      obtain ⟨rfl, rfl, -⟩ := h1
      refine ⟨hfail e rfl, rfl, rfl, rfl, ⟨_, rfl⟩, ?_⟩
      intro hback hkeep
      rw [hkeep _ _ _ _ _ hupdate]
      exact hback _ _ _ _ hstore
  · intro hno
    cases spaceBlobAdd_exit lib s blobProvider clock capWith blobInfo inv iCtxID st with
    | slice hlen hrun => rw [hrun]
    | invalidDID e hlen hdid hrun => rw [hrun]
    | clientError spaceDID e hlen hdid hclient hrun => rw [hrun]
    | noProvider spaceDID hlen hdid hclient hrun => rw [hrun]
    | allocateFailed spaceDID piriClient e hlen hdid hclient hallocate hrun => rw [hrun]
    | storeFailed spaceDID piriClient allocResp allocateInv allocateRcpt e st1 hlen hdid
        hclient hallocate hstore hrun =>
      rw [hrun] at hno
      exact absurd (List.mem_append_right _ (List.mem_singleton.mpr rfl)) (hno _ _ _)
    | invokeFailed spaceDID piriClient allocResp allocateInv allocateRcpt st1 e hlen hdid
        hclient hallocate hstore hinvoke hrun =>
      obtain ⟨message, hrun⟩ := hrun
      rw [hrun] at hno
      exact absurd (List.mem_append_right _ (List.mem_singleton.mpr rfl)) (hno _ _ _)
    | updated spaceDID piriClient allocResp allocateInv allocateRcpt st1 httpPutInv acceptInv
        err st2 hlen hdid hclient hallocate hstore hput haccept hupdate hrun =>
      obtain ⟨outcome, hrun, -⟩ := hrun
      rw [hrun] at hno
      exact absurd (List.mem_append_right _ (List.mem_singleton.mpr rfl)) (hno _ _ _)
  · by_cases hlen : (hexEncode blobInfo.digest).length < 16
    · simp [spaceBlobAdd, hlen]
    refine ⟨?_, ?_, ?_, ?_⟩
    · intro e hd
      simp [spaceBlobAdd, hlen, hd]
    · intro e hc
      cases hd : lib.didParse capWith <;> simp [spaceBlobAdd, hlen, hd, hc]
    · intro hc
      cases hd : lib.didParse capWith <;> simp [spaceBlobAdd, hlen, hd, hc]
    · intro spaceDID piriClient e hd hc ha
      simp [spaceBlobAdd, hlen, hd, hc, ha]

/-- C28 over a store whose `PutAllocation` fails once the record carries its
accept link: the run fails with `updating allocation: disk full` and the
first record, without accept link, is left under the digest key. -/
theorem spaceBlobAdd_late_failure_witness :
    (spaceBlobAdd demoLib demoServiceLateFail demoBlobProvider demoClock "did:key:zSpace"
      demoBlob demoAddInv demoSigner NewStore).outcome
      = .failure "updating allocation: disk full" ∧
    ∃ alloc1,
      demoLateFailStore.GetAllocation
        (spaceBlobAdd demoLib demoServiceLateFail demoBlobProvider demoClock "did:key:zSpace"
          demoBlob demoAddInv demoSigner NewStore).store (hexEncode demoBlob.digest)
        = .ok (some alloc1) ∧
      alloc1.AcceptInvLink = none := by
  have h1 : ∃ alloc1, Event.PutAllocation (hexEncode demoBlob.digest) alloc1 none ∈
      (spaceBlobAdd demoLib demoServiceLateFail demoBlobProvider demoClock "did:key:zSpace"
        demoBlob demoAddInv demoSigner NewStore).calls := by
    simp [spaceBlobAdd, spaceBlobAdd.req, spaceBlobAdd.alloc, spaceBlobAdd.uploadURL,
      spaceBlobAdd.httpPutInv, spaceBlobAdd.acceptInv, spaceBlobAdd.concludeInv,
      hexEncode_length, demoBlob, demoLib, demoServiceLateFail, demoLateFailStore,
      demoService, demoClient, Client.Allocate, Client.PiriDID,
      Client.fetchDelegationOpts, Invoke, collectFacts, optFacts, optProofs, hasNoExpiration,
      httpPutFact.ToIPLD, Response.Get, Out.Unwrap, attachBlocks, Store.asStateStore,
      Store.PutAllocation, Allocation.setAcceptInvLink]
  have h2 : ∃ alloc2, Event.PutAllocation (hexEncode demoBlob.digest) alloc2
      (some "disk full") ∈
      (spaceBlobAdd demoLib demoServiceLateFail demoBlobProvider demoClock "did:key:zSpace"
        demoBlob demoAddInv demoSigner NewStore).calls := by
    simp [spaceBlobAdd, spaceBlobAdd.req, spaceBlobAdd.alloc, spaceBlobAdd.uploadURL,
      spaceBlobAdd.httpPutInv, spaceBlobAdd.acceptInv, spaceBlobAdd.concludeInv,
      hexEncode_length, demoBlob, demoLib, demoServiceLateFail, demoLateFailStore,
      demoService, demoClient, Client.Allocate, Client.PiriDID,
      Client.fetchDelegationOpts, Invoke, collectFacts, optFacts, optProofs, hasNoExpiration,
      httpPutFact.ToIPLD, Response.Get, Out.Unwrap, attachBlocks, Store.asStateStore,
      Store.PutAllocation, Allocation.setAcceptInvLink]
  obtain ⟨alloc1, h1⟩ := h1
  obtain ⟨alloc2, h2⟩ := h2
  obtain ⟨ho, -, -, hnone, -, hget⟩ :=
    (spaceBlobAdd_late_failure demoLib demoServiceLateFail demoBlobProvider demoClock
      "did:key:zSpace" demoBlob demoAddInv demoSigner NewStore).1 _ _ alloc1 alloc2
      "disk full" h1 h2
  refine ⟨ho, alloc1, hget ?_ ?_, hnone⟩
  · intro st1 k a st2 h
    simp only [demoServiceLateFail, demoLateFailStore] at h ⊢
    cases hl : a.AcceptInvLink with
    | some l => simp [hl] at h
    | none =>
      simp only [hl, Store.PutAllocation, Prod.mk.injEq, true_and] at h
      subst h
      simp [Store.asStateStore, Store.GetAllocation]
  · intro st1 k a e1 st2 h
    simp only [demoServiceLateFail, demoLateFailStore] at h ⊢
    cases hl : a.AcceptInvLink with
    | some l =>
      simp only [hl, Prod.mk.injEq] at h
      rw [h.2]
    | none => simp [hl, Store.PutAllocation] at h

/-- C29 at a short digest. For the three-byte digest of the identity multihash
of one byte the hex digest has six characters: `space/blob/add` aborts on the
log slice `digestHex[:16]` before it does anything else, and so does
`ucan/conclude` for a receipt of an `http/put` of that blob. It is so for
every digest shorter than eight bytes, the empty digest included. -/
theorem short_digest_aborts :
    (hexEncode demoShortBlob.digest).length = 6 ∧
    (spaceBlobAdd demoLib demoService demoBlobProvider demoClock "did:key:zSpace"
      demoShortBlob demoAddInv demoSigner NewStore).outcome = .panic ∧
    (spaceBlobAdd demoLib demoService demoBlobProvider demoClock "did:key:zSpace"
      demoShortBlob demoAddInv demoSigner NewStore).calls = [] ∧
    (ucanConclude demoLibShort demoService demoClock { cid := "bafy-put-receipt" }
      demoConcludeInv demoStore).outcome = .panic ∧
    (ucanConclude demoLibShort demoService demoClock { cid := "bafy-put-receipt" }
      demoConcludeInv demoStore).calls = [] ∧
    (∀ (σ : Type) (lib : Lib) (s : Service σ) (blobProvider : Signer) (clock : Nat → Nat)
      (capWith : String) (blobInfo : Blob) (inv : Invocation) (iCtxID : Signer) (st : σ),
      blobInfo.digest.length < 8 →
      (spaceBlobAdd lib s blobProvider clock capWith blobInfo inv iCtxID st).outcome
        = .panic) ∧
    (∀ (σ : Type) (lib : Lib) (s : Service σ) (clock : Nat → Nat) (receiptLink : Link)
      (inv : Invocation) (st : σ) (ranInv : Invocation) (body : Body),
      ucanConclude.IsPut lib receiptLink inv ranInv body →
      body.digest.length < 8 →
      (ucanConclude lib s clock receiptLink inv st).outcome = .panic) := by
  refine ⟨by rw [hexEncode_length]; rfl, ?_, ?_, ?_, ?_, ?_, ?_⟩
  · simp [spaceBlobAdd, hexEncode_length, demoShortBlob]
  · simp [spaceBlobAdd, hexEncode_length, demoShortBlob]
  · simp [ucanConclude, hexEncode_length, demoLibShort, demoLib, demoShortPutInv, demoPutInv,
      demoShortBlob, Ran.Invocation, PutAbility]
  · simp [ucanConclude, hexEncode_length, demoLibShort, demoLib, demoShortPutInv, demoPutInv,
      demoShortBlob, Ran.Invocation, PutAbility]
  · intro σ lib s blobProvider clock capWith blobInfo inv iCtxID st hlen
    have h16 : (hexEncode blobInfo.digest).length < 16 := by
      rw [hexEncode_length]
      omega
    simp [spaceBlobAdd, h16]
  · intro σ lib s clock receiptLink inv st ranInv body hput hlen
    obtain ⟨rcpt, putCap, rest, putMatch, hr, hran, hcaps, hab, hm, rfl⟩ := hput
    have h16 : (hexEncode putMatch.body.digest).length < 16 := by
      rw [hexEncode_length]
      omega
    simp [ucanConclude, hr, hran, hcaps, hab, hm, h16]

/-- The storage node's `blob/accept` receipt has an ok payload whose `site`
entry is missing or is not a link. Then `Client.Accept` returns the response
with `Site` nil, and no error; and `ucan/conclude`, for an allocation with its
accept link, makes no `CacheLocationClaim` call and, when `receipt.Issue`
returns a receipt for the nil site, stores it under the accept link and
returns ok. -/
theorem ucanConclude_no_site {σ : Type} (lib : Lib) (s : Service σ) (clock : Nat → Nat)
    (receiptLink : Link) (inv : Invocation) (st : σ) (ranInv : Invocation) (body : Body)
    (alloc : Allocation) (piriClient : Client) (opts : List DelegationOption)
    (acceptInv : Invocation) (resp : Response) (rcptLink : Link) (piriRcpt : AnyReceipt)
    (okNode : Node) (link : Link) (reissuedRcpt : Receipt)
    (hput : ucanConclude.IsPut lib receiptLink inv ranInv body)
    (hlen : 8 ≤ body.digest.length)
    (hget : s.State.GetAllocation st (hexEncode body.digest) = .ok (some alloc))
    (hclient : s.PiriClient = .ok (some piriClient))
    (hopts : piriClient.fetchDelegationOpts = .ok opts)
    (hinv : Client.Accept.inv lib (clock 0) piriClient (ucanConclude.req lib alloc body ranInv)
      opts = .ok acceptInv)
    (hconn : piriClient.connection [acceptInv] = .ok resp)
    (hrcpt : resp.Get (lib.link acceptInv) = some rcptLink)
    (hread : lib.readReceipt rcptLink resp.blocks = .ok piriRcpt)
    (hout : piriRcpt.out = .ok (some okNode))
    (hsite : ∀ siteNode siteLink, okNode.LookupByString "site" = .ok siteNode →
      siteNode.AsLink ≠ .ok siteLink)
    (hlink : alloc.AcceptInvLink = some link)
    (hissue : receiptIssue lib s.ID { site := none } (some link) = .ok reissuedRcpt) :
    piriClient.Accept lib (clock 0) (ucanConclude.req lib alloc body ranInv)
      = .ok ({ Site := none }, piriRcpt) ∧
    (ucanConclude lib s clock receiptLink inv st).outcome = .ok {} none ∧
    (∀ claim addrs err, Event.CacheLocationClaim claim addrs err ∉
      (ucanConclude lib s clock receiptLink inv st).calls) ∧
    (∃ err, Event.PutReceipt link.String
        (ucanConclude.stored (clock 2) alloc reissuedRcpt piriRcpt) err ∈
      (ucanConclude lib s clock receiptLink inv st).calls) ∧
    reissuedRcpt.out.site = none ∧ reissuedRcpt.ran = some link := by
  have haccept : piriClient.Accept lib (clock 0) (ucanConclude.req lib alloc body ranInv)
      = .ok ({ Site := none }, piriRcpt) := by
    unfold Client.Accept.inv at hinv
    cases hl : okNode.LookupByString "site" with
    | error e =>
      simp [Client.Accept, hopts, hinv, hconn, hrcpt, hread, hout, Out.Unwrap, hl]
    | ok siteNode =>
      cases ha : siteNode.AsLink with
      | error e =>
        simp [Client.Accept, hopts, hinv, hconn, hrcpt, hread, hout, Out.Unwrap, hl, ha]
      | ok siteLink => exact absurd ha (hsite siteNode siteLink hl)
  have hrun := ucanConclude_reaches_store lib s clock receiptLink inv st ranInv body alloc
    piriClient { Site := none } piriRcpt link reissuedRcpt hput hlen hget hclient haccept hlink
    hissue
  have hr : reissuedRcpt.out.site = none ∧ reissuedRcpt.ran = some link := by
    unfold receiptIssue at hissue
    split at hissue
    · simp at hissue
    · simp only [Except.ok.injEq] at hissue
      subst hissue
      exact ⟨rfl, rfl⟩
  rw [hrun]
  refine ⟨haccept, rfl, ?_,
    ⟨(s.State.PutReceipt st link.String
      (ucanConclude.stored (clock 2) alloc reissuedRcpt piriRcpt)).1, by simp [acknowledge]⟩,
    hr⟩
  intro claim addrs err hmem
  simp [acknowledge, ucanConclude.accepted, ucanConclude.cacheLocationClaim] at hmem

/-- The allocation of `demoBlob` is found in the store of the small
deployment. -/
theorem demo_GetAllocation :
    demoServiceIndexed.State.GetAllocation demoStore (hexEncode demoPutInv_body.digest)
      = .ok (some demoAllocation) := by
  simp [demoServiceIndexed, demoService, demoStore, demoPutInv_body, Store.asStateStore,
    Store.PutAllocation, Store.GetAllocation, NewStore]

/-- The deployment with an indexer, the node's receipt having no `site`
entry and `receipt.Issue` returning a receipt: no `CacheLocationClaim` call, a
receipt without site stored under `bafy-accept`, ok returned. -/
theorem ucanConclude_no_site_witness :
    (ucanConclude demoLibNoSite demoServiceIndexed demoClock { cid := "bafy-put-receipt" }
      demoConcludeInv demoStore).outcome = .ok {} none ∧
    (∀ claim addrs err, Event.CacheLocationClaim claim addrs err ∉
      (ucanConclude demoLibNoSite demoServiceIndexed demoClock { cid := "bafy-put-receipt" }
        demoConcludeInv demoStore).calls) ∧
    ∃ stored err, Event.PutReceipt "bafy-accept" stored err ∈
        (ucanConclude demoLibNoSite demoServiceIndexed demoClock { cid := "bafy-put-receipt" }
          demoConcludeInv demoStore).calls ∧
      stored.Receipt.out.site = none := by
  have hput : ucanConclude.IsPut demoLibNoSite { cid := "bafy-put-receipt" } demoConcludeInv
      demoPutInv demoPutInv_body := by
    refine ⟨_, _, _, _, rfl, ?_, rfl, rfl, rfl, rfl⟩
    simp [Ran.Invocation]
  have hinv : ∃ acceptInv, Client.Accept.inv demoLibNoSite (demoClock 0) demoClient
      (ucanConclude.req demoLibNoSite demoAllocation demoPutInv_body demoPutInv) []
      = .ok acceptInv := ⟨_, rfl⟩
  obtain ⟨acceptInv, hinv⟩ := hinv
  have hconn : ∃ resp, demoClient.connection [acceptInv] = .ok resp ∧
      resp.Get (demoLibNoSite.link acceptInv) = some { cid := "bafy-receipt" } := by
    refine ⟨_, rfl, ?_⟩
    simp [Response.Get, demoLibNoSite]
  obtain ⟨resp, hconn, hrcpt⟩ := hconn
  obtain ⟨h1, h2, h3, ⟨err, h4⟩, h5, -⟩ :=
    ucanConclude_no_site demoLibNoSite demoServiceIndexed demoClock { cid := "bafy-put-receipt" }
      demoConcludeInv demoStore demoPutInv demoPutInv_body demoAllocation demoClient []
      acceptInv resp { cid := "bafy-receipt" } _ (.map []) { cid := "bafy-accept" }
      { issuer := demoSigner.did, ran := some { cid := "bafy-accept" }, out := { site := none } }
      hput (by decide) demo_GetAllocation rfl rfl hinv hconn hrcpt rfl rfl
      (by intro siteNode siteLink h; simp [Node.LookupByString] at h) rfl rfl
  exact ⟨h2, h3, _, err, h4, rfl⟩

/-- C6 at a short digest. The empty store has no allocation for the
three-byte digest of `demoShortBlob`; `ucan/conclude` of the receipt of an
`http/put` of that blob aborts on the log slice `digestHex[:16]`, before the
lookup, and does not return ok. For every digest of eight bytes or more with
no allocation in the store the handler returns ok after the one lookup, makes
no `blob/accept` call and no indexer call, stores no receipt and leaves the
store as it was. -/
theorem ucanConclude_no_allocation_short_digest :
    (Store.asStateStore 0).GetAllocation NewStore (hexEncode demoShortBlob.digest)
      = .ok none ∧
    ucanConclude.IsPut demoLibShort { cid := "bafy-put-receipt" } demoConcludeInv
      demoShortPutInv { digest := demoShortBlob.digest, size := demoShortBlob.size } ∧
    (ucanConclude demoLibShort demoService demoClock { cid := "bafy-put-receipt" }
      demoConcludeInv NewStore).outcome = .panic ∧
    (∀ (σ : Type) (lib : Lib) (s : Service σ) (clock : Nat → Nat) (receiptLink : Link)
      (inv : Invocation) (st : σ) (ranInv : Invocation) (body : Body),
      ucanConclude.IsPut lib receiptLink inv ranInv body →
      8 ≤ body.digest.length →
      s.State.GetAllocation st (hexEncode body.digest) = .ok none →
      (ucanConclude lib s clock receiptLink inv st).outcome = .ok {} none ∧
      (ucanConclude lib s clock receiptLink inv st).calls
        = [.GetAllocation (hexEncode body.digest) (.ok none)] ∧
      (∀ node req err, Event.Accept node req err ∉
        (ucanConclude lib s clock receiptLink inv st).calls) ∧
      (∀ claim addrs err, Event.CacheLocationClaim claim addrs err ∉
        (ucanConclude lib s clock receiptLink inv st).calls) ∧
      (∀ k rcpt err, Event.PutReceipt k rcpt err ∉
        (ucanConclude lib s clock receiptLink inv st).calls) ∧
      (ucanConclude lib s clock receiptLink inv st).store = st) := by
  refine ⟨?_, ?_, ?_, ?_⟩
  · simp [Store.asStateStore, Store.GetAllocation, NewStore]
  · refine ⟨_, _, _, _, rfl, ?_, rfl, rfl, rfl, rfl⟩
    simp [Ran.Invocation]
  · simp [ucanConclude, hexEncode_length, demoLibShort, demoLib, demoShortPutInv, demoPutInv,
      demoShortBlob, Ran.Invocation, PutAbility]
  · intro σ lib s clock receiptLink inv st ranInv body hput hlen hget
    obtain ⟨rcpt, putCap, rest, putMatch, hr, hran, hcaps, hab, hm, rfl⟩ := hput
    have h16 : ¬ (hexEncode putMatch.body.digest).length < 16 := by
      rw [hexEncode_length]
      omega
    simp [ucanConclude, acknowledge, hr, hran, hcaps, hab, hm, h16, hget]

end Smelt
